import Mathlib

/-!
# ataqc: the streaming alignment classifier and the peak index

A shallow embedding of `src/cpp/Metrics.cpp` and `src/cpp/Peaks.cpp`.

Conventions of the embedding:

* `unsigned long long int` counters are `Nat`.  Every counter is raised by at
  most one per alignment record (or by one peak size per peak), so no counter
  wraps on fewer than `2^64` records; wrap-around is outside the embedding.
* `std::map<K, V>` is a list of key/value pairs kept in ascending key order,
  which is the order in which a range-for visits it.
* `double` / `long double` results are values of `Fp`: not-a-number, the two
  infinities, or an exact rational (rounding is not represented).
* The function-local `static` cache of `MetricsCollector::is_autosomal` is
  process-wide state; it is threaded explicitly as a `Refcache`.
* The stream written by `log_problematic_read` is the list of its arguments.
-/

namespace Ataqc

/-! ## Alignment records (`bam1_t`) and the flag tests of `HTS.hpp` -/

/-- The fields of `bam1_t` that `Metrics.cpp` reads: `core.flag`, `core.qual`,
`core.tid`, `core.mtid`, `core.pos`, `core.mpos`, `core.isize` and the read
name returned by `get_qname`.  `core.isize` is a 32-bit signed integer: its
values lie between -2147483648 and 2147483647. -/
structure Record where
  flag : Nat
  qual : Nat
  tid : Int
  mtid : Int
  pos : Int
  mpos : Int
  isize : Int
  qname : String
deriving DecidableEq

/-- The part of `bam_hdr_t` that `Metrics.cpp` reads: `target_name`, the array
of reference names indexed by reference id. -/
structure Header where
  target_name : List String
deriving DecidableEq

/-- The reference name `header->target_name[tid]`; the source only evaluates
it under the test `tid >= 0`. -/
def Header.name_of (header : Header) (tid : Int) : String :=
  header.target_name.getD tid.toNat ""

/-- Modelled from the spec: the macro `IS_PAIRED` of `HTS.hpp`, which is not
among the sources; the "paired" boolean flag of a record (SAM flag bit 0x1). -/
def IS_PAIRED (r : Record) : Bool := r.flag.testBit 0

/-- Modelled from the spec: the macro `IS_PROPERLYPAIRED` of `HTS.hpp`, which
is not among the sources; the aligner-asserted "properly paired" flag (SAM
flag bit 0x2). -/
def IS_PROPERLYPAIRED (r : Record) : Bool := r.flag.testBit 1

/-- Modelled from the spec: the macro `IS_UNMAPPED` of `HTS.hpp`, which is not
among the sources; the "unmapped" flag (SAM flag bit 0x4). -/
def IS_UNMAPPED (r : Record) : Bool := r.flag.testBit 2

/-- Modelled from the spec: the macro `IS_MATE_UNMAPPED` of `HTS.hpp`, which is
not among the sources; the "mate unmapped" flag (SAM flag bit 0x8). -/
def IS_MATE_UNMAPPED (r : Record) : Bool := r.flag.testBit 3

/-- Modelled from the spec: the macro `IS_REVERSE` of `HTS.hpp`, which is not
among the sources; the "reverse strand" flag (SAM flag bit 0x10). -/
def IS_REVERSE (r : Record) : Bool := r.flag.testBit 4

/-- Modelled from the spec: the macro `IS_MATE_REVERSE` of `HTS.hpp`, which is
not among the sources; the "mate on reverse strand" flag (SAM flag bit 0x20). -/
def IS_MATE_REVERSE (r : Record) : Bool := r.flag.testBit 5

/-- Modelled from the spec: the macro `IS_READ1` of `HTS.hpp`, which is not
among the sources; the "read 1" flag (SAM flag bit 0x40). -/
def IS_READ1 (r : Record) : Bool := r.flag.testBit 6

/-- Modelled from the spec: the macro `IS_READ2` of `HTS.hpp`, which is not
among the sources; the "read 2" flag (SAM flag bit 0x80). -/
def IS_READ2 (r : Record) : Bool := r.flag.testBit 7

/-- Modelled from the spec: the macro `IS_SECONDARY` of `HTS.hpp`, which is not
among the sources; the "secondary alignment" flag (SAM flag bit 0x100). -/
def IS_SECONDARY (r : Record) : Bool := r.flag.testBit 8

/-- Modelled from the spec: the macro `IS_QCFAIL` of `HTS.hpp`, which is not
among the sources; the "QC-fail" flag (SAM flag bit 0x200). -/
def IS_QCFAIL (r : Record) : Bool := r.flag.testBit 9

/-- Modelled from the spec: the macro `IS_DUP` of `HTS.hpp`, which is not among
the sources; the "duplicate" flag (SAM flag bit 0x400). -/
def IS_DUP (r : Record) : Bool := r.flag.testBit 10

/-- Modelled from the spec: the macro `IS_SUPPLEMENTARY` of `HTS.hpp`, which is
not among the sources; the "supplementary alignment" flag (SAM flag bit
0x800). -/
def IS_SUPPLEMENTARY (r : Record) : Bool := r.flag.testBit 11

/-- Modelled from the spec: the macro `IS_PAIRED_AND_MAPPED` of `HTS.hpp`,
which is not among the sources; "paired and mapped (both mapped)": the paired
flag is set and neither the read nor its mate is unmapped. -/
def IS_PAIRED_AND_MAPPED (r : Record) : Bool :=
  IS_PAIRED r && !IS_UNMAPPED r && !IS_MATE_UNMAPPED r

/-- Modelled from the spec: the macro `IS_ORIGINAL` of `HTS.hpp`, which is not
among the sources; an "original" alignment is neither secondary nor
supplementary. -/
def IS_ORIGINAL (r : Record) : Bool := !IS_SECONDARY r && !IS_SUPPLEMENTARY r

/-! ## `std::map` as a key-ascending association list -/

/-- The statement `counts[k]++` on a `std::map` from integer keys to counts:
the entry for `k` is created with value 0 when missing, then raised by one. -/
def count_increment (k : Nat) : List (Nat × Nat) → List (Nat × Nat)
  | [] => [(k, 1)]
  | (k', c) :: rest =>
    if k < k' then (k, 1) :: (k', c) :: rest
    else if k = k' then (k', c + 1) :: rest
    else (k', c) :: count_increment k rest

/-- The comparison `a < b` of `std::string`, which orders the keys of a
`std::map<std::string, V>`: lexicographic on the characters. -/
def string_lt (a b : String) : Bool := decide (a.data < b.data)

/-- The statement `sizes[name].push_back(v)` on a `std::map` from read names to
vectors: the entry for `name` is created empty when missing, then extended. -/
def sizes_push_back (name : String) (v : Nat) :
    List (String × List Nat) → List (String × List Nat)
  | [] => [(name, [v])]
  | (n, vs) :: rest =>
    if string_lt name n then (name, [v]) :: (n, vs) :: rest
    else if name = n then (n, vs ++ [v]) :: rest
    else (n, vs) :: sizes_push_back name v rest

/-! ## Features and peaks (`Features.hpp`, `Peaks.cpp`) -/

/-- A genomic interval with a name; the class `Feature` of `Features.hpp`. -/
structure Feature where
  reference : String
  start : Nat
  end_ : Nat
  name : String
deriving DecidableEq

/-- A peak: a `Feature` with the mutable counter `overlapping_hqaa`. -/
structure Peak extends Feature where
  overlapping_hqaa : Nat
deriving DecidableEq

/-- Modelled from the spec: `Feature::overlaps` of `Features.cpp`, which is
not among the sources; two intervals overlap iff they share the same reference
and their coordinate ranges intersect (inclusive bounds, as in
`ReferencePeakCollection::overlaps`). -/
def Feature.overlaps (f other : Feature) : Bool :=
  f.reference == other.reference && decide (f.start ≤ other.end_) &&
    decide (other.start ≤ f.end_)

/-- Modelled from the spec: `Feature::size` of `Features.cpp`, which is not
among the sources; the interval size `end - start` of a feature with
`start <= end`. -/
def Feature.size (f : Feature) : Nat := f.end_ - f.start

/-- Code of `Features.cpp` used by `Metrics.cpp` and `Peaks.cpp` of which
neither the sources nor the spec give a definition: the comparison
`hqaa < peak` of a feature with a peak that `std::upper_bound` searches with,
and the constructor `Feature(header, record)` of an alignment's footprint. -/
structure FeatureOps where
  lt : Feature → Peak → Bool
  of_record : Header → Record → Feature

/-- The class `ReferencePeakCollection`: the peaks of one reference in
insertion order, with the cached bounds `start` and `end`. -/
structure ReferencePeakCollection where
  reference : String
  start : Nat
  end_ : Nat
  peaks : List Peak
deriving DecidableEq

/-- A default-constructed `ReferencePeakCollection`, as created by
`tree[reference_name]` for a reference that has no entry yet. -/
def ReferencePeakCollection.empty : ReferencePeakCollection :=
  { reference := "", start := 0, end_ := 0, peaks := [] }

/-- `ReferencePeakCollection::overlaps` (Peaks.cpp 79-81). -/
def ReferencePeakCollection.overlaps (c : ReferencePeakCollection)
    (feature : Feature) : Bool :=
  !c.peaks.isEmpty && c.reference == feature.reference &&
    (decide (c.start ≤ feature.end_) || decide (feature.start ≤ c.end_))

/-- The binary search of `std::upper_bound(first, last, value)` over the
range of `len` elements starting at index `first`; it narrows the range until
it is empty and returns the index it ends on.  On a range partitioned by
`value < element` this is the first element with `value < element`.  The
range at least halves in every round, so a `fuel` of `len` is never used up. -/
def upper_bound_loop (ops : FeatureOps) (value : Feature) (peaks : List Peak) :
    Nat → Nat → Nat → Nat
  | 0, first, _ => first
  | fuel + 1, first, len =>
    if len = 0 then first
    else
      let half := len / 2
      let middle := first + half
      match peaks.get? middle with
      | none => first
      | some p =>
        if ops.lt value p then
          upper_bound_loop ops value peaks fuel first half
        else
          upper_bound_loop ops value peaks fuel (middle + 1) (len - half - 1)

/-- `std::upper_bound(rpc->peaks.begin(), rpc->peaks.end(), hqaa)`, as an
index into `peaks`. -/
def upper_bound (ops : FeatureOps) (peaks : List Peak) (value : Feature) : Nat :=
  upper_bound_loop ops value peaks peaks.length 0 peaks.length

/-- The loop of `increment_overlapping_hqaa` (Peaks.cpp 105-111): raise the
count of each peak in turn while it overlaps the feature, and stop at the
first one that does not. -/
def increment_while_overlapping (hqaa : Feature) : List Peak → List Peak
  | [] => []
  | p :: rest =>
    if p.toFeature.overlaps hqaa then
      { p with overlapping_hqaa := p.overlapping_hqaa + 1 } ::
        increment_while_overlapping hqaa rest
    else p :: rest

/-- The body of `increment_overlapping_hqaa` for the collection `rpc`. -/
def ReferencePeakCollection.increment_overlapping_hqaa (ops : FeatureOps)
    (rpc : ReferencePeakCollection) (hqaa : Feature) : ReferencePeakCollection :=
  if rpc.overlaps hqaa then
    let i := upper_bound ops rpc.peaks hqaa
    { rpc with peaks := rpc.peaks.take i ++ increment_while_overlapping hqaa (rpc.peaks.drop i) }
  else rpc

/-- The class `PeakTree`: a `std::map` from reference names to collections. -/
structure PeakTree where
  tree : List (String × ReferencePeakCollection)
deriving DecidableEq

/-- `PeakTree::empty` (Peaks.cpp 89-91). -/
def PeakTree.empty (t : PeakTree) : Bool := t.tree.isEmpty

/-- The access `tree[reference_name]` followed by an update `f` of the
collection found there; the entry is created when missing. -/
def tree_update (reference_name : String)
    (f : ReferencePeakCollection → ReferencePeakCollection) :
    List (String × ReferencePeakCollection) → List (String × ReferencePeakCollection)
  | [] => [(reference_name, f ReferencePeakCollection.empty)]
  | (n, c) :: rest =>
    if string_lt reference_name n then
      (reference_name, f ReferencePeakCollection.empty) :: (n, c) :: rest
    else if reference_name = n then (n, f c) :: rest
    else (n, c) :: tree_update reference_name f rest

/-- `PeakTree::increment_overlapping_hqaa` (Peaks.cpp 99-113). -/
def PeakTree.increment_overlapping_hqaa (ops : FeatureOps) (t : PeakTree)
    (hqaa : Feature) : PeakTree :=
  { tree := tree_update hqaa.reference
      (fun rpc => rpc.increment_overlapping_hqaa ops hqaa) t.tree }

/-- `ReferencePeakCollection::add` (Peaks.cpp 58-76): the collection as the
call leaves it, and whether the call threw `std::out_of_range("Peak reference
does not match collection.")`.  The peak is pushed before the reference is
tested; the bounds are only updated when the call does not throw. -/
def ReferencePeakCollection.add (c : ReferencePeakCollection) (peak : Peak) :
    ReferencePeakCollection × Bool :=
  let c := { c with peaks := c.peaks ++ [peak] }
  if c.reference ≠ peak.reference ∧ c.reference ≠ "" then (c, true)
  else
    let c := if c.reference ≠ peak.reference then { c with reference := peak.reference } else c
    let c := if c.start = 0 ∨ c.start > peak.start then { c with start := peak.start } else c
    let c := if c.end_ = 0 ∨ c.end_ < peak.end_ then { c with end_ := peak.end_ } else c
    (c, false)

/-- The collection that `tree[reference_name]` refers to (the search that
`tree_update` makes): the entry of the map, or a default-constructed
collection when there is none yet. -/
def tree_find (reference_name : String) :
    List (String × ReferencePeakCollection) → ReferencePeakCollection
  | [] => ReferencePeakCollection.empty
  | (n, c) :: rest =>
    if string_lt reference_name n then ReferencePeakCollection.empty
    else if reference_name = n then c
    else tree_find reference_name rest

/-- `PeakTree::add` (Peaks.cpp 84-86): the tree as the call leaves it, and
whether `ReferencePeakCollection::add` threw. -/
def PeakTree.add (t : PeakTree) (peak : Peak) : PeakTree × Bool :=
  ({ tree := tree_update peak.reference (fun c => (c.add peak).1) t.tree },
   ((tree_find peak.reference t.tree).add peak).2)

/-- The peaks of all collections, in the order in which the loops of
`list_peaks` and `list_peaks_by_overlapping_hqaa_descending` (Peaks.cpp
118-122, 130-134) collect them before sorting. -/
def PeakTree.all_peaks (t : PeakTree) : List Peak :=
  t.tree.flatMap (fun e => e.2.peaks)

/-! ## The collector and the aggregator state (`Metrics.hpp`) -/

/-- The fields of `MetricsCollector` read while records are classified. -/
structure MetricsCollector where
  organism : String
  autosomal_references : List (String × List String)
  mitochondrial_reference_name : String
  excluded_regions : List Feature
  peak_filename : String
  log_problematic_reads : Bool
deriving DecidableEq

/-- The `static std::map<std::string, bool> refcache` of
`MetricsCollector::is_autosomal`: one per process, shared by all collectors. -/
abbrev Refcache := List (String × Bool)

/-- The second argument of a `log_problematic_read` call: the record that
`record_to_string` renders, or a read name. -/
inductive ProblemSubject where
  | record (header : Header) (r : Record)
  | read_name (name : String)
deriving DecidableEq

/-- The state of one `Metrics` object (one read group). -/
structure Metrics where
  name : String
  collector : MetricsCollector
  log_problematic_reads : Bool
  problematic_read_stream : List (String × ProblemSubject)
  peaks_requested : Bool
  peaks : PeakTree
  total_peak_territory : Nat
  total_reads : Nat
  forward_reads : Nat
  reverse_reads : Nat
  secondary_reads : Nat
  supplementary_reads : Nat
  duplicate_reads : Nat
  first_reads : Nat
  second_reads : Nat
  forward_mate_reads : Nat
  reverse_mate_reads : Nat
  paired_reads : Nat
  paired_and_mapped_reads : Nat
  fr_reads : Nat
  qcfailed_reads : Nat
  unpaired_reads : Nat
  unmapped_reads : Nat
  unmapped_mate_reads : Nat
  reads_with_mate_mapped_to_different_reference : Nat
  reads_mapped_with_zero_quality : Nat
  reads_with_mate_too_distant : Nat
  rf_reads : Nat
  ff_reads : Nat
  rr_reads : Nat
  reads_mapped_and_paired_but_improperly : Nat
  properly_paired_and_mapped_reads : Nat
  unclassified_reads : Nat
  total_autosomal_reads : Nat
  total_mitochondrial_reads : Nat
  duplicate_autosomal_reads : Nat
  duplicate_mitochondrial_reads : Nat
  hqaa : Nat
  hqaa_short_count : Nat
  hqaa_mononucleosomal_count : Nat
  hqaa_in_peaks : Nat
  top_peak_hqaa_read_count : Nat
  top_10_peak_hqaa_read_count : Nat
  top_100_peak_hqaa_read_count : Nat
  top_1000_peak_hqaa_read_count : Nat
  top_10000_peak_hqaa_read_count : Nat
  maximum_proper_pair_fragment_size : Nat
  mapq_counts : List (Nat × Nat)
  fragment_length_counts : List (Nat × Nat)
  hqaa_fragment_length_counts : List (Nat × Nat)
  unlikely_fragment_sizes : List (String × List Nat)
deriving DecidableEq

/-- A `Metrics` object as its constructor leaves it when the collector names
no peak file: every counter zero, every map empty, no peaks (the member
initialisers are those of `Metrics.hpp`, which is not among the sources; the
spec has every count start at 0). -/
def Metrics.fresh (collector : MetricsCollector) (name : String) : Metrics :=
  { name := name
    collector := collector
    log_problematic_reads := collector.log_problematic_reads
    problematic_read_stream := []
    peaks_requested := false
    peaks := { tree := [] }
    total_peak_territory := 0
    total_reads := 0
    forward_reads := 0
    reverse_reads := 0
    secondary_reads := 0
    supplementary_reads := 0
    duplicate_reads := 0
    first_reads := 0
    second_reads := 0
    forward_mate_reads := 0
    reverse_mate_reads := 0
    paired_reads := 0
    paired_and_mapped_reads := 0
    fr_reads := 0
    qcfailed_reads := 0
    unpaired_reads := 0
    unmapped_reads := 0
    unmapped_mate_reads := 0
    reads_with_mate_mapped_to_different_reference := 0
    reads_mapped_with_zero_quality := 0
    reads_with_mate_too_distant := 0
    rf_reads := 0
    ff_reads := 0
    rr_reads := 0
    reads_mapped_and_paired_but_improperly := 0
    properly_paired_and_mapped_reads := 0
    unclassified_reads := 0
    total_autosomal_reads := 0
    total_mitochondrial_reads := 0
    duplicate_autosomal_reads := 0
    duplicate_mitochondrial_reads := 0
    hqaa := 0
    hqaa_short_count := 0
    hqaa_mononucleosomal_count := 0
    hqaa_in_peaks := 0
    top_peak_hqaa_read_count := 0
    top_10_peak_hqaa_read_count := 0
    top_100_peak_hqaa_read_count := 0
    top_1000_peak_hqaa_read_count := 0
    top_10000_peak_hqaa_read_count := 0
    maximum_proper_pair_fragment_size := 0
    mapq_counts := []
    fragment_length_counts := []
    hqaa_fragment_length_counts := []
    unlikely_fragment_sizes := [] }

/-- A `Metrics` object as its constructor leaves it in general (Metrics.cpp
271-292): a fresh object whose `peaks_requested`, `peaks` and
`total_peak_territory` are what `load_peaks` made of the peak file, if any. -/
def Metrics.constructed (collector : MetricsCollector) (name : String)
    (peaks_requested : Bool) (peaks : PeakTree) (total_peak_territory : Nat) : Metrics :=
  { Metrics.fresh collector name with
    peaks_requested := peaks_requested
    peaks := peaks
    total_peak_territory := total_peak_territory }

/-- `Metrics::log_problematic_read` (Metrics.cpp 300-312): append the problem
and its subject to the stream when logging is on. -/
def Metrics.log_problematic_read (m : Metrics) (problem : String)
    (subject : ProblemSubject) : Metrics :=
  if !m.log_problematic_reads then m
  else { m with problematic_read_stream := m.problematic_read_stream ++ [(problem, subject)] }

/-- The guarded call `if (log_problematic_reads) log_problematic_read(...)`. -/
def Metrics.log_if (m : Metrics) (problem : String) (subject : ProblemSubject) : Metrics :=
  if m.log_problematic_reads then m.log_problematic_read problem subject else m

/-- The test `autosomal_references[organism].find(reference_name) !=
autosomal_references[organism].end()` (Metrics.cpp 157): membership of the
name in the autosomal reference set of the collector's own organism. -/
def MetricsCollector.autosomal_reference (c : MetricsCollector) (reference_name : String) :
    Bool :=
  ((c.autosomal_references.lookup c.organism).getD []).contains reference_name

/-- `MetricsCollector::is_autosomal` (Metrics.cpp 153-161): answer from the
process-wide cache, filling it from the collector's own organism on a miss. -/
def MetricsCollector.is_autosomal (c : MetricsCollector) (reference_name : String)
    (refcache : Refcache) : Bool × Refcache :=
  match refcache.lookup reference_name with
  | some b => (b, refcache)
  | none =>
    let b := c.autosomal_reference reference_name
    (b, (reference_name, b) :: refcache)

/-- `MetricsCollector::is_mitochondrial` (Metrics.cpp 164-166). -/
def MetricsCollector.is_mitochondrial (c : MetricsCollector) (reference_name : String) : Bool :=
  c.mitochondrial_reference_name == reference_name

/-- `Metrics::is_autosomal` (Metrics.cpp 339-341). -/
def Metrics.is_autosomal (m : Metrics) (reference_name : String) (refcache : Refcache) :
    Bool × Refcache :=
  m.collector.is_autosomal reference_name refcache

/-- `Metrics::is_mitochondrial` (Metrics.cpp 344-346). -/
def Metrics.is_mitochondrial (m : Metrics) (reference_name : String) : Bool :=
  m.collector.is_mitochondrial reference_name

/-- One line of the peak file as the extractions
`peak_stream >> peak.reference >> peak.start >> peak.end >> peak.name` of
`operator>>` (Peaks.cpp 47) treat it: for each of the four members the value
that its extraction stores in it, or `none` when nothing is stored because the
line had ended, or an earlier extraction had failed, before its turn.  On an
empty line no member is assigned.  The member types are declared in
`Features.hpp`, which is not among the sources, so the conversion of the text
of a field is not represented: a line is given by what it assigns. -/
structure PeakLine where
  reference : Option String
  start : Option Nat
  end_ : Option Nat
  name : Option String
deriving DecidableEq

/-- A line whose four fields parse to the feature `f`. -/
def PeakLine.full (f : Feature) : PeakLine :=
  { reference := some f.reference, start := some f.start, end_ := some f.end_,
    name := some f.name }

/-- An empty line. -/
def PeakLine.blank : PeakLine :=
  { reference := none, start := none, end_ := none, name := none }

/-- `operator>>(std::istream&, Peak&)` (Peaks.cpp 42-50) on one line that
`std::getline` delivers: `peak` is the object passed by reference, as the
caller holds it.  The members that the line assigns are overwritten, the
others keep the value they had, and `overlapping_hqaa` is set to 0.  The
stream returned is the one `std::getline` read from; a line that does not
parse fails `peak_stream` only, so the call counts as a successful read. -/
def Peak.read (peak : Peak) (line : PeakLine) : Peak :=
  { reference := line.reference.getD peak.reference
    start := line.start.getD peak.start
    end_ := line.end_.getD peak.end_
    name := line.name.getD peak.name
    overlapping_hqaa := 0 }

/-- The loop of `Metrics::load_peaks` (Metrics.cpp 738-756) over the lines of
the peak file, with the variable `peak` that is declared before the loop
(Metrics.cpp 736) and read into once per line: a peak is skipped when its
reference is not autosomal or when it overlaps an excluded region; otherwise
it is added to the tree and its size to the territory.  An exception of
`PeakTree::add` ends the loop. -/
def Metrics.load_peaks_loop :
    List PeakLine → Peak → Metrics → Refcache → Except String (Metrics × Refcache)
  | [], _, m, refcache => Except.ok (m, refcache)
  | line :: rest, peak, m, refcache =>
    let peak := Peak.read peak line
    let autosomal := m.is_autosomal peak.reference refcache
    if !autosomal.1 then Metrics.load_peaks_loop rest peak m autosomal.2
    else
      let excluded := m.collector.excluded_regions.any (fun er => peak.toFeature.overlaps er)
      if !excluded then
        let added := m.peaks.add peak
        if added.2 then Except.error "Peak reference does not match collection."
        else
          Metrics.load_peaks_loop rest peak
            { m with
              peaks := added.1
              total_peak_territory := m.total_peak_territory + peak.toFeature.size }
            autosomal.2
      else Metrics.load_peaks_loop rest peak m autosomal.2

/-- `Metrics::load_peaks` (Metrics.cpp 720-765), on the lines of the peak
file; `peak` is the variable `Peak peak;` as its default constructor (in
`Peaks.hpp`, not among the sources) leaves it. -/
def Metrics.load_peaks (m : Metrics) (peak : Peak) (peak_file : List PeakLine)
    (refcache : Refcache) : Except String (Metrics × Refcache) :=
  if m.collector.peak_filename = "" then Except.error "Peak file has not been specified."
  else Metrics.load_peaks_loop peak_file peak m refcache

/-- The constructor `Metrics::Metrics` (Metrics.cpp 271-292), on the lines of
the peak file that the collector names, if it names one; `peak` is the `Peak`
that `load_peaks` starts from, as its default constructor leaves it. -/
def Metrics.new (collector : MetricsCollector) (name : String) (peak : Peak)
    (peak_file : List PeakLine) (refcache : Refcache) : Except String (Metrics × Refcache) :=
  if collector.peak_filename ≠ "" then
    ({ Metrics.fresh collector name with peaks_requested := true }).load_peaks peak peak_file
      refcache
  else Except.ok (Metrics.fresh collector name, refcache)

/-- `Metrics::mapq_at_least` (Metrics.cpp 356-358). -/
def mapq_at_least (mapq : Nat) (record : Record) : Bool := decide (mapq ≤ record.qual)

/-- `Metrics::is_hqaa` (Metrics.cpp 361-381). -/
def Metrics.is_hqaa (m : Metrics) (header : Header) (record : Record) (refcache : Refcache) :
    Bool × Refcache :=
  if !IS_UNMAPPED record && !IS_MATE_UNMAPPED record && !IS_DUP record &&
      IS_PAIRED_AND_MAPPED record && IS_PROPERLYPAIRED record && IS_ORIGINAL record &&
      mapq_at_least 30 record && decide (record.tid ≥ 0) then
    let reference_name := header.name_of record.tid
    let (autosomal, refcache) := m.is_autosomal reference_name refcache
    if autosomal then (true, refcache) else (false, refcache)
  else (false, refcache)

/-- `Metrics::is_fr` (Metrics.cpp 392-412). -/
def is_fr (record : Record) : Bool :=
  !IS_UNMAPPED record && !IS_MATE_UNMAPPED record &&
    decide (record.tid = record.mtid) && decide (record.pos ≠ 0) && decide (record.mpos ≠ 0) &&
    ((!IS_REVERSE record && IS_MATE_REVERSE record && decide (record.isize > 0)) ||
      (IS_REVERSE record && !IS_MATE_REVERSE record && decide (record.isize < 0)))

/-- `Metrics::is_rf` (Metrics.cpp 415-436). -/
def is_rf (record : Record) : Bool :=
  !IS_UNMAPPED record && !IS_MATE_UNMAPPED record &&
    decide (record.tid = record.mtid) && decide (record.pos ≠ 0) && decide (record.mpos ≠ 0) &&
    decide (record.isize ≠ 0) &&
    ((IS_REVERSE record && !IS_MATE_REVERSE record && decide (record.isize > 0)) ||
      (!IS_REVERSE record && IS_MATE_REVERSE record && decide (record.isize < 0)))

/-- `Metrics::is_ff` (Metrics.cpp 438-440). -/
def is_ff (record : Record) : Bool := !IS_REVERSE record && !IS_MATE_REVERSE record

/-- `Metrics::is_rr` (Metrics.cpp 443-445). -/
def is_rr (record : Record) : Bool := IS_REVERSE record && IS_MATE_REVERSE record

/-! ## Classification of one record (`Metrics::add_alignment`) -/

/-- The statement `if (b) n++`. -/
def bump (b : Bool) (n : Nat) : Nat := if b then n + 1 else n

/-- The head of `add_alignment` (Metrics.cpp 532-571): the tallies that every
record updates, whatever its taxonomy outcome. -/
def Metrics.add_alignment_tallies (m : Metrics) (record : Record) : Metrics :=
  { m with
    total_reads := m.total_reads + 1
    mapq_counts := count_increment record.qual m.mapq_counts
    reverse_reads := bump (IS_REVERSE record) m.reverse_reads
    forward_reads := bump (!IS_REVERSE record) m.forward_reads
    secondary_reads := bump (IS_SECONDARY record) m.secondary_reads
    supplementary_reads := bump (IS_SUPPLEMENTARY record) m.supplementary_reads
    duplicate_reads := bump (IS_DUP record) m.duplicate_reads
    first_reads := bump (IS_READ1 record) m.first_reads
    second_reads := bump (IS_READ2 record) m.second_reads
    reverse_mate_reads := bump (IS_MATE_REVERSE record) m.reverse_mate_reads
    forward_mate_reads := bump (!IS_MATE_REVERSE record) m.forward_mate_reads
    paired_reads := bump (IS_PAIRED record) m.paired_reads }

/-- The autosomal / mitochondrial tallies of a properly paired record
(Metrics.cpp 626-639). -/
def Metrics.add_alignment_reference (m : Metrics) (header : Header) (record : Record)
    (refcache : Refcache) : Metrics × Refcache :=
  if record.tid ≥ 0 then
    let reference_name := header.name_of record.tid
    let autosomal := m.is_autosomal reference_name refcache
    if autosomal.1 then
      ({ m with
         total_autosomal_reads := m.total_autosomal_reads + 1
         duplicate_autosomal_reads := bump (IS_DUP record) m.duplicate_autosomal_reads },
       autosomal.2)
    else if m.is_mitochondrial reference_name then
      ({ m with
         total_mitochondrial_reads := m.total_mitochondrial_reads + 1
         duplicate_mitochondrial_reads := bump (IS_DUP record) m.duplicate_mitochondrial_reads },
       autosomal.2)
    else (m, autosomal.2)
  else (m, refcache)

/-- The value of `abs(x)` for a 32-bit `int` `x`: the negation of a negative
`x` is taken in two's complement, so `abs(-2147483648)` is `-2147483648`, the
one `int` whose absolute value is not an `int`. -/
def abs_int (x : Int) : Int :=
  if x < 0 then (-x + 2147483648) % 4294967296 - 2147483648 else x

/-- The conversion of an `int` to `unsigned long long int`: the value modulo
2^64. -/
def to_unsigned_long_long (x : Int) : Nat := (x % 18446744073709551616).toNat

/-- The local `fragment_length` of `add_alignment` (Metrics.cpp 530):
`unsigned long long int fragment_length = abs(record->core.isize);`.  It is
`|isize|` for every `isize` above -2147483648, and 18446744071562067968 for
`isize = -2147483648`. -/
def fragment_length (record : Record) : Nat := to_unsigned_long_long (abs_int record.isize)

/-- The block run for an "original" properly paired record (Metrics.cpp
641-681): fragment length histogram, running maximum, and the hqaa tallies. -/
def Metrics.add_alignment_original (ops : FeatureOps) (m : Metrics) (header : Header)
    (record : Record) (fragment_length : Nat) (refcache : Refcache) : Metrics × Refcache :=
  let m := { m with
    fragment_length_counts := count_increment fragment_length m.fragment_length_counts
    maximum_proper_pair_fragment_size :=
      if m.maximum_proper_pair_fragment_size < fragment_length then fragment_length
      else m.maximum_proper_pair_fragment_size }
  let hq := m.is_hqaa header record refcache
  if hq.1 then
    ({ m with
       hqaa := m.hqaa + 1
       hqaa_fragment_length_counts :=
         count_increment fragment_length m.hqaa_fragment_length_counts
       hqaa_short_count :=
         bump (decide (50 ≤ fragment_length) && decide (fragment_length ≤ 100)) m.hqaa_short_count
       hqaa_mononucleosomal_count :=
         bump (decide (150 ≤ fragment_length) && decide (fragment_length ≤ 200))
           m.hqaa_mononucleosomal_count
       peaks :=
         if !m.peaks.empty then
           m.peaks.increment_overlapping_hqaa ops (ops.of_record header record)
         else m.peaks },
     hq.2)
  else (m, hq.2)

/-- The properly paired branch of `add_alignment` (Metrics.cpp 617-681). -/
def Metrics.add_alignment_proper (ops : FeatureOps) (m : Metrics) (header : Header)
    (record : Record) (fragment_length : Nat) (refcache : Refcache) : Metrics × Refcache :=
  let m := { m with properly_paired_and_mapped_reads := m.properly_paired_and_mapped_reads + 1 }
  let m := { m with fr_reads := bump (is_fr record) m.fr_reads }
  let s := m.add_alignment_reference header record refcache
  if IS_ORIGINAL record then
    s.1.add_alignment_original ops header record fragment_length s.2
  else s

/-- `Metrics::add_alignment` (Metrics.cpp 529-717). -/
def Metrics.add_alignment (ops : FeatureOps) (m : Metrics) (header : Header) (record : Record)
    (refcache : Refcache) : Metrics × Refcache :=
  let fragment_length := fragment_length record
  let m := m.add_alignment_tallies record
  let subject := ProblemSubject.record header record
  if IS_QCFAIL record then
    (({ m with qcfailed_reads := m.qcfailed_reads + 1 }).log_if "QC failed" subject, refcache)
  else if !IS_PAIRED record then
    (({ m with unpaired_reads := m.unpaired_reads + 1 }).log_if "Unpaired" subject, refcache)
  else if IS_UNMAPPED record then
    (({ m with unmapped_reads := m.unmapped_reads + 1 }).log_if "Unmapped" subject, refcache)
  else if IS_MATE_UNMAPPED record then
    (({ m with unmapped_mate_reads := m.unmapped_mate_reads + 1 }).log_if "Unmapped mate" subject,
     refcache)
  else if is_rf record then
    (({ m with rf_reads := m.rf_reads + 1 }).log_if "RF" subject, refcache)
  else if is_ff record then
    (({ m with ff_reads := m.ff_reads + 1 }).log_if "FF" subject, refcache)
  else if is_rr record then
    (({ m with rr_reads := m.rr_reads + 1 }).log_if "RR" subject, refcache)
  else if record.qual = 0 then
    (({ m with reads_mapped_with_zero_quality := m.reads_mapped_with_zero_quality + 1 }).log_if
      "Mapped with zero quality" subject, refcache)
  else if IS_PAIRED_AND_MAPPED record then
    let m := { m with paired_and_mapped_reads := m.paired_and_mapped_reads + 1 }
    if IS_PROPERLYPAIRED record then
      m.add_alignment_proper ops header record fragment_length refcache
    else if record.tid ≠ record.mtid then
      (({ m with
          reads_with_mate_mapped_to_different_reference :=
            m.reads_with_mate_mapped_to_different_reference + 1 }).log_if
        "Mate mapped to different reference" subject, refcache)
    else
      (({ m with
          unlikely_fragment_sizes :=
            sizes_push_back record.qname fragment_length m.unlikely_fragment_sizes }).log_if
        "Improper" subject, refcache)
  else
    (({ m with unclassified_reads := m.unclassified_reads + 1 }).log_if "Unclassified" subject,
     refcache)

/-- The loop of `MetricsCollector::load_alignments` (Metrics.cpp 238-253) for
one read group: every record of the stream goes to `add_alignment` in order. -/
def add_alignments (ops : FeatureOps) (header : Header) (s : Metrics × Refcache)
    (records : List Record) : Metrics × Refcache :=
  records.foldl (fun s record => s.1.add_alignment ops header record s.2) s

/-! ## The deferred pass (`Metrics::make_aggregate_diagnoses`) -/

/-- The inner loop of `make_aggregate_diagnoses` (Metrics.cpp 321-333) over the
fragment sizes listed under one read name. -/
def diagnose_sizes (read_name : String) : Metrics → List Nat → Metrics
  | m, [] => m
  | m, unlikely_fragment_size :: rest =>
    if m.maximum_proper_pair_fragment_size < unlikely_fragment_size then
      diagnose_sizes read_name
        (({ m with reads_with_mate_too_distant := m.reads_with_mate_too_distant + 1 }).log_if
          "Mate too distant" (ProblemSubject.read_name read_name)) rest
    else
      diagnose_sizes read_name
        (({ m with
            reads_mapped_and_paired_but_improperly :=
              m.reads_mapped_and_paired_but_improperly + 1 }).log_if
          "Undiagnosed" (ProblemSubject.read_name read_name)) rest

/-- The outer loop of `make_aggregate_diagnoses` (Metrics.cpp 320-335): each
entry is diagnosed and then cleared; the second component is the map as the
loop leaves it. -/
def diagnose_suspects : Metrics → List (String × List Nat) → Metrics × List (String × List Nat)
  | m, [] => (m, [])
  | m, (read_name, sizes) :: rest =>
    let r := diagnose_suspects (diagnose_sizes read_name m sizes) rest
    (r.1, (read_name, []) :: r.2)

/-- `Metrics::make_aggregate_diagnoses` (Metrics.cpp 315-336). -/
def Metrics.make_aggregate_diagnoses (m : Metrics) : Metrics :=
  let m := { m with reads_with_mate_too_distant := 0, reads_mapped_and_paired_but_improperly := 0 }
  let r := diagnose_suspects m m.unlikely_fragment_sizes
  { r.1 with unlikely_fragment_sizes := r.2 }

/-! ## The taxonomy, as the specification words it -/

/-- The thirteen leaf counters of the taxonomy. -/
inductive Leaf where
  | qc_failed
  | unpaired
  | unmapped
  | unmapped_mate
  | different_reference
  | zero_quality
  | mate_too_distant
  | rf
  | ff
  | rr
  | improperly_paired_other
  | properly_paired
  | unclassified
deriving DecidableEq

/-- The counter of `Metrics` that holds a taxonomy leaf. -/
def Metrics.leaf (m : Metrics) : Leaf → Nat
  | .qc_failed => m.qcfailed_reads
  | .unpaired => m.unpaired_reads
  | .unmapped => m.unmapped_reads
  | .unmapped_mate => m.unmapped_mate_reads
  | .different_reference => m.reads_with_mate_mapped_to_different_reference
  | .zero_quality => m.reads_mapped_with_zero_quality
  | .mate_too_distant => m.reads_with_mate_too_distant
  | .rf => m.rf_reads
  | .ff => m.ff_reads
  | .rr => m.rr_reads
  | .improperly_paired_other => m.reads_mapped_and_paired_but_improperly
  | .properly_paired => m.properly_paired_and_mapped_reads
  | .unclassified => m.unclassified_reads

/-- The sum of the thirteen taxonomy counters, in the order of the spec. -/
def Metrics.taxonomy_sum (m : Metrics) : Nat :=
  m.qcfailed_reads + m.unpaired_reads + m.unmapped_reads + m.unmapped_mate_reads +
    m.reads_with_mate_mapped_to_different_reference + m.reads_mapped_with_zero_quality +
    m.reads_with_mate_too_distant + m.rf_reads + m.ff_reads + m.rr_reads +
    m.reads_mapped_and_paired_but_improperly + m.properly_paired_and_mapped_reads +
    m.unclassified_reads

/-- What the taxonomy does with one record: count it in a leaf at once, or
defer it to the pass run after the stream. -/
inductive Outcome where
  | counted (leaf : Leaf)
  | deferred
deriving DecidableEq

/-- The sub-decision of the paired-and-mapped guard, as the spec lists it:
properly-paired flag, else reference differs from the mate's, else deferred. -/
def paired_and_mapped_outcome (r : Record) : Outcome :=
  if IS_PROPERLYPAIRED r then Outcome.counted Leaf.properly_paired
  else if r.tid ≠ r.mtid then Outcome.counted Leaf.different_reference
  else Outcome.deferred

/-- The ordered guard list of the taxonomy, as the spec lists it: each guard
with the outcome it selects. -/
def taxonomy_guards : List ((Record → Bool) × (Record → Outcome)) :=
  [ (IS_QCFAIL, fun _ => Outcome.counted Leaf.qc_failed),
    (fun r => !IS_PAIRED r, fun _ => Outcome.counted Leaf.unpaired),
    (IS_UNMAPPED, fun _ => Outcome.counted Leaf.unmapped),
    (IS_MATE_UNMAPPED, fun _ => Outcome.counted Leaf.unmapped_mate),
    (is_rf, fun _ => Outcome.counted Leaf.rf),
    (is_ff, fun _ => Outcome.counted Leaf.ff),
    (is_rr, fun _ => Outcome.counted Leaf.rr),
    (fun r => decide (r.qual = 0), fun _ => Outcome.counted Leaf.zero_quality),
    (IS_PAIRED_AND_MAPPED, paired_and_mapped_outcome) ]

/-- The first guard of `guards` that holds for `r` selects the outcome; a
record that matches no guard is unclassified. -/
def first_match_in (guards : List ((Record → Bool) × (Record → Outcome))) (r : Record) :
    Outcome :=
  match guards with
  | [] => Outcome.counted Leaf.unclassified
  | g :: rest => if g.1 r then g.2 r else first_match_in rest r

/-- The taxonomy outcome of a record: first match wins. -/
def taxonomy_outcome (r : Record) : Outcome := first_match_in taxonomy_guards r

/-- The fragment lengths held in the deferred bucket, over all read names. -/
def deferred_sizes (sizes : List (String × List Nat)) : List Nat :=
  sizes.flatMap (fun e => e.2)

/-! ## Floating point results -/

/-- A `double` or `long double` value: not-a-number, an infinity, or a finite
value held as an exact rational.  Rounding and the sign of zero are not
represented; every zero that `Metrics.cpp` divides by comes from an unsigned
count and is `+0`. -/
inductive Fp where
  | nan
  | inf (negative : Bool)
  | fin (q : ℚ)
deriving DecidableEq

/-- The conversion of an unsigned integer to floating point. -/
def Fp.ofNat (n : Nat) : Fp := Fp.fin n

/-- IEEE 754 addition on special values; exact on finite ones. -/
def Fp.add : Fp → Fp → Fp
  | Fp.nan, _ => Fp.nan
  | _, Fp.nan => Fp.nan
  | Fp.inf a, Fp.inf b => if a = b then Fp.inf a else Fp.nan
  | Fp.inf a, Fp.fin _ => Fp.inf a
  | Fp.fin _, Fp.inf b => Fp.inf b
  | Fp.fin a, Fp.fin b => Fp.fin (a + b)

/-- IEEE 754 division on special values; exact on finite ones: `0/0` is
not-a-number, `x/0` for a non-zero `x` is an infinity. -/
def Fp.div : Fp → Fp → Fp
  | Fp.nan, _ => Fp.nan
  | _, Fp.nan => Fp.nan
  | Fp.inf _, Fp.inf _ => Fp.nan
  | Fp.inf a, Fp.fin b => Fp.inf (xor a (decide (b < 0)))
  | Fp.fin _, Fp.inf _ => Fp.fin 0
  | Fp.fin a, Fp.fin b =>
    if b = 0 then (if a = 0 then Fp.nan else Fp.inf (decide (a < 0))) else Fp.fin (a / b)

/-- Modelled from the spec: `fraction` of `Utils.cpp`, which is not among the
sources (only its tests are); "any ratio with a zero denominator yields
not-a-number", otherwise the quotient. -/
def fraction (numerator denominator : Nat) : Fp :=
  if denominator = 0 then Fp.nan else Fp.fin ((numerator : ℚ) / denominator)

/-- Modelled from the spec: `percentage` of `Utils.cpp`, which is not among
the sources (only its tests are); "any ratio with a zero denominator yields
not-a-number", otherwise a hundred times the quotient. -/
def percentage (numerator denominator : Nat) : Fp :=
  if denominator = 0 then Fp.nan else Fp.fin (100 * (numerator : ℚ) / denominator)

/-! ## Aggregate statistics (`mean_mapq`, `median_mapq`) -/

/-- One round of the loop of `median_mapq` (Metrics.cpp 479-493), on the pair
of `median` and `mapq_index`. -/
def median_mapq_step (median1 median2 : Nat) (state : Fp × Nat) (it : Nat × Nat) : Fp × Nat :=
  let mapq_index := state.2
  let next_mapq_index := mapq_index + it.2
  let median1_here := decide (mapq_index ≤ median1) && decide (median1 ≤ next_mapq_index)
  let median2_here := decide (mapq_index ≤ median2) && decide (median2 ≤ next_mapq_index)
  let median := if median1_here then Fp.add state.1 (Fp.ofNat it.1) else state.1
  let median :=
    if median2_here then Fp.div (Fp.add median (Fp.ofNat it.1)) (Fp.ofNat 2) else median
  (median, mapq_index + it.2)

/-- `Metrics::median_mapq` (Metrics.cpp 457-495). -/
def Metrics.median_mapq (m : Metrics) : Fp :=
  if m.total_reads = 0 then Fp.ofNat 0
  else
    let median1 := if m.total_reads % 2 = 0 then m.total_reads / 2 - 1 else m.total_reads / 2
    let median2 := m.total_reads / 2
    (m.mapq_counts.foldl (median_mapq_step median1 median2) (Fp.ofNat 0, 0)).1

/-- The mapping qualities of a histogram listed in ascending order, each as
often as its count says. -/
def histogram_values (counts : List (Nat × Nat)) : List Nat :=
  counts.flatMap (fun it => List.replicate it.2 it.1)

/-- The median as the spec words it: of `n` values in ascending order, the
value at index `n/2` when `n` is odd, the average of the values at indices
`n/2 - 1` and `n/2` when `n` is even. -/
def median_of_ascending (values : List Nat) : ℚ :=
  if values.length % 2 = 1 then (values.getD (values.length / 2) 0 : ℚ)
  else ((values.getD (values.length / 2 - 1) 0 : ℚ) + values.getD (values.length / 2) 0) / 2

/-! ## The percentile pass of `Metrics::to_json` -/

/-- The two loops of `to_json` over a ranked peak list (Metrics.cpp 1032-1052),
for the term `term peak` that is added per peak: `count` and the cumulative
fraction run along the list, and the fraction is emitted at the ranks held in
`percentile_indices`. -/
def cumulative_fractions (term : Peak → Fp) (percentile_indices : List Nat) :
    List Peak → Nat → Fp → List Fp
  | [], _, _ => []
  | peak :: rest, count, cumulative =>
    let count := count + 1
    let cumulative := Fp.add cumulative (term peak)
    if percentile_indices.contains count then
      cumulative :: cumulative_fractions term percentile_indices rest count cumulative
    else cumulative_fractions term percentile_indices rest count cumulative

/-- The values pushed to `peak_percentiles["cumulative_fraction_of_hqaa"]`
(Metrics.cpp 1032-1041), for the list `ranked` that
`list_peaks_by_overlapping_hqaa_descending` returns. -/
def Metrics.cumulative_fraction_of_hqaa (m : Metrics) (percentile_indices : List Nat)
    (ranked : List Peak) : List Fp :=
  cumulative_fractions
    (fun peak =>
      if m.hqaa = 0 then Fp.nan else Fp.div (Fp.ofNat peak.overlapping_hqaa) (Fp.ofNat m.hqaa))
    percentile_indices ranked 0 (Fp.fin 0)

/-- The values pushed to `peak_percentiles["cumulative_fraction_of_territory"]`
(Metrics.cpp 1043-1052), for the list `ranked` that
`list_peaks_by_size_descending` returns. -/
def Metrics.cumulative_fraction_of_territory (m : Metrics) (percentile_indices : List Nat)
    (ranked : List Peak) : List Fp :=
  cumulative_fractions
    (fun peak => Fp.div (Fp.ofNat peak.toFeature.size) (Fp.ofNat m.total_peak_territory))
    percentile_indices ranked 0 (Fp.fin 0)

/-- The aggregator after the whole record stream has been classified. -/
def Metrics.after_stream (ops : FeatureOps) (m : Metrics) (header : Header)
    (refcache : Refcache) (records : List Record) : Metrics :=
  (add_alignments ops header (m, refcache) records).1

/-- The aggregator after the stream and the one call of
`make_aggregate_diagnoses` that follows it (Metrics.cpp 258-259). -/
def Metrics.finalized (ops : FeatureOps) (m : Metrics) (header : Header)
    (refcache : Refcache) (records : List Record) : Metrics :=
  (m.after_stream ops header refcache records).make_aggregate_diagnoses

/-- What the percentile pass reads of the peaks: the territory total and the
features of the peaks held. -/
def Metrics.territory_view (m : Metrics) : Nat × List Feature :=
  (m.total_peak_territory, m.peaks.all_peaks.map Peak.toFeature)

/-! ## Ranking of peaks (`list_peaks_by_overlapping_hqaa_descending`,
`determine_top_peaks`) -/

/-- `peak_overlapping_hqaa_descending_comparator` (Peaks.cpp 53-55). -/
def peak_overlapping_hqaa_descending_comparator (p1 p2 : Peak) : Bool :=
  decide (p1.overlapping_hqaa > p2.overlapping_hqaa)

/-- `std::sort(first, last, comp)` on a vector of peaks: the elements are
rearranged so that no element compares before one that precedes it.  The
standard leaves the order of elements that compare equivalent open; here they
keep their relative order (an insertion sort). -/
def std_sort (comp : Peak → Peak → Bool) (peaks : List Peak) : List Peak :=
  peaks.insertionSort (fun a b => comp b a = false)

/-- `PeakTree::list_peaks_by_overlapping_hqaa_descending` (Peaks.cpp 128-137). -/
def PeakTree.list_peaks_by_overlapping_hqaa_descending (t : PeakTree) : List Peak :=
  std_sort peak_overlapping_hqaa_descending_comparator t.all_peaks

/-- One round of the loop of `determine_top_peaks` (Metrics.cpp 770-792), on
the pair of `count` and the aggregator. -/
def determine_top_peaks_step (state : Nat × Metrics) (peak : Peak) : Nat × Metrics :=
  let count := state.1 + 1
  let m := { state.2 with hqaa_in_peaks := state.2.hqaa_in_peaks + peak.overlapping_hqaa }
  (count,
   { m with
     top_peak_hqaa_read_count :=
       if count = 1 then m.hqaa_in_peaks else m.top_peak_hqaa_read_count
     top_10_peak_hqaa_read_count :=
       if count ≤ 10 then m.hqaa_in_peaks else m.top_10_peak_hqaa_read_count
     top_100_peak_hqaa_read_count :=
       if count ≤ 100 then m.hqaa_in_peaks else m.top_100_peak_hqaa_read_count
     top_1000_peak_hqaa_read_count :=
       if count ≤ 1000 then m.hqaa_in_peaks else m.top_1000_peak_hqaa_read_count
     top_10000_peak_hqaa_read_count :=
       if count ≤ 10000 then m.hqaa_in_peaks else m.top_10000_peak_hqaa_read_count })

/-- `Metrics::determine_top_peaks` (Metrics.cpp 768-793). -/
def Metrics.determine_top_peaks (m : Metrics) : Metrics :=
  (m.peaks.list_peaks_by_overlapping_hqaa_descending.foldl determine_top_peaks_step (0, m)).2

/-- The collector's loop body after the stream (Metrics.cpp 258-261):
`make_aggregate_diagnoses`, then `determine_top_peaks`. -/
def Metrics.completed (ops : FeatureOps) (m : Metrics) (header : Header)
    (refcache : Refcache) (records : List Record) : Metrics :=
  (m.finalized ops header refcache records).determine_top_peaks

/-- The features of a list submitted to `increment_overlapping_hqaa` one
after the other. -/
def PeakTree.increment_all (ops : FeatureOps) (t : PeakTree) (features : List Feature) :
    PeakTree :=
  features.foldl (fun t hqaa => t.increment_overlapping_hqaa ops hqaa) t

/-- The peaks of a list added to a tree one after the other with
`PeakTree::add`, as `load_peaks` does with the peaks it keeps (a call that
throws ends the loading). -/
def PeakTree.add_all : PeakTree → List Peak → PeakTree × Bool
  | t, [] => (t, false)
  | t, peak :: rest =>
    let added := t.add peak
    if added.2 then added else PeakTree.add_all added.1 rest

/-! ## Path conditions and the notions the specification is worded in -/

/-- The path condition of the properly paired branch of `add_alignment`
(Metrics.cpp 616): the guards tested before it all fail, and its own two
hold. -/
def reaches_proper (r : Record) : Bool :=
  !IS_QCFAIL r && IS_PAIRED r && !IS_UNMAPPED r && !IS_MATE_UNMAPPED r && !is_rf r &&
    !is_ff r && !is_rr r && !decide (r.qual = 0) && IS_PAIRED_AND_MAPPED r && IS_PROPERLYPAIRED r

/-- The path condition of the deferring branch of `add_alignment`
(Metrics.cpp 698). -/
def reaches_deferred (r : Record) : Bool :=
  !IS_QCFAIL r && IS_PAIRED r && !IS_UNMAPPED r && !IS_MATE_UNMAPPED r && !is_rf r &&
    !is_ff r && !is_rr r && !decide (r.qual = 0) && IS_PAIRED_AND_MAPPED r &&
    !IS_PROPERLYPAIRED r && decide (r.tid = r.mtid)

/-- The fragment lengths of the deferred records of a stream, in stream order:
one entry per record that reaches the deferring branch, with the fragment
length that `add_alignment` computed for it. -/
def deferred_lengths (records : List Record) : List Nat :=
  (records.filter (fun r => decide (taxonomy_outcome r = Outcome.deferred))).map
    fragment_length

/-- The records that the specification takes to be deferred, in its words: the
record is paired, mapped, not properly paired and on the same reference as its
mate. -/
def deferred_as_specified (r : Record) : Bool :=
  IS_PAIRED r && !IS_UNMAPPED r && !IS_MATE_UNMAPPED r && !IS_PROPERLYPAIRED r &&
    decide (r.tid = r.mtid)

/-- A reference cache that holds no answer but those of the collector `c`:
the cache of a process whose lookups were all made through `c`. -/
def Refcache.consistent (c : MetricsCollector) (refcache : Refcache) : Bool :=
  refcache.all (fun e => e.2 == c.autosomal_reference e.1)

/-- The maximum of the absolute fragment size over the records that are
"original" and carry the properly-paired flag, 0 when there is none: the value
the spec gives for `maximum_proper_pair_fragment_size`. -/
def maximum_over_original_proper (records : List Record) : Nat :=
  ((records.filter (fun r => IS_ORIGINAL r && IS_PROPERLYPAIRED r)).map
    (fun r => r.isize.natAbs)).foldl max 0

/-- A high-quality autosomal alignment by the definition the spec states: read
mapped, mate mapped, not duplicate, paired and mapped, properly paired,
"original", mapping quality at least 30, reference id resolvable and reference
name in the autosomal set of the collector's organism. -/
def high_quality_autosomal (c : MetricsCollector) (header : Header) (r : Record) : Bool :=
  !IS_UNMAPPED r && !IS_MATE_UNMAPPED r && !IS_DUP r && IS_PAIRED_AND_MAPPED r &&
    IS_PROPERLYPAIRED r && IS_ORIGINAL r && decide (30 ≤ r.qual) && decide (r.tid ≥ 0) &&
    c.autosomal_reference (header.name_of r.tid)

/-- The step from a peak to the peak at the same position after a call of
`increment_overlapping_hqaa(hqaa)`, as the specification allows it: reference,
coordinates and name are kept, and the count is kept or, for a peak that
overlaps the feature, raised by one. -/
def Peak.raised_by (hqaa : Feature) (p q : Peak) : Prop :=
  q.toFeature = p.toFeature ∧
    (q.overlapping_hqaa = p.overlapping_hqaa ∨
      (q.overlapping_hqaa = p.overlapping_hqaa + 1 ∧ p.reference = hqaa.reference ∧
        p.toFeature.overlaps hqaa = true))

/-- The same step for a collection: name, bounds and number of peaks are kept
and every peak is kept or raised. -/
def ReferencePeakCollection.raised_by (hqaa : Feature) (c d : ReferencePeakCollection) : Prop :=
  d.reference = c.reference ∧ d.start = c.start ∧ d.end_ = c.end_ ∧
    List.Forall₂ (Peak.raised_by hqaa) c.peaks d.peaks

/-- The entries of a tree that hold peaks (`tree[reference]` leaves an empty
collection behind for a reference that had none). -/
def PeakTree.inhabited (t : PeakTree) : List (String × ReferencePeakCollection) :=
  t.tree.filter (fun e => !e.2.peaks.isEmpty)

/-- The statement `peak->overlapping_hqaa++`, made or not. -/
def Peak.hit (b : Bool) (p : Peak) : Peak :=
  if b then { p with overlapping_hqaa := p.overlapping_hqaa + 1 } else p

/-- The positions that one call of `increment_overlapping_hqaa` raises in the
sequence it searches: none up to the position `std::upper_bound` returns, then
the run of peaks that overlap the feature, then none. -/
def scan_marks (ops : FeatureOps) (hqaa : Feature) (peaks : List Peak) : List Bool :=
  List.replicate (upper_bound ops peaks hqaa) false ++
    (List.replicate
      (((peaks.drop (upper_bound ops peaks hqaa)).takeWhile
        (fun p => p.toFeature.overlaps hqaa)).length) true ++
      List.replicate peaks.length false)

/-- The number of features of a list that overlap a peak. -/
def overlap_count (features : List Feature) (p : Peak) : Nat :=
  features.countP (fun hqaa => p.toFeature.overlaps hqaa)

/-- The count held under the key `k` of a histogram. -/
def histogram_count (k : Nat) (counts : List (Nat × Nat)) : Nat :=
  ((counts.filter (fun it => it.1 = k)).map (fun it => it.2)).sum

/-- The sum of all counts of a histogram. -/
def histogram_total (counts : List (Nat × Nat)) : Nat :=
  (counts.map (fun it => it.2)).sum

/-- The tallies of the head of `add_alignment`, the counters of
`determine_top_peaks`, and the logging switch with the collector: the fields
that the classification of a record never writes. -/
def Metrics.side_view (m : Metrics) :
    (Nat × List (Nat × Nat) × Nat × Nat × Nat × Nat × Nat × Nat × Nat × Nat × Nat × Nat) ×
      (Nat × Nat × Nat × Nat × Nat × Nat) × (Bool × MetricsCollector) :=
  ((m.total_reads, m.mapq_counts, m.forward_reads, m.reverse_reads, m.forward_mate_reads,
    m.reverse_mate_reads, m.secondary_reads, m.supplementary_reads, m.duplicate_reads,
    m.first_reads, m.second_reads, m.paired_reads),
   (m.hqaa_in_peaks, m.top_peak_hqaa_read_count, m.top_10_peak_hqaa_read_count,
    m.top_100_peak_hqaa_read_count, m.top_1000_peak_hqaa_read_count,
    m.top_10000_peak_hqaa_read_count),
   (m.log_problematic_reads, m.collector))

/-- The loop of `determine_top_peaks` on the counters alone: `count`, the
running sum, and the five top counters. -/
def top_peaks_step (state : Nat × Nat × Nat × Nat × Nat × Nat × Nat) (hits : Nat) :
    Nat × Nat × Nat × Nat × Nat × Nat × Nat :=
  let count := state.1 + 1
  let sum := state.2.1 + hits
  (count, sum,
   if count = 1 then sum else state.2.2.1,
   if count ≤ 10 then sum else state.2.2.2.1,
   if count ≤ 100 then sum else state.2.2.2.2.1,
   if count ≤ 1000 then sum else state.2.2.2.2.2.1,
   if count ≤ 10000 then sum else state.2.2.2.2.2.2)

/-- The sum of the `n` largest values of a list. -/
def sum_of_largest (n : Nat) (values : List Nat) : Nat :=
  ((values.insertionSort (fun a b => b ≤ a)).take n).sum

/-- An aggregator with the problem log taken out: logging switched off in the
aggregator and its collector, and the problem stream emptied. -/
def Metrics.erase_log (m : Metrics) : Metrics :=
  { m with
    collector := { m.collector with log_problematic_reads := false }
    log_problematic_reads := false
    problematic_read_stream := [] }

/-- The values that the variable `peak` of `load_peaks` holds after each call
of `operator>>`, one per line of the peak file: every call starts from the
value the call before it left. -/
def peaks_read (peak : Peak) : List PeakLine → List Peak
  | [] => []
  | line :: rest => Peak.read peak line :: peaks_read (Peak.read peak line) rest

/-- The test of the loop of `load_peaks` on the peak it has read, with the
answer of `is_autosomal` taken from the collector's own organism: the
reference is autosomal and the peak overlaps no excluded region. -/
def MetricsCollector.keeps_peak (c : MetricsCollector) (line : Feature) : Bool :=
  c.autosomal_reference line.reference &&
    !c.excluded_regions.any (fun er => line.overlaps er)

/-- A feature with `start <= end` that lies within a region of its
reference. -/
def Feature.contained_in (f region : Feature) : Prop :=
  f.reference = region.reference ∧ region.start ≤ f.start ∧ f.start ≤ f.end_ ∧
    f.end_ ≤ region.end_

/-- Every collection that `tree[name]` can refer to carries the name it is
filed under, or none yet: the state in which `ReferencePeakCollection::add`
does not throw. -/
def PeakTree.well_named (t : PeakTree) : Prop :=
  ∀ name : String, (tree_find name t.tree).reference = name ∨
    (tree_find name t.tree).reference = ""

/-- The four autosomal / mitochondrial counters. -/
def Metrics.reference_view (m : Metrics) : Nat × Nat × Nat × Nat :=
  (m.total_autosomal_reads, m.duplicate_autosomal_reads, m.total_mitochondrial_reads,
   m.duplicate_mitochondrial_reads)

/-! ## Peak comparison (`Peaks.cpp` 16-33) and the collector's defaults -/

/-- `operator<(const Peak&, const Peak&)` (Peaks.cpp 16-28).  The string
comparison `sort_strings_numerically` of `Utils.cpp` is not among the sources
and is a parameter. -/
def Peak.operator_lt (sort_strings_numerically : String → String → Bool) (p1 p2 : Peak) : Bool :=
  sort_strings_numerically p1.reference p2.reference ||
    (p1.reference == p2.reference &&
      ((decide (p1.start < p2.start) || decide (p1.end_ < p2.end_)) ||
        decide (p1.overlapping_hqaa < p2.overlapping_hqaa) ||
        sort_strings_numerically p1.name p2.name))

/-- `operator==(const Peak&, const Peak&)` (Peaks.cpp 31-33). -/
def Peak.operator_eq (p1 p2 : Peak) : Bool :=
  p1.reference == p2.reference && p1.start == p2.start && p1.end_ == p2.end_ &&
    p1.overlapping_hqaa == p2.overlapping_hqaa && p1.name == p2.name

/-- A sequence of `ReferencePeakCollection::add` calls on one collection. -/
def ReferencePeakCollection.add_each (c : ReferencePeakCollection) (peaks : List Peak) :
    ReferencePeakCollection :=
  peaks.foldl (fun c peak => (c.add peak).1) c

/-- The map `default_references` of the constructor of `MetricsCollector`
(Metrics.cpp 49-53): the number of autosomes per organism. -/
def default_references : List (String × Nat) :=
  [("human", 22), ("mouse", 19), ("rat", 20)]

/-- The autosomal reference sets that the constructor of `MetricsCollector`
fills in (Metrics.cpp 55-60): for each organism the numbers `1 .. n`, bare and
with the prefix `chr`. -/
def default_autosomal_references : List (String × List String) :=
  default_references.map (fun r =>
    (r.1, (List.range r.2).flatMap (fun i => [toString (i + 1), "chr" ++ toString (i + 1)])))

/-- The constructor `MetricsCollector::MetricsCollector` (Metrics.cpp 20-69)
called without an autosomal reference file and without excluded region
files. -/
def MetricsCollector.new (organism mitochondrial_reference_name peak_filename : String)
    (log_problematic_reads : Bool) : MetricsCollector :=
  { organism := organism
    autosomal_references := default_autosomal_references
    mitochondrial_reference_name := mitochondrial_reference_name
    excluded_regions := []
    peak_filename := peak_filename
    log_problematic_reads := log_problematic_reads }

/-- Every peak that a collection of the tree holds is in the reference the
collection is filed under. -/
def PeakTree.uniform (t : PeakTree) : Prop :=
  ∀ name : String, ∀ p ∈ (tree_find name t.tree).peaks, p.reference = name

/-- The three counter relations of the autosomal and mitochondrial
tallies. -/
def Metrics.reference_bounds (m : Metrics) : Prop :=
  m.hqaa + m.duplicate_autosomal_reads ≤ m.total_autosomal_reads ∧
    m.total_autosomal_reads + m.total_mitochondrial_reads ≤
      m.properly_paired_and_mapped_reads ∧
    m.duplicate_mitochondrial_reads ≤ m.total_mitochondrial_reads

/-! ## Concrete inputs -/

namespace Sample

/-- A feature ordering by start coordinate, and the footprint of a record
taken from its position and fragment length. -/
def ops : FeatureOps :=
  { lt := fun a b => decide (a.start < b.start)
    of_record := fun header record =>
      { reference := header.name_of record.tid
        start := record.pos.toNat
        end_ := record.pos.toNat + record.isize.natAbs
        name := record.qname } }

/-- A collector for a human sample with two autosomal references. -/
def collector : MetricsCollector :=
  { organism := "human"
    autosomal_references := [("human", ["chr1", "chr2"])]
    mitochondrial_reference_name := "chrM"
    excluded_regions := []
    peak_filename := ""
    log_problematic_reads := false }

/-- A header with three references. -/
def header : Header := { target_name := ["chr1", "chr2", "chrM"] }

/-- A properly paired read on chr1 in FR orientation with mapping quality 30
(flag 99: paired, proper pair, mate reverse, read 1). -/
def proper : Record :=
  { flag := 99, qual := 30, tid := 0, mtid := 0, pos := 100, mpos := 300, isize := 250,
    qname := "read1" }

/-- A read like `proper` without the properly-paired flag (flag 97) and with
fragment size 5000: paired, both ends mapped to chr1, FR orientation, mapping
quality 30. -/
def improper : Record := { proper with flag := 97, isize := 5000, qname := "read2" }

/-- The properly paired read with mapping quality 0 and fragment size 500. -/
def proper_zero_quality : Record := { proper with qual := 0, isize := 500, qname := "read3" }

/-- The properly paired read with the QC-fail flag added (flag 611). -/
def proper_qc_failed : Record := { proper with flag := 611, qname := "read4" }

/-- An unpaired forward read with the given mapping quality (flag 0). -/
def single (qual : Nat) : Record :=
  { flag := 0, qual := qual, tid := 0, mtid := -1, pos := 100, mpos := 0, isize := 0,
    qname := "read5" }

/-- A second read that is paired and mapped but not properly paired, with a
short fragment. -/
def improper_near : Record := { improper with isize := 100, qname := "read6" }

/-- A peak without hits. -/
def peak (name : String) (start end_ : Nat) : Peak :=
  { reference := "chr1", start := start, end_ := end_, name := name, overlapping_hqaa := 0 }

/-- The collector, with a peak file named. -/
def peak_collector : MetricsCollector := { collector with peak_filename := "sample.peaks" }

/-- The fields of the lines of a peak file with two peaks of size 0 on chr1,
all of which parse. -/
def point_peak_file : List Feature :=
  [{ reference := "chr1", start := 10, end_ := 10, name := "A" },
   { reference := "chr1", start := 20, end_ := 20, name := "B" }]

/-- A peak tree that holds two peaks of size 0 on chr1. -/
def point_peaks : PeakTree :=
  { tree := [("chr1",
      { reference := "chr1", start := 10, end_ := 20,
        peaks := [peak "A" 10 10, peak "B" 20 20] })] }

/-- The properly paired read as a secondary alignment (flag 355 = 99 + 256). -/
def proper_secondary : Record := { proper with flag := 355, qname := "read7" }

/-- A peak file with two peaks on chr1, the later one first. -/
def unsorted_peak_file : List Peak := [peak "late" 300 500, peak "early" 50 200]

/-- A feature inside the peak chr1:100-200. -/
def inner_feature : Feature := { reference := "chr1", start := 150, end_ := 160, name := "hit" }

/-- A second feature, at the start of the peak chr1:100-200. -/
def edge_feature : Feature := { reference := "chr1", start := 90, end_ := 110, name := "edge" }

/-- A peak tree whose peaks D, A, C, B have 1, 5, 3 and 5 hits. -/
def ranked_peaks : PeakTree :=
  { tree := [("chr1",
      { reference := "chr1", start := 10, end_ := 90,
        peaks :=
          [{ peak "D" 10 20 with overlapping_hqaa := 1 },
           { peak "A" 30 40 with overlapping_hqaa := 5 },
           { peak "C" 50 60 with overlapping_hqaa := 3 },
           { peak "B" 70 90 with overlapping_hqaa := 5 }] })] }

/-- A collector with a peak file and the excluded region chr1:1000-2000. -/
def excluding_collector : MetricsCollector :=
  { peak_collector with
    excluded_regions := [{ reference := "chr1", start := 1000, end_ := 2000, name := "gap" }] }

/-- The input peaks of a peak file: a peak on chr1, a peak within the excluded
region, a peak on the mitochondrial reference and a peak on chr2. -/
def mixed_peak_file : List Feature :=
  [{ reference := "chr1", start := 100, end_ := 200, name := "kept1" },
   { reference := "chr1", start := 1200, end_ := 1300, name := "excluded" },
   { reference := "chrM", start := 100, end_ := 200, name := "mitochondrial" },
   { reference := "chr2", start := 50, end_ := 80, name := "kept2" }]

/-- Two peaks on chr1 that do not overlap, in ascending order. -/
def near_far_peaks : List Peak := [peak "A" 100 200, peak "B" 1000 1100]

/-- The two peaks loaded in ascending order. -/
def near_far_tree : PeakTree := (PeakTree.add_all { tree := [] } near_far_peaks).1

/-- The two peaks loaded in descending order. -/
def far_near_tree : PeakTree := (PeakTree.add_all { tree := [] } near_far_peaks.reverse).1

/-- A collector for a human sample, as the constructor makes it. -/
def human : MetricsCollector := MetricsCollector.new "human" "chrM" "" false

/-- A collector for a mouse sample, as the constructor makes it. -/
def mouse : MetricsCollector := MetricsCollector.new "mouse" "chrM" "" false

/-- The fields of the lines of a peak file with two peaks on chr1, in
ascending order, all of which parse. -/
def neighbour_peak_file : List Feature :=
  [{ reference := "chr1", start := 150, end_ := 200, name := "A" },
   { reference := "chr1", start := 300, end_ := 400, name := "B" }]

/-- The tree that `load_peaks` makes of `neighbour_peak_file`. -/
def neighbour_peaks : PeakTree :=
  { tree := [("chr1",
      { reference := "chr1", start := 150, end_ := 400,
        peaks := [peak "A" 150 200, peak "B" 300 400] })] }

/-- A peak that spans chr1:10-100 and a peak within it. -/
def outer_peak : Peak := peak "outer" 10 100

/-- The peak chr1:20-50, which lies within `outer_peak`. -/
def inner_peak : Peak := peak "inner" 20 50

/-- A collection that holds one peak of chr1. -/
def chr1_collection : ReferencePeakCollection :=
  { reference := "chr1", start := 100, end_ := 200, peaks := [peak "A" 100 200] }

/-- A peak on chr2. -/
def chr2_peak : Peak :=
  { reference := "chr2", start := 5, end_ := 10, name := "other", overlapping_hqaa := 0 }

/-- A feature of chr1 that lies after the span of `chr1_collection`. -/
def late_feature : Feature := { reference := "chr1", start := 300, end_ := 400, name := "late" }

/-- A feature of chr1 that lies before the span of `chr1_collection`. -/
def early_feature : Feature := { reference := "chr1", start := 10, end_ := 20, name := "early" }

/-- Two peaks of chr1, the first of which starts at coordinate 0. -/
def zero_start_peaks : List Peak := [peak "first" 0 50, peak "second" 100 200]

/-- A properly paired reverse read on chr1 whose mate lies upstream (flag 83:
paired, proper pair, read reverse, read 1), with the least fragment size a
32-bit `isize` can hold. -/
def proper_least_isize : Record :=
  { flag := 83, qual := 30, tid := 0, mtid := 0, pos := 300, mpos := 100, isize := -2147483648,
    qname := "read13" }

/-- A read that is paired and mapped but not properly paired, on the reference
of its mate, with both ends on the forward strand (flag 65: paired, read 1). -/
def improper_forward : Record := { improper with flag := 65, qname := "read14" }

/-- A `Peak` variable before anything is read into it: empty strings and
zero coordinates. -/
def unread_peak : Peak :=
  { reference := "", start := 0, end_ := 0, name := "", overlapping_hqaa := 0 }

/-- The lines of a peak file with the four peaks of `mixed_peak_file`, an
empty line after the first peak and an empty line at the end. -/
def mixed_peak_lines : List PeakLine :=
  [PeakLine.full { reference := "chr1", start := 100, end_ := 200, name := "kept1" },
   PeakLine.blank,
   PeakLine.full { reference := "chr1", start := 1200, end_ := 1300, name := "excluded" },
   PeakLine.full { reference := "chrM", start := 100, end_ := 200, name := "mitochondrial" },
   PeakLine.full { reference := "chr2", start := 50, end_ := 80, name := "kept2" },
   PeakLine.blank]

/-- The tree that `load_peaks` makes of `mixed_peak_lines` under
`excluding_collector`: each of the two peaks that pass the test is held
twice. -/
def twice_loaded_peaks : PeakTree :=
  { tree :=
      [("chr1",
        { reference := "chr1", start := 100, end_ := 200,
          peaks :=
            [{ reference := "chr1", start := 100, end_ := 200, name := "kept1",
               overlapping_hqaa := 0 },
             { reference := "chr1", start := 100, end_ := 200, name := "kept1",
               overlapping_hqaa := 0 }] }),
       ("chr2",
        { reference := "chr2", start := 50, end_ := 80,
          peaks :=
            [{ reference := "chr2", start := 50, end_ := 80, name := "kept2",
               overlapping_hqaa := 0 },
             { reference := "chr2", start := 50, end_ := 80, name := "kept2",
               overlapping_hqaa := 0 }] })] }

end Sample

/-! # Theorems -/

/-! ## Frame lemmas -/

theorem Metrics.log_if_eq (m : Metrics) (problem : String) (subject : ProblemSubject) :
    m.log_if problem subject =
      { m with problematic_read_stream := (m.log_if problem subject).problematic_read_stream } := by
  unfold Metrics.log_if Metrics.log_problematic_read
  split_ifs <;> rfl

/-- Logging changes nothing but the stream: any observation that ignores the
stream is unchanged. -/
theorem Metrics.log_if_frame {α : Type} (f : Metrics → α)
    (hf : ∀ (m : Metrics) (s : List (String × ProblemSubject)),
      f { m with problematic_read_stream := s } = f m)
    (m : Metrics) (problem : String) (subject : ProblemSubject) :
    f (m.log_if problem subject) = f m := by
  rw [Metrics.log_if_eq, hf]

theorem Metrics.leaf_log_if (m : Metrics) (problem : String) (subject : ProblemSubject)
    (l : Leaf) : (m.log_if problem subject).leaf l = m.leaf l :=
  Metrics.log_if_frame (fun m => m.leaf l) (fun _ _ => by cases l <;> rfl) m problem subject

theorem Metrics.total_reads_log_if (m : Metrics) (problem : String) (subject : ProblemSubject) :
    (m.log_if problem subject).total_reads = m.total_reads :=
  Metrics.log_if_frame (fun m => m.total_reads) (fun _ _ => rfl) m problem subject

theorem Metrics.sizes_log_if (m : Metrics) (problem : String) (subject : ProblemSubject) :
    (m.log_if problem subject).unlikely_fragment_sizes = m.unlikely_fragment_sizes :=
  Metrics.log_if_frame (fun m => m.unlikely_fragment_sizes) (fun _ _ => rfl) m problem subject

theorem Metrics.maximum_log_if (m : Metrics) (problem : String) (subject : ProblemSubject) :
    (m.log_if problem subject).maximum_proper_pair_fragment_size =
      m.maximum_proper_pair_fragment_size :=
  Metrics.log_if_frame (fun m => m.maximum_proper_pair_fragment_size) (fun _ _ => rfl)
    m problem subject

theorem Metrics.hqaa_log_if (m : Metrics) (problem : String) (subject : ProblemSubject) :
    (m.log_if problem subject).hqaa = m.hqaa :=
  Metrics.log_if_frame (fun m => m.hqaa) (fun _ _ => rfl) m problem subject

theorem Metrics.collector_log_if (m : Metrics) (problem : String) (subject : ProblemSubject) :
    (m.log_if problem subject).collector = m.collector :=
  Metrics.log_if_frame (fun m => m.collector) (fun _ _ => rfl) m problem subject
/-- The fields that the autosomal / mitochondrial block may change. -/
theorem Metrics.add_alignment_reference_shape (m : Metrics) (header : Header) (r : Record)
    (refcache : Refcache) :
    ∃ a b c d, (m.add_alignment_reference header r refcache).1 =
      { m with
        total_autosomal_reads := a
        duplicate_autosomal_reads := b
        total_mitochondrial_reads := c
        duplicate_mitochondrial_reads := d } := by
  unfold Metrics.add_alignment_reference
  dsimp only
  split_ifs
  · exact ⟨_, _, _, _, rfl⟩
  · exact ⟨_, _, _, _, rfl⟩
  · exact ⟨_, _, _, _, rfl⟩
  · exact ⟨_, _, _, _, rfl⟩

/-- The fields that the block for "original" records may change. -/
theorem Metrics.add_alignment_original_shape (ops : FeatureOps) (m : Metrics) (header : Header)
    (r : Record) (n : Nat) (refcache : Refcache) :
    ∃ a b c d e f g, (m.add_alignment_original ops header r n refcache).1 =
      { m with
        fragment_length_counts := a
        maximum_proper_pair_fragment_size := b
        hqaa := c
        hqaa_fragment_length_counts := d
        hqaa_short_count := e
        hqaa_mononucleosomal_count := f
        peaks := g } := by
  unfold Metrics.add_alignment_original
  dsimp only
  split_ifs <;> exact ⟨_, _, _, _, _, _, _, rfl⟩

/-- The fields that the properly paired branch may change. -/
theorem Metrics.add_alignment_proper_shape (ops : FeatureOps) (m : Metrics) (header : Header)
    (r : Record) (n : Nat) (refcache : Refcache) :
    ∃ a b c d e f g h i j k l, (m.add_alignment_proper ops header r n refcache).1 =
      { m with
        properly_paired_and_mapped_reads := m.properly_paired_and_mapped_reads + 1
        fr_reads := a
        total_autosomal_reads := b
        duplicate_autosomal_reads := c
        total_mitochondrial_reads := d
        duplicate_mitochondrial_reads := e
        fragment_length_counts := f
        maximum_proper_pair_fragment_size := g
        hqaa := h
        hqaa_fragment_length_counts := i
        hqaa_short_count := j
        hqaa_mononucleosomal_count := k
        peaks := l } := by
  unfold Metrics.add_alignment_proper
  dsimp only
  obtain ⟨a, b, c, d, h1⟩ := Metrics.add_alignment_reference_shape
    { m with properly_paired_and_mapped_reads := m.properly_paired_and_mapped_reads + 1
             fr_reads := bump (is_fr r) m.fr_reads } header r refcache
  split_ifs
  · obtain ⟨a', b', c', d', e', f', g', h2⟩ := Metrics.add_alignment_original_shape ops
      ({ m with properly_paired_and_mapped_reads := m.properly_paired_and_mapped_reads + 1
                fr_reads := bump (is_fr r) m.fr_reads }.add_alignment_reference header r
          refcache).1 header r n
      ({ m with properly_paired_and_mapped_reads := m.properly_paired_and_mapped_reads + 1
                fr_reads := bump (is_fr r) m.fr_reads }.add_alignment_reference header r
          refcache).2
    rw [h2, h1]
    exact ⟨_, _, _, _, _, _, _, _, _, _, _, _, rfl⟩
  · rw [h1]
    exact ⟨_, _, _, _, _, _, _, _, _, _, _, _, rfl⟩

theorem Metrics.leaf_add_alignment_proper (ops : FeatureOps) (m : Metrics) (header : Header)
    (r : Record) (n : Nat) (refcache : Refcache) (l : Leaf) :
    (m.add_alignment_proper ops header r n refcache).1.leaf l =
      m.leaf l + if l = Leaf.properly_paired then 1 else 0 := by
  obtain ⟨_, _, _, _, _, _, _, _, _, _, _, _, h⟩ :=
    Metrics.add_alignment_proper_shape ops m header r n refcache
  rw [h]
  cases l <;> simp [Metrics.leaf]

theorem Metrics.total_reads_add_alignment_proper (ops : FeatureOps) (m : Metrics)
    (header : Header) (r : Record) (n : Nat) (refcache : Refcache) :
    (m.add_alignment_proper ops header r n refcache).1.total_reads = m.total_reads := by
  obtain ⟨_, _, _, _, _, _, _, _, _, _, _, _, h⟩ :=
    Metrics.add_alignment_proper_shape ops m header r n refcache
  rw [h]

theorem Metrics.sizes_add_alignment_proper (ops : FeatureOps) (m : Metrics)
    (header : Header) (r : Record) (n : Nat) (refcache : Refcache) :
    (m.add_alignment_proper ops header r n refcache).1.unlikely_fragment_sizes =
      m.unlikely_fragment_sizes := by
  obtain ⟨_, _, _, _, _, _, _, _, _, _, _, _, h⟩ :=
    Metrics.add_alignment_proper_shape ops m header r n refcache
  rw [h]

theorem Metrics.collector_add_alignment_proper (ops : FeatureOps) (m : Metrics)
    (header : Header) (r : Record) (n : Nat) (refcache : Refcache) :
    (m.add_alignment_proper ops header r n refcache).1.collector = m.collector := by
  obtain ⟨_, _, _, _, _, _, _, _, _, _, _, _, h⟩ :=
    Metrics.add_alignment_proper_shape ops m header r n refcache
  rw [h]

/-! ### The reference cache -/

/-- A second lookup of the same name answers as the first one did and leaves
the cache as the first one left it. -/
theorem MetricsCollector.is_autosomal_again (c : MetricsCollector) (name : String)
    (refcache : Refcache) :
    c.is_autosomal name (c.is_autosomal name refcache).2 = c.is_autosomal name refcache := by
  unfold MetricsCollector.is_autosomal
  cases h : List.lookup name refcache with
  | some b => simp [h]
  | none => simp [List.lookup]

/-- The answer of `is_hqaa` depends on the aggregator only through its
collector. -/
theorem Metrics.is_hqaa_congr (m m' : Metrics) (h : m.collector = m'.collector)
    (header : Header) (r : Record) (refcache : Refcache) :
    m.is_hqaa header r refcache = m'.is_hqaa header r refcache := by
  unfold Metrics.is_hqaa Metrics.is_autosomal
  rw [h]

theorem Metrics.collector_add_alignment_reference (m : Metrics) (header : Header) (r : Record)
    (refcache : Refcache) :
    (m.add_alignment_reference header r refcache).1.collector = m.collector := by
  obtain ⟨_, _, _, _, h⟩ := Metrics.add_alignment_reference_shape m header r refcache
  rw [h]

/-- The cache left by the autosomal / mitochondrial block. -/
theorem Metrics.add_alignment_reference_cache (m : Metrics) (header : Header) (r : Record)
    (refcache : Refcache) :
    (m.add_alignment_reference header r refcache).2 =
      if r.tid ≥ 0 then (m.collector.is_autosomal (header.name_of r.tid) refcache).2
      else refcache := by
  unfold Metrics.add_alignment_reference Metrics.is_autosomal
  dsimp only
  split_ifs <;> rfl

/-- `is_hqaa` answers after the autosomal / mitochondrial block as before it. -/
theorem Metrics.is_hqaa_after_reference (m m' : Metrics) (h : m'.collector = m.collector)
    (header : Header) (r : Record) (refcache : Refcache) :
    (m'.is_hqaa header r (m.add_alignment_reference header r refcache).2).1 =
      (m.is_hqaa header r refcache).1 := by
  rw [Metrics.add_alignment_reference_cache, Metrics.is_hqaa_congr m' m h]
  unfold Metrics.is_hqaa Metrics.is_autosomal
  by_cases ht : r.tid ≥ 0
  · simp only [ht, if_true, MetricsCollector.is_autosomal_again]
    split_ifs <;> rfl
  · simp [ht]

theorem Metrics.maximum_add_alignment_original (ops : FeatureOps) (m : Metrics)
    (header : Header) (r : Record) (n : Nat) (refcache : Refcache) :
    (m.add_alignment_original ops header r n refcache).1.maximum_proper_pair_fragment_size =
      max m.maximum_proper_pair_fragment_size n := by
  unfold Metrics.add_alignment_original
  dsimp only
  split_ifs <;> simp only [] <;> omega

theorem Metrics.hqaa_add_alignment_original (ops : FeatureOps) (m : Metrics)
    (header : Header) (r : Record) (n : Nat) (refcache : Refcache) :
    (m.add_alignment_original ops header r n refcache).1.hqaa =
      m.hqaa + if (m.is_hqaa header r refcache).1 then 1 else 0 := by
  unfold Metrics.add_alignment_original
  dsimp only
  have hc : ∀ (f : List (Nat × Nat)) (c : Nat),
      Metrics.is_hqaa { m with fragment_length_counts := f, maximum_proper_pair_fragment_size := c }
        header r refcache = m.is_hqaa header r refcache := fun _ _ => rfl
  rw [hc]
  by_cases hq : (m.is_hqaa header r refcache).1 = true
  · rw [if_pos hq, if_pos hq]
  · rw [if_neg hq, if_neg hq]; rfl

theorem Metrics.hqaa_add_alignment_reference (m : Metrics) (header : Header) (r : Record)
    (refcache : Refcache) :
    (m.add_alignment_reference header r refcache).1.hqaa = m.hqaa := by
  obtain ⟨_, _, _, _, h⟩ := Metrics.add_alignment_reference_shape m header r refcache
  rw [h]

theorem Metrics.maximum_add_alignment_reference (m : Metrics) (header : Header) (r : Record)
    (refcache : Refcache) :
    (m.add_alignment_reference header r refcache).1.maximum_proper_pair_fragment_size =
      m.maximum_proper_pair_fragment_size := by
  obtain ⟨_, _, _, _, h⟩ := Metrics.add_alignment_reference_shape m header r refcache
  rw [h]

theorem Metrics.maximum_after_reference (ops : FeatureOps) (m : Metrics)
    (header : Header) (r : Record) (n : Nat) (refcache : Refcache) :
    (if IS_ORIGINAL r then
        (m.add_alignment_reference header r refcache).1.add_alignment_original ops header r n
          (m.add_alignment_reference header r refcache).2
      else m.add_alignment_reference header r refcache).1.maximum_proper_pair_fragment_size =
      if IS_ORIGINAL r then max m.maximum_proper_pair_fragment_size n
      else m.maximum_proper_pair_fragment_size := by
  by_cases ho : IS_ORIGINAL r = true
  · rw [if_pos ho, if_pos ho, Metrics.maximum_add_alignment_original,
      Metrics.maximum_add_alignment_reference]
  · rw [if_neg ho, if_neg ho, Metrics.maximum_add_alignment_reference]

theorem Metrics.hqaa_after_reference (ops : FeatureOps) (m : Metrics)
    (header : Header) (r : Record) (n : Nat) (refcache : Refcache) :
    (if IS_ORIGINAL r then
        (m.add_alignment_reference header r refcache).1.add_alignment_original ops header r n
          (m.add_alignment_reference header r refcache).2
      else m.add_alignment_reference header r refcache).1.hqaa =
      m.hqaa + if IS_ORIGINAL r && (m.is_hqaa header r refcache).1 then 1 else 0 := by
  by_cases ho : IS_ORIGINAL r = true
  · rw [if_pos ho, Metrics.hqaa_add_alignment_original,
      Metrics.is_hqaa_after_reference m _ (Metrics.collector_add_alignment_reference _ _ _ _),
      Metrics.hqaa_add_alignment_reference]
    simp [ho]
  · rw [if_neg ho, Metrics.hqaa_add_alignment_reference]
    simp [ho]

theorem Metrics.maximum_add_alignment_proper (ops : FeatureOps) (m : Metrics)
    (header : Header) (r : Record) (n : Nat) (refcache : Refcache) :
    (m.add_alignment_proper ops header r n refcache).1.maximum_proper_pair_fragment_size =
      if IS_ORIGINAL r then max m.maximum_proper_pair_fragment_size n
      else m.maximum_proper_pair_fragment_size :=
  Metrics.maximum_after_reference ops _ header r n refcache

theorem Metrics.hqaa_add_alignment_proper (ops : FeatureOps) (m : Metrics)
    (header : Header) (r : Record) (n : Nat) (refcache : Refcache) :
    (m.add_alignment_proper ops header r n refcache).1.hqaa =
      m.hqaa + if IS_ORIGINAL r && (m.is_hqaa header r refcache).1 then 1 else 0 :=
  Metrics.hqaa_after_reference ops _ header r n refcache
/-- What one `add_alignment` does to the read total, the collector, the
deferred bucket, the running maximum and the hqaa counter. -/
theorem Metrics.add_alignment_effect (ops : FeatureOps) (m : Metrics) (header : Header)
    (r : Record) (refcache : Refcache) :
    (m.add_alignment ops header r refcache).1.total_reads = m.total_reads + 1 ∧
    (m.add_alignment ops header r refcache).1.collector = m.collector ∧
    (m.add_alignment ops header r refcache).1.unlikely_fragment_sizes =
      (if reaches_deferred r then
        sizes_push_back r.qname (fragment_length r) m.unlikely_fragment_sizes
      else m.unlikely_fragment_sizes) ∧
    (m.add_alignment ops header r refcache).1.maximum_proper_pair_fragment_size =
      (if reaches_proper r && IS_ORIGINAL r then
        max m.maximum_proper_pair_fragment_size (fragment_length r)
      else m.maximum_proper_pair_fragment_size) ∧
    (m.add_alignment ops header r refcache).1.hqaa =
      m.hqaa + (if reaches_proper r && IS_ORIGINAL r && (m.is_hqaa header r refcache).1
        then 1 else 0) := by
  unfold Metrics.add_alignment reaches_proper reaches_deferred
  dsimp only
  by_cases h1 : IS_QCFAIL r = true
  · simp [h1, Metrics.total_reads_log_if, Metrics.collector_log_if, Metrics.sizes_log_if,
      Metrics.maximum_log_if, Metrics.hqaa_log_if, Metrics.add_alignment_tallies]
  by_cases h2 : IS_PAIRED r = true
  swap
  · simp [h1, h2, Metrics.total_reads_log_if, Metrics.collector_log_if, Metrics.sizes_log_if,
      Metrics.maximum_log_if, Metrics.hqaa_log_if, Metrics.add_alignment_tallies]
  by_cases h3 : IS_UNMAPPED r = true
  · simp [h1, h2, h3, Metrics.total_reads_log_if, Metrics.collector_log_if, Metrics.sizes_log_if,
      Metrics.maximum_log_if, Metrics.hqaa_log_if, Metrics.add_alignment_tallies]
  by_cases h4 : IS_MATE_UNMAPPED r = true
  · simp [h1, h2, h3, h4, Metrics.total_reads_log_if, Metrics.collector_log_if,
      Metrics.sizes_log_if, Metrics.maximum_log_if, Metrics.hqaa_log_if,
      Metrics.add_alignment_tallies]
  by_cases h5 : is_rf r = true
  · simp [h1, h2, h3, h4, h5, Metrics.total_reads_log_if, Metrics.collector_log_if,
      Metrics.sizes_log_if, Metrics.maximum_log_if, Metrics.hqaa_log_if,
      Metrics.add_alignment_tallies]
  by_cases h6 : is_ff r = true
  · simp [h1, h2, h3, h4, h5, h6, Metrics.total_reads_log_if, Metrics.collector_log_if,
      Metrics.sizes_log_if, Metrics.maximum_log_if, Metrics.hqaa_log_if,
      Metrics.add_alignment_tallies]
  by_cases h7 : is_rr r = true
  · simp [h1, h2, h3, h4, h5, h6, h7, Metrics.total_reads_log_if, Metrics.collector_log_if,
      Metrics.sizes_log_if, Metrics.maximum_log_if, Metrics.hqaa_log_if,
      Metrics.add_alignment_tallies]
  by_cases h8 : r.qual = 0
  · simp [h1, h2, h3, h4, h5, h6, h7, h8, Metrics.total_reads_log_if, Metrics.collector_log_if,
      Metrics.sizes_log_if, Metrics.maximum_log_if, Metrics.hqaa_log_if,
      Metrics.add_alignment_tallies]
  by_cases h9 : IS_PAIRED_AND_MAPPED r = true
  swap
  · simp [h1, h2, h3, h4, h5, h6, h7, h8, h9, Metrics.total_reads_log_if,
      Metrics.collector_log_if, Metrics.sizes_log_if, Metrics.maximum_log_if,
      Metrics.hqaa_log_if, Metrics.add_alignment_tallies]
  by_cases h10 : IS_PROPERLYPAIRED r = true
  · simp only [h1, h2, h3, h4, h5, h6, h7, h8, h9, h10, Bool.not_true, Bool.false_eq_true,
      if_false, if_true, Bool.not_false, Bool.true_and, decide_False, Bool.and_true,
      Bool.and_false, Bool.and_self, decide_True, Bool.false_and,
      Metrics.total_reads_add_alignment_proper, Metrics.collector_add_alignment_proper,
      Metrics.sizes_add_alignment_proper, Metrics.maximum_add_alignment_proper,
      Metrics.hqaa_add_alignment_proper]
    refine ⟨rfl, rfl, rfl, rfl, ?_⟩
    rw [Metrics.is_hqaa_congr _ m rfl]
    rfl
  by_cases h11 : r.tid = r.mtid
  · simp [h1, h2, h3, h4, h5, h6, h7, h8, h9, h10, h11, Metrics.total_reads_log_if,
      Metrics.collector_log_if, Metrics.sizes_log_if, Metrics.maximum_log_if,
      Metrics.hqaa_log_if, Metrics.add_alignment_tallies]
  · simp [h1, h2, h3, h4, h5, h6, h7, h8, h9, h10, h11, Metrics.total_reads_log_if,
      Metrics.collector_log_if, Metrics.sizes_log_if, Metrics.maximum_log_if,
      Metrics.hqaa_log_if, Metrics.add_alignment_tallies]

/-- The effect of one `add_alignment` on every taxonomy counter: the counter of
the record's outcome goes up by one, every other one is unchanged. -/
theorem Metrics.leaf_add_alignment (ops : FeatureOps) (m : Metrics) (header : Header)
    (r : Record) (refcache : Refcache) (l : Leaf) :
    (m.add_alignment ops header r refcache).1.leaf l =
      m.leaf l + if taxonomy_outcome r = Outcome.counted l then 1 else 0 := by
  unfold Metrics.add_alignment taxonomy_outcome taxonomy_guards
  simp only [first_match_in]
  by_cases h1 : IS_QCFAIL r = true
  · simp only [h1, if_true, Metrics.leaf_log_if]
    cases l <;> simp [Metrics.leaf, Metrics.add_alignment_tallies]
  by_cases h2 : IS_PAIRED r = true
  swap
  · simp only [h1, h2, Bool.not_eq_true', Bool.not_eq_true, if_true, if_false, Metrics.leaf_log_if,
      Bool.false_eq_true]
    cases l <;> simp [Metrics.leaf, Metrics.add_alignment_tallies]
  by_cases h3 : IS_UNMAPPED r = true
  · simp [h1, h2, h3, Metrics.leaf_log_if]
    cases l <;> simp [Metrics.leaf, Metrics.add_alignment_tallies]
  by_cases h4 : IS_MATE_UNMAPPED r = true
  · simp [h1, h2, h3, h4, Metrics.leaf_log_if]
    cases l <;> simp [Metrics.leaf, Metrics.add_alignment_tallies]
  by_cases h5 : is_rf r = true
  · simp [h1, h2, h3, h4, h5, Metrics.leaf_log_if]
    cases l <;> simp [Metrics.leaf, Metrics.add_alignment_tallies]
  by_cases h6 : is_ff r = true
  · simp [h1, h2, h3, h4, h5, h6, Metrics.leaf_log_if]
    cases l <;> simp [Metrics.leaf, Metrics.add_alignment_tallies]
  by_cases h7 : is_rr r = true
  · simp [h1, h2, h3, h4, h5, h6, h7, Metrics.leaf_log_if]
    cases l <;> simp [Metrics.leaf, Metrics.add_alignment_tallies]
  by_cases h8 : r.qual = 0
  · simp [h1, h2, h3, h4, h5, h6, h7, h8, Metrics.leaf_log_if]
    cases l <;> simp [Metrics.leaf, Metrics.add_alignment_tallies]
  by_cases h9 : IS_PAIRED_AND_MAPPED r = true
  swap
  · simp [h1, h2, h3, h4, h5, h6, h7, h8, h9, Metrics.leaf_log_if]
    cases l <;> simp [Metrics.leaf, Metrics.add_alignment_tallies]
  by_cases h10 : IS_PROPERLYPAIRED r = true
  · simp [h1, h2, h3, h4, h5, h6, h7, h8, h9, h10, Metrics.leaf_add_alignment_proper,
      paired_and_mapped_outcome]
    cases l <;> simp [Metrics.leaf, Metrics.add_alignment_tallies]
  by_cases h11 : r.tid = r.mtid
  · simp [h1, h2, h3, h4, h5, h6, h7, h8, h9, h10, h11, Metrics.leaf_log_if,
      paired_and_mapped_outcome]
    cases l <;> simp [Metrics.leaf, Metrics.add_alignment_tallies]
  · simp [h1, h2, h3, h4, h5, h6, h7, h8, h9, h10, h11, Metrics.leaf_log_if,
      paired_and_mapped_outcome]
    cases l <;> simp [Metrics.leaf, Metrics.add_alignment_tallies]
/-! ### The deferred bucket -/

theorem deferred_sizes_push_back (name : String) (v : Nat) (sizes : List (String × List Nat)) :
    (deferred_sizes (sizes_push_back name v sizes)).Perm (v :: deferred_sizes sizes) := by
  induction sizes with
  | nil => simp [sizes_push_back, deferred_sizes]
  | cons e rest ih =>
    obtain ⟨n, vs⟩ := e
    unfold sizes_push_back
    by_cases h1 : string_lt name n = true
    · rw [if_pos h1]
      simp [deferred_sizes]
    · rw [if_neg h1]
      by_cases h2 : name = n
      · rw [if_pos h2]
        simp only [deferred_sizes, List.flatMap_cons, List.append_assoc, List.singleton_append]
        exact List.perm_middle
      · rw [if_neg h2]
        simp only [deferred_sizes, List.flatMap_cons]
        exact (List.Perm.append_left vs ih).trans List.perm_middle

/-- The inner loop of the deferred pass counts each listed size on one side of
the running maximum and touches nothing else but the problem stream. -/
theorem diagnose_sizes_shape (read_name : String) (sizes : List Nat) (m : Metrics) :
    ∃ s, diagnose_sizes read_name m sizes =
      { m with
        reads_with_mate_too_distant := m.reads_with_mate_too_distant +
          sizes.countP (fun L => decide (m.maximum_proper_pair_fragment_size < L))
        reads_mapped_and_paired_but_improperly := m.reads_mapped_and_paired_but_improperly +
          sizes.countP (fun L => decide (L ≤ m.maximum_proper_pair_fragment_size))
        problematic_read_stream := s } := by
  induction sizes generalizing m with
  | nil => exact ⟨m.problematic_read_stream, by simp [diagnose_sizes]⟩
  | cons x rest ih =>
    unfold diagnose_sizes
    by_cases h : m.maximum_proper_pair_fragment_size < x
    · rw [if_pos h]
      obtain ⟨s, hs⟩ := ih (({ m with
        reads_with_mate_too_distant := m.reads_with_mate_too_distant + 1 }).log_if
          "Mate too distant" (ProblemSubject.read_name read_name))
      refine ⟨s, ?_⟩
      rw [hs, Metrics.log_if_eq]
      have hx : ¬ x ≤ m.maximum_proper_pair_fragment_size := Nat.not_le.mpr h
      simp [List.countP_cons, h, hx]
      omega
    · rw [if_neg h]
      obtain ⟨s, hs⟩ := ih (({ m with
        reads_mapped_and_paired_but_improperly :=
          m.reads_mapped_and_paired_but_improperly + 1 }).log_if
          "Undiagnosed" (ProblemSubject.read_name read_name))
      refine ⟨s, ?_⟩
      rw [hs, Metrics.log_if_eq]
      have hx : x ≤ m.maximum_proper_pair_fragment_size := Nat.not_lt.mp h
      simp [List.countP_cons, h, hx]
      omega
/-- The outer loop of the deferred pass: the counts over all listed sizes, and
every entry left with an empty list. -/
theorem diagnose_suspects_shape (entries : List (String × List Nat)) (m : Metrics) :
    ∃ s, diagnose_suspects m entries =
      ({ m with
         reads_with_mate_too_distant := m.reads_with_mate_too_distant +
           (deferred_sizes entries).countP
             (fun L => decide (m.maximum_proper_pair_fragment_size < L))
         reads_mapped_and_paired_but_improperly := m.reads_mapped_and_paired_but_improperly +
           (deferred_sizes entries).countP
             (fun L => decide (L ≤ m.maximum_proper_pair_fragment_size))
         problematic_read_stream := s },
       entries.map (fun e => (e.1, []))) := by
  induction entries generalizing m with
  | nil => exact ⟨m.problematic_read_stream, by simp [diagnose_suspects, deferred_sizes]⟩
  | cons e rest ih =>
    obtain ⟨read_name, sizes⟩ := e
    unfold diagnose_suspects
    dsimp only
    obtain ⟨s1, h1⟩ := diagnose_sizes_shape read_name sizes m
    obtain ⟨s2, h2⟩ := ih (diagnose_sizes read_name m sizes)
    refine ⟨s2, ?_⟩
    rw [h2, h1]
    simp [deferred_sizes, List.countP_append]
    omega

/-- The whole deferred pass: the two counters are recounted from the bucket
against the running maximum; the bucket entries are emptied; only the problem
stream changes besides. -/
theorem Metrics.make_aggregate_diagnoses_shape (m : Metrics) :
    ∃ s, m.make_aggregate_diagnoses =
      { m with
        reads_with_mate_too_distant :=
          (deferred_sizes m.unlikely_fragment_sizes).countP
            (fun L => decide (m.maximum_proper_pair_fragment_size < L))
        reads_mapped_and_paired_but_improperly :=
          (deferred_sizes m.unlikely_fragment_sizes).countP
            (fun L => decide (L ≤ m.maximum_proper_pair_fragment_size))
        problematic_read_stream := s
        unlikely_fragment_sizes := m.unlikely_fragment_sizes.map (fun e => (e.1, [])) } := by
  unfold Metrics.make_aggregate_diagnoses
  dsimp only
  obtain ⟨s, hs⟩ := diagnose_suspects_shape m.unlikely_fragment_sizes
    { m with reads_with_mate_too_distant := 0, reads_mapped_and_paired_but_improperly := 0 }
  refine ⟨s, ?_⟩
  rw [hs]
  simp

/-! ### Streams -/

theorem add_alignments_nil (ops : FeatureOps) (header : Header) (s : Metrics × Refcache) :
    add_alignments ops header s [] = s := rfl

theorem add_alignments_cons (ops : FeatureOps) (header : Header) (s : Metrics × Refcache)
    (r : Record) (rest : List Record) :
    add_alignments ops header s (r :: rest) =
      add_alignments ops header (s.1.add_alignment ops header r s.2) rest := rfl

theorem add_alignments_total_reads (ops : FeatureOps) (header : Header)
    (records : List Record) (s : Metrics × Refcache) :
    (add_alignments ops header s records).1.total_reads = s.1.total_reads + records.length := by
  induction records generalizing s with
  | nil => rfl
  | cons r rest ih =>
    rw [add_alignments_cons, ih, (Metrics.add_alignment_effect ops s.1 header r s.2).1,
      List.length_cons]
    omega

theorem add_alignments_collector (ops : FeatureOps) (header : Header)
    (records : List Record) (s : Metrics × Refcache) :
    (add_alignments ops header s records).1.collector = s.1.collector := by
  induction records generalizing s with
  | nil => rfl
  | cons r rest ih =>
    rw [add_alignments_cons, ih, (Metrics.add_alignment_effect ops s.1 header r s.2).2.1]

theorem add_alignments_leaf (ops : FeatureOps) (header : Header)
    (records : List Record) (s : Metrics × Refcache) (l : Leaf) :
    (add_alignments ops header s records).1.leaf l =
      s.1.leaf l + records.countP (fun r => decide (taxonomy_outcome r = Outcome.counted l)) := by
  induction records generalizing s with
  | nil => rfl
  | cons r rest ih =>
    rw [add_alignments_cons, ih, Metrics.leaf_add_alignment, List.countP_cons]
    simp only [decide_eq_true_eq]
    omega

theorem add_alignments_deferred (ops : FeatureOps) (header : Header)
    (records : List Record) (s : Metrics × Refcache) :
    (deferred_sizes (add_alignments ops header s records).1.unlikely_fragment_sizes).Perm
      (deferred_sizes s.1.unlikely_fragment_sizes ++
        ((records.filter reaches_deferred).map fragment_length)) := by
  induction records generalizing s with
  | nil => simp [add_alignments_nil]
  | cons r rest ih =>
    rw [add_alignments_cons]
    refine (ih _).trans ?_
    rw [(Metrics.add_alignment_effect ops s.1 header r s.2).2.2.1]
    by_cases h : reaches_deferred r = true
    · rw [if_pos h, List.filter_cons_of_pos h, List.map_cons]
      exact (List.Perm.append_right _ (deferred_sizes_push_back _ _ _)).trans
        (by simpa using List.perm_middle.symm)
    · rw [if_neg h, List.filter_cons_of_neg h]

theorem add_alignments_maximum (ops : FeatureOps) (header : Header)
    (records : List Record) (s : Metrics × Refcache) :
    (add_alignments ops header s records).1.maximum_proper_pair_fragment_size =
      ((records.filter (fun r => reaches_proper r && IS_ORIGINAL r)).map
        fragment_length).foldl max s.1.maximum_proper_pair_fragment_size := by
  induction records generalizing s with
  | nil => rfl
  | cons r rest ih =>
    rw [add_alignments_cons, ih, (Metrics.add_alignment_effect ops s.1 header r s.2).2.2.2.1]
    by_cases h : (reaches_proper r && IS_ORIGINAL r) = true
    · simp only [h, if_true, List.filter_cons, List.map_cons, List.foldl_cons]
    · simp only [h, if_false, List.filter_cons, Bool.false_eq_true]
/-! ### Outcomes and path conditions -/

theorem taxonomy_outcome_not_late (r : Record) :
    taxonomy_outcome r ≠ Outcome.counted Leaf.mate_too_distant ∧
      taxonomy_outcome r ≠ Outcome.counted Leaf.improperly_paired_other := by
  unfold taxonomy_outcome taxonomy_guards
  simp only [first_match_in, paired_and_mapped_outcome]
  by_cases h1 : IS_QCFAIL r = true
  · simp [h1]
  by_cases h2 : IS_PAIRED r = true
  swap
  · simp [h1, h2]
  by_cases h3 : IS_UNMAPPED r = true
  · simp [h1, h2, h3]
  by_cases h4 : IS_MATE_UNMAPPED r = true
  · simp [h1, h2, h3, h4]
  by_cases h5 : is_rf r = true
  · simp [h1, h2, h3, h4, h5]
  by_cases h6 : is_ff r = true
  · simp [h1, h2, h3, h4, h5, h6]
  by_cases h7 : is_rr r = true
  · simp [h1, h2, h3, h4, h5, h6, h7]
  by_cases h8 : r.qual = 0
  · simp [h1, h2, h3, h4, h5, h6, h7, h8]
  by_cases h9 : IS_PAIRED_AND_MAPPED r = true
  swap
  · simp [h1, h2, h3, h4, h5, h6, h7, h8, h9]
  by_cases h10 : IS_PROPERLYPAIRED r = true
  · simp [h1, h2, h3, h4, h5, h6, h7, h8, h9, h10]
  by_cases h11 : r.tid = r.mtid
  · simp [h1, h2, h3, h4, h5, h6, h7, h8, h9, h10, h11]
  · simp [h1, h2, h3, h4, h5, h6, h7, h8, h9, h10, h11]

theorem reaches_proper_iff (r : Record) :
    reaches_proper r = true ↔ taxonomy_outcome r = Outcome.counted Leaf.properly_paired := by
  unfold reaches_proper taxonomy_outcome taxonomy_guards
  simp only [first_match_in, paired_and_mapped_outcome]
  by_cases h1 : IS_QCFAIL r = true
  · simp [h1]
  by_cases h2 : IS_PAIRED r = true
  swap
  · simp [h1, h2]
  by_cases h3 : IS_UNMAPPED r = true
  · simp [h1, h2, h3]
  by_cases h4 : IS_MATE_UNMAPPED r = true
  · simp [h1, h2, h3, h4]
  by_cases h5 : is_rf r = true
  · simp [h1, h2, h3, h4, h5]
  by_cases h6 : is_ff r = true
  · simp [h1, h2, h3, h4, h5, h6]
  by_cases h7 : is_rr r = true
  · simp [h1, h2, h3, h4, h5, h6, h7]
  by_cases h8 : r.qual = 0
  · simp [h1, h2, h3, h4, h5, h6, h7, h8]
  by_cases h9 : IS_PAIRED_AND_MAPPED r = true
  swap
  · simp [h1, h2, h3, h4, h5, h6, h7, h8, h9]
  by_cases h10 : IS_PROPERLYPAIRED r = true
  · simp [h1, h2, h3, h4, h5, h6, h7, h8, h9, h10]
  by_cases h11 : r.tid = r.mtid
  · simp [h1, h2, h3, h4, h5, h6, h7, h8, h9, h10, h11]
  · simp [h1, h2, h3, h4, h5, h6, h7, h8, h9, h10, h11]

theorem reaches_deferred_iff (r : Record) :
    reaches_deferred r = true ↔ taxonomy_outcome r = Outcome.deferred := by
  unfold reaches_deferred taxonomy_outcome taxonomy_guards
  simp only [first_match_in, paired_and_mapped_outcome]
  by_cases h1 : IS_QCFAIL r = true
  · simp [h1]
  by_cases h2 : IS_PAIRED r = true
  swap
  · simp [h1, h2]
  by_cases h3 : IS_UNMAPPED r = true
  · simp [h1, h2, h3]
  by_cases h4 : IS_MATE_UNMAPPED r = true
  · simp [h1, h2, h3, h4]
  by_cases h5 : is_rf r = true
  · simp [h1, h2, h3, h4, h5]
  by_cases h6 : is_ff r = true
  · simp [h1, h2, h3, h4, h5, h6]
  by_cases h7 : is_rr r = true
  · simp [h1, h2, h3, h4, h5, h6, h7]
  by_cases h8 : r.qual = 0
  · simp [h1, h2, h3, h4, h5, h6, h7, h8]
  by_cases h9 : IS_PAIRED_AND_MAPPED r = true
  swap
  · simp [h1, h2, h3, h4, h5, h6, h7, h8, h9]
  by_cases h10 : IS_PROPERLYPAIRED r = true
  · simp [h1, h2, h3, h4, h5, h6, h7, h8, h9, h10]
  by_cases h11 : r.tid = r.mtid
  · simp [h1, h2, h3, h4, h5, h6, h7, h8, h9, h10, h11]
  · simp [h1, h2, h3, h4, h5, h6, h7, h8, h9, h10, h11]

/-- One record raises the taxonomy sum, or the number of deferred sizes, by
one. -/
theorem Metrics.add_alignment_sum (ops : FeatureOps) (m : Metrics) (header : Header)
    (r : Record) (refcache : Refcache) :
    (m.add_alignment ops header r refcache).1.taxonomy_sum +
        (deferred_sizes (m.add_alignment ops header r refcache).1.unlikely_fragment_sizes).length =
      m.taxonomy_sum + (deferred_sizes m.unlikely_fragment_sizes).length + 1 := by
  have hsum : ∀ m' : Metrics, m'.taxonomy_sum =
      m'.leaf Leaf.qc_failed + m'.leaf Leaf.unpaired + m'.leaf Leaf.unmapped +
        m'.leaf Leaf.unmapped_mate + m'.leaf Leaf.different_reference +
        m'.leaf Leaf.zero_quality + m'.leaf Leaf.mate_too_distant + m'.leaf Leaf.rf +
        m'.leaf Leaf.ff + m'.leaf Leaf.rr + m'.leaf Leaf.improperly_paired_other +
        m'.leaf Leaf.properly_paired + m'.leaf Leaf.unclassified := fun _ => rfl
  rw [hsum, hsum m]
  simp only [Metrics.leaf_add_alignment]
  rw [(Metrics.add_alignment_effect ops m header r refcache).2.2.1]
  by_cases hd : reaches_deferred r = true
  · rw [if_pos hd, (deferred_sizes_push_back _ _ _).length_eq]
    rw [(reaches_deferred_iff r).mp hd]
    simp
    omega
  · rw [if_neg hd]
    have hd' : taxonomy_outcome r ≠ Outcome.deferred := fun h => hd ((reaches_deferred_iff r).mpr h)
    cases ho : taxonomy_outcome r with
    | deferred => exact absurd ho hd'
    | counted l =>
      have h1 := (taxonomy_outcome_not_late r).1
      have h2 := (taxonomy_outcome_not_late r).2
      rw [ho] at h1 h2
      cases l <;> first | exact absurd rfl h1 | exact absurd rfl h2 | (simp; omega)
theorem countP_lt_add_countP_le (M : Nat) (sizes : List Nat) :
    sizes.countP (fun L => decide (M < L)) + sizes.countP (fun L => decide (L ≤ M)) =
      sizes.length := by
  induction sizes with
  | nil => rfl
  | cons x rest ih =>
    by_cases h : M < x
    · have h' : ¬ x ≤ M := Nat.not_le.mpr h
      simp [List.countP_cons, h, h']
      omega
    · have h' : x ≤ M := Nat.not_lt.mp h
      simp [List.countP_cons, h, h']
      omega

theorem add_alignments_sum (ops : FeatureOps) (header : Header)
    (records : List Record) (s : Metrics × Refcache) :
    (add_alignments ops header s records).1.taxonomy_sum +
        (deferred_sizes (add_alignments ops header s records).1.unlikely_fragment_sizes).length =
      s.1.taxonomy_sum + (deferred_sizes s.1.unlikely_fragment_sizes).length +
        records.length := by
  induction records generalizing s with
  | nil => rfl
  | cons r rest ih =>
    rw [add_alignments_cons, ih, Metrics.add_alignment_sum, List.length_cons]
    omega

theorem add_alignments_late (ops : FeatureOps) (header : Header)
    (records : List Record) (s : Metrics × Refcache) :
    (add_alignments ops header s records).1.reads_with_mate_too_distant =
        s.1.reads_with_mate_too_distant ∧
      (add_alignments ops header s records).1.reads_mapped_and_paired_but_improperly =
        s.1.reads_mapped_and_paired_but_improperly := by
  have h1 := add_alignments_leaf ops header records s Leaf.mate_too_distant
  have h2 := add_alignments_leaf ops header records s Leaf.improperly_paired_other
  have z1 : records.countP
      (fun r => decide (taxonomy_outcome r = Outcome.counted Leaf.mate_too_distant)) = 0 := by
    rw [List.countP_eq_zero]
    intro r _
    simpa using (taxonomy_outcome_not_late r).1
  have z2 : records.countP
      (fun r => decide (taxonomy_outcome r = Outcome.counted Leaf.improperly_paired_other)) =
        0 := by
    rw [List.countP_eq_zero]
    intro r _
    simpa using (taxonomy_outcome_not_late r).2
  rw [z1] at h1
  rw [z2] at h2
  exact ⟨h1, h2⟩

/-- C1. For every record stream passed to `add_alignment` on a freshly
constructed aggregator and followed by one `make_aggregate_diagnoses`, the
thirteen taxonomy counters add up to `total_reads`, which is the number of
records of the stream. -/
theorem taxonomy_sum_eq_total_reads (ops : FeatureOps) (collector : MetricsCollector)
    (name : String) (peaks_requested : Bool) (peaks : PeakTree) (total_peak_territory : Nat)
    (header : Header) (refcache : Refcache) (records : List Record) :
    ((Metrics.constructed collector name peaks_requested peaks total_peak_territory).finalized
        ops header refcache records).taxonomy_sum =
      ((Metrics.constructed collector name peaks_requested peaks total_peak_territory).finalized
        ops header refcache records).total_reads ∧
    ((Metrics.constructed collector name peaks_requested peaks total_peak_territory).finalized
        ops header refcache records).total_reads = records.length := by
  unfold Metrics.finalized Metrics.after_stream
  have hsum := add_alignments_sum ops header records
    (Metrics.constructed collector name peaks_requested peaks total_peak_territory, refcache)
  have hlate := add_alignments_late ops header records
    (Metrics.constructed collector name peaks_requested peaks total_peak_territory, refcache)
  have htotal := add_alignments_total_reads ops header records
    (Metrics.constructed collector name peaks_requested peaks total_peak_territory, refcache)
  have e1 : (Metrics.constructed collector name peaks_requested peaks
      total_peak_territory).taxonomy_sum = 0 := rfl
  have e2 : (Metrics.constructed collector name peaks_requested peaks
      total_peak_territory).unlikely_fragment_sizes = [] := rfl
  have e3 : (Metrics.constructed collector name peaks_requested peaks
      total_peak_territory).total_reads = 0 := rfl
  have e4 : (Metrics.constructed collector name peaks_requested peaks
      total_peak_territory).reads_with_mate_too_distant = 0 := rfl
  have e5 : (Metrics.constructed collector name peaks_requested peaks
      total_peak_territory).reads_mapped_and_paired_but_improperly = 0 := rfl
  simp only [e1, e2, e3, e4, e5, deferred_sizes, List.flatMap_nil, List.length_nil] at hsum hlate htotal
  generalize (add_alignments ops header
    (Metrics.constructed collector name peaks_requested peaks total_peak_territory, refcache)
    records).1 = m at hsum hlate htotal ⊢
  obtain ⟨s, hs⟩ := Metrics.make_aggregate_diagnoses_shape m
  have hcount := countP_lt_add_countP_le m.maximum_proper_pair_fragment_size
    (deferred_sizes m.unlikely_fragment_sizes)
  rw [hs]
  simp only [Metrics.taxonomy_sum, deferred_sizes] at hsum hcount ⊢
  omega

/-- C2, as stated, fails: for the record `Sample.improper` (paired, both ends
mapped to the same reference, not properly paired) on a fresh aggregator,
`add_alignment` raises none of the thirteen taxonomy counters. -/
theorem add_alignment_raises_no_leaf_of_deferred :
    ¬ ∃ l : Leaf,
      ((Metrics.fresh Sample.collector "rg").add_alignment Sample.ops Sample.header
          Sample.improper []).1.leaf l =
        (Metrics.fresh Sample.collector "rg").leaf l + 1 := by
  rintro ⟨l, h⟩
  cases l <;> revert h <;> decide

/-- C2, amended. A single `add_alignment` of a record that is not deferred
raises exactly one taxonomy counter by one, a counter other than
`mate_too_distant` and `improperly_paired_other`, and leaves the other twelve
unchanged; a single `add_alignment` of a deferred record (one that reaches the
last branch of the paired-and-mapped guard) leaves all thirteen unchanged and
appends the record's fragment length (`abs` of its `isize`, as
`add_alignment` computes it) to the deferred bucket under its read name. -/
theorem add_alignment_raises_one_leaf_or_defers (ops : FeatureOps) (m : Metrics)
    (header : Header) (r : Record) (refcache : Refcache) :
    (reaches_deferred r = false →
      ∃ l : Leaf, l ≠ Leaf.mate_too_distant ∧ l ≠ Leaf.improperly_paired_other ∧
        (m.add_alignment ops header r refcache).1.leaf l = m.leaf l + 1 ∧
        (∀ l' : Leaf, l' ≠ l → (m.add_alignment ops header r refcache).1.leaf l' = m.leaf l') ∧
        (m.add_alignment ops header r refcache).1.unlikely_fragment_sizes =
          m.unlikely_fragment_sizes) ∧
    (reaches_deferred r = true →
      (∀ l : Leaf, (m.add_alignment ops header r refcache).1.leaf l = m.leaf l) ∧
        (m.add_alignment ops header r refcache).1.unlikely_fragment_sizes =
          sizes_push_back r.qname (fragment_length r) m.unlikely_fragment_sizes) := by
  have hsizes := (Metrics.add_alignment_effect ops m header r refcache).2.2.1
  constructor
  · intro hd
    have hd' : taxonomy_outcome r ≠ Outcome.deferred := fun h => by
      rw [(reaches_deferred_iff r).mpr h] at hd
      exact Bool.noConfusion hd
    cases ho : taxonomy_outcome r with
    | deferred => exact absurd ho hd'
    | counted l =>
      refine ⟨l, ?_, ?_, ?_, ?_, ?_⟩
      · intro hl
        exact (taxonomy_outcome_not_late r).1 (hl ▸ ho)
      · intro hl
        exact (taxonomy_outcome_not_late r).2 (hl ▸ ho)
      · rw [Metrics.leaf_add_alignment, ho]
        simp
      · intro l' hl'
        rw [Metrics.leaf_add_alignment, ho]
        have : Outcome.counted l ≠ Outcome.counted l' := fun h => hl' (Outcome.counted.inj h).symm
        simp [this]
      · rw [hsizes, hd]
        simp
  · intro hd
    refine ⟨fun l => ?_, ?_⟩
    · rw [Metrics.leaf_add_alignment, (reaches_deferred_iff r).mp hd]
      simp
    · rw [hsizes, if_pos hd]

/-- A deferred record and a properly paired record, each through
`add_alignment` on a fresh aggregator. -/
theorem add_alignment_raises_one_leaf_or_defers_witness :
    (reaches_deferred Sample.improper = true ∧
      ((∀ l : Leaf,
          ((Metrics.fresh Sample.collector "rg").add_alignment Sample.ops Sample.header
            Sample.improper []).1.leaf l = (Metrics.fresh Sample.collector "rg").leaf l) ∧
        ((Metrics.fresh Sample.collector "rg").add_alignment Sample.ops Sample.header
            Sample.improper []).1.unlikely_fragment_sizes =
          sizes_push_back Sample.improper.qname (fragment_length Sample.improper)
            (Metrics.fresh Sample.collector "rg").unlikely_fragment_sizes)) ∧
    (reaches_deferred Sample.proper = false ∧
      ∃ l : Leaf, l ≠ Leaf.mate_too_distant ∧ l ≠ Leaf.improperly_paired_other ∧
        ((Metrics.fresh Sample.collector "rg").add_alignment Sample.ops Sample.header
            Sample.proper []).1.leaf l = (Metrics.fresh Sample.collector "rg").leaf l + 1 ∧
        (∀ l' : Leaf, l' ≠ l →
          ((Metrics.fresh Sample.collector "rg").add_alignment Sample.ops Sample.header
            Sample.proper []).1.leaf l' = (Metrics.fresh Sample.collector "rg").leaf l') ∧
        ((Metrics.fresh Sample.collector "rg").add_alignment Sample.ops Sample.header
            Sample.proper []).1.unlikely_fragment_sizes =
          (Metrics.fresh Sample.collector "rg").unlikely_fragment_sizes) :=
  ⟨⟨by decide,
      (add_alignment_raises_one_leaf_or_defers Sample.ops (Metrics.fresh Sample.collector "rg")
        Sample.header Sample.improper []).2 (by decide)⟩,
    ⟨by decide,
      (add_alignment_raises_one_leaf_or_defers Sample.ops (Metrics.fresh Sample.collector "rg")
        Sample.header Sample.proper []).1 (by decide)⟩⟩

/-- Away from the least `int`, the fragment length is the absolute value of
`isize`. -/
theorem fragment_length_eq_natAbs (r : Record) (h1 : -2147483648 < r.isize)
    (h2 : r.isize < 2147483648) : fragment_length r = r.isize.natAbs := by
  unfold fragment_length to_unsigned_long_long abs_int
  split_ifs <;> omega

/-- At the least `int`, `abs` returns its argument and the conversion to
`unsigned long long int` wraps it to 2^64 - 2^31. -/
theorem fragment_length_least_int (r : Record) (h : r.isize = -2147483648) :
    fragment_length r = 18446744071562067968 := by
  unfold fragment_length to_unsigned_long_long abs_int
  rw [h]
  decide

theorem deferred_lengths_eq (records : List Record) :
    deferred_lengths records =
      (records.filter reaches_deferred).map fragment_length := by
  unfold deferred_lengths
  congr 1
  apply List.filter_congr
  intro r _
  by_cases h : reaches_deferred r = true
  · rw [h]
    exact decide_eq_true ((reaches_deferred_iff r).mp h)
  · rw [Bool.not_eq_true] at h
    rw [h]
    exact decide_eq_false (fun ho => by
      rw [(reaches_deferred_iff r).mpr ho] at h
      exact Bool.noConfusion h)

/-- C4, as stated, fails: the record `Sample.improper_forward` is paired,
mapped with a mapped mate, not properly paired and on the reference of its
mate, yet `add_alignment` counts it as FF and defers nothing; after the stream
of this one record and `make_aggregate_diagnoses` both counters are 0, while
the stream has one record of the kind the claim counts. -/
theorem improper_forward_pair_is_not_deferred :
    deferred_as_specified Sample.improper_forward = true ∧
    ([Sample.improper_forward].filter deferred_as_specified).length = 1 ∧
    taxonomy_outcome Sample.improper_forward = Outcome.counted Leaf.ff ∧
    ((Metrics.constructed Sample.collector "rg" false { tree := [] } 0).after_stream Sample.ops
      Sample.header [] [Sample.improper_forward]).unlikely_fragment_sizes = [] ∧
    ((Metrics.constructed Sample.collector "rg" false { tree := [] } 0).finalized Sample.ops
      Sample.header [] [Sample.improper_forward]).ff_reads = 1 ∧
    ((Metrics.constructed Sample.collector "rg" false { tree := [] } 0).finalized Sample.ops
      Sample.header [] [Sample.improper_forward]).reads_with_mate_too_distant = 0 ∧
    ((Metrics.constructed Sample.collector "rg" false { tree := [] } 0).finalized Sample.ops
      Sample.header [] [Sample.improper_forward]).reads_mapped_and_paired_but_improperly = 0 ∧
    ((Metrics.constructed Sample.collector "rg" false { tree := [] } 0).finalized Sample.ops
        Sample.header [] [Sample.improper_forward]).reads_with_mate_too_distant +
      ((Metrics.constructed Sample.collector "rg" false { tree := [] } 0).finalized Sample.ops
        Sample.header [] [Sample.improper_forward]).reads_mapped_and_paired_but_improperly ≠
      ([Sample.improper_forward].filter deferred_as_specified).length := by
  refine ⟨?_, ?_, ?_, ?_, ?_, ?_, ?_, ?_⟩ <;> decide

/-- C4, amended. The deferred records are those that reach the deferring
branch of `add_alignment`: not QC-failed, paired, read and mate mapped, not RF,
FF or RR, mapping quality not 0, paired and mapped, not properly paired and on
the reference of the mate.  After a record stream and one
`make_aggregate_diagnoses`: the deferred bucket held one fragment length per
deferred record; the maximum is the one that stood when the stream ended;
`reads_with_mate_too_distant` is the number of deferred lengths above that
maximum and `reads_mapped_and_paired_but_improperly` the number of those at or
below it, so together they count the deferred records.  The fragment length
is `|isize|` for every `isize` above -2147483648 and 18446744071562067968 for
`isize = -2147483648`. -/
theorem deferred_reclassification (ops : FeatureOps) (collector : MetricsCollector)
    (name : String) (peaks_requested : Bool) (peaks : PeakTree) (total_peak_territory : Nat)
    (header : Header) (refcache : Refcache) (records : List Record) :
    (deferred_sizes
      ((Metrics.constructed collector name peaks_requested peaks total_peak_territory).after_stream
        ops header refcache records).unlikely_fragment_sizes).Perm (deferred_lengths records) ∧
    ((Metrics.constructed collector name peaks_requested peaks total_peak_territory).finalized
        ops header refcache records).maximum_proper_pair_fragment_size =
      ((Metrics.constructed collector name peaks_requested peaks total_peak_territory).after_stream
        ops header refcache records).maximum_proper_pair_fragment_size ∧
    ((Metrics.constructed collector name peaks_requested peaks total_peak_territory).finalized
        ops header refcache records).reads_with_mate_too_distant =
      (deferred_lengths records).countP (fun L => decide
        (((Metrics.constructed collector name peaks_requested peaks
          total_peak_territory).finalized ops header refcache
            records).maximum_proper_pair_fragment_size < L)) ∧
    ((Metrics.constructed collector name peaks_requested peaks total_peak_territory).finalized
        ops header refcache records).reads_mapped_and_paired_but_improperly =
      (deferred_lengths records).countP (fun L => decide
        (L ≤ ((Metrics.constructed collector name peaks_requested peaks
          total_peak_territory).finalized ops header refcache
            records).maximum_proper_pair_fragment_size)) ∧
    ((Metrics.constructed collector name peaks_requested peaks total_peak_territory).finalized
        ops header refcache records).reads_with_mate_too_distant +
      ((Metrics.constructed collector name peaks_requested peaks total_peak_territory).finalized
        ops header refcache records).reads_mapped_and_paired_but_improperly =
      (deferred_lengths records).length ∧
    deferred_lengths records =
      (records.filter (fun r => decide (taxonomy_outcome r = Outcome.deferred))).map
        fragment_length ∧
    (∀ r : Record, taxonomy_outcome r = Outcome.deferred ↔
      (IS_QCFAIL r = false ∧ IS_PAIRED r = true ∧ IS_UNMAPPED r = false ∧
        IS_MATE_UNMAPPED r = false ∧ is_rf r = false ∧ is_ff r = false ∧ is_rr r = false ∧
        r.qual ≠ 0 ∧ IS_PAIRED_AND_MAPPED r = true ∧ IS_PROPERLYPAIRED r = false ∧
        r.tid = r.mtid)) ∧
    (∀ r : Record, taxonomy_outcome r = Outcome.deferred → deferred_as_specified r = true) ∧
    (∀ r : Record, -2147483648 < r.isize → r.isize < 2147483648 →
      fragment_length r = r.isize.natAbs) ∧
    (∀ r : Record, r.isize = -2147483648 → fragment_length r = 18446744071562067968) := by
  have hperm : (deferred_sizes
      ((Metrics.constructed collector name peaks_requested peaks
        total_peak_territory).after_stream ops header refcache
          records).unlikely_fragment_sizes).Perm (deferred_lengths records) := by
    have h := add_alignments_deferred ops header records
      (Metrics.constructed collector name peaks_requested peaks total_peak_territory, refcache)
    rw [deferred_lengths_eq]
    simpa [Metrics.after_stream, Metrics.constructed, Metrics.fresh, deferred_sizes] using h
  have hiff : ∀ r : Record, taxonomy_outcome r = Outcome.deferred ↔
      (IS_QCFAIL r = false ∧ IS_PAIRED r = true ∧ IS_UNMAPPED r = false ∧
        IS_MATE_UNMAPPED r = false ∧ is_rf r = false ∧ is_ff r = false ∧ is_rr r = false ∧
        r.qual ≠ 0 ∧ IS_PAIRED_AND_MAPPED r = true ∧ IS_PROPERLYPAIRED r = false ∧
        r.tid = r.mtid) := by
    intro r
    rw [← reaches_deferred_iff]
    unfold reaches_deferred
    simp only [Bool.and_eq_true, Bool.not_eq_true', decide_eq_true_eq, decide_eq_false_iff_not,
      ne_eq]
    tauto
  unfold Metrics.finalized
  generalize (Metrics.constructed collector name peaks_requested peaks
    total_peak_territory).after_stream ops header refcache records = m at hperm ⊢
  obtain ⟨s, hs⟩ := Metrics.make_aggregate_diagnoses_shape m
  rw [hs]
  dsimp only
  refine ⟨hperm, rfl, hperm.countP_eq _, hperm.countP_eq _, ?_, rfl, hiff, ?_,
    fragment_length_eq_natAbs, fragment_length_least_int⟩
  · rw [countP_lt_add_countP_le, hperm.length_eq]
  · intro r hr
    obtain ⟨_, h2, h3, h4, _, _, _, _, _, h10, h11⟩ := (hiff r).mp hr
    unfold deferred_as_specified
    simp [h2, h3, h4, h10, h11]

/-- A stream with a proper pair of fragment size 250 and two deferred records
of sizes 5000 and 100: one is too distant, the other is not. -/
theorem deferred_reclassification_witness :
    taxonomy_outcome Sample.improper = Outcome.deferred ∧
    deferred_as_specified Sample.improper = true ∧
    fragment_length Sample.improper = 5000 ∧
    deferred_lengths [Sample.improper, Sample.proper, Sample.improper_near] = [5000, 100] ∧
    ((Metrics.constructed Sample.collector "rg" false { tree := [] } 0).finalized Sample.ops
      Sample.header [] [Sample.improper, Sample.proper,
        Sample.improper_near]).maximum_proper_pair_fragment_size = 250 ∧
    ((Metrics.constructed Sample.collector "rg" false { tree := [] } 0).finalized Sample.ops
      Sample.header [] [Sample.improper, Sample.proper, Sample.improper_near]).reads_with_mate_too_distant
      = 1 ∧
    ((Metrics.constructed Sample.collector "rg" false { tree := [] } 0).finalized Sample.ops
      Sample.header [] [Sample.improper, Sample.proper,
        Sample.improper_near]).reads_mapped_and_paired_but_improperly = 1 :=
  ⟨by decide,
    (deferred_reclassification Sample.ops Sample.collector "rg" false { tree := [] } 0
      Sample.header [] [Sample.improper, Sample.proper, Sample.improper_near]).2.2.2.2.2.2.2.1
      Sample.improper (by decide),
    ((deferred_reclassification Sample.ops Sample.collector "rg" false { tree := [] } 0
      Sample.header [] []).2.2.2.2.2.2.2.2.1 Sample.improper (by decide) (by decide)).trans
      (by decide),
    by decide, by decide, by decide, by decide⟩

/-- C5. `maximum_proper_pair_fragment_size` never decreases: after
`add_alignment` it is at least what it was before, and
`make_aggregate_diagnoses` leaves it as it is. -/
theorem maximum_proper_pair_fragment_size_monotone (ops : FeatureOps) (m : Metrics)
    (header : Header) (r : Record) (refcache : Refcache) :
    m.maximum_proper_pair_fragment_size ≤
        (m.add_alignment ops header r refcache).1.maximum_proper_pair_fragment_size ∧
      m.make_aggregate_diagnoses.maximum_proper_pair_fragment_size =
        m.maximum_proper_pair_fragment_size := by
  constructor
  · rw [(Metrics.add_alignment_effect ops m header r refcache).2.2.2.1]
    split_ifs
    · exact le_max_left _ _
    · exact le_refl _
  · obtain ⟨s, hs⟩ := Metrics.make_aggregate_diagnoses_shape m
    rw [hs]

/-! ### Running maxima -/

theorem foldl_max_ge_init (sizes : List Nat) (a : Nat) : a ≤ sizes.foldl max a := by
  induction sizes generalizing a with
  | nil => exact le_refl a
  | cons x rest ih => exact le_trans (le_max_left a x) (ih (max a x))

theorem foldl_max_ge_mem (sizes : List Nat) (a x : Nat) (hx : x ∈ sizes) :
    x ≤ sizes.foldl max a := by
  induction sizes generalizing a with
  | nil => cases hx
  | cons y rest ih =>
    rcases List.mem_cons.mp hx with h | h
    · rw [h]
      exact le_trans (le_max_right a y) (foldl_max_ge_init rest (max a y))
    · exact ih (max a y) h

theorem foldl_max_mem_or_init (sizes : List Nat) (a : Nat) :
    sizes.foldl max a = a ∨ sizes.foldl max a ∈ sizes := by
  induction sizes generalizing a with
  | nil => exact Or.inl rfl
  | cons y rest ih =>
    rcases ih (max a y) with h | h
    · rw [List.foldl_cons, h]
      rcases le_total a y with hay | hay
      · exact Or.inr (by rw [max_eq_right hay]; exact List.mem_cons_self y rest)
      · exact Or.inl (max_eq_left hay)
    · exact Or.inr (List.mem_cons_of_mem y h)

/-- C6, as stated, fails: the stream of the single record
`Sample.proper_zero_quality`, which is "original" and carries the
properly-paired flag with fragment size 500, leaves the maximum at 0. -/
theorem maximum_misses_flagged_proper_pair :
    ((Metrics.constructed Sample.collector "rg" false { tree := [] } 0).finalized Sample.ops
        Sample.header [] [Sample.proper_zero_quality]).maximum_proper_pair_fragment_size ≠
      maximum_over_original_proper [Sample.proper_zero_quality] ∧
    ((Metrics.constructed Sample.collector "rg" false { tree := [] } 0).finalized Sample.ops
        Sample.header [] [Sample.proper_zero_quality]).maximum_proper_pair_fragment_size = 0 ∧
    maximum_over_original_proper [Sample.proper_zero_quality] = 500 := by
  refine ⟨?_, ?_, ?_⟩ <;> decide

/-- C6, amended. After a record stream and `make_aggregate_diagnoses`,
`maximum_proper_pair_fragment_size` is the maximum of the fragment length, as
`add_alignment` computes it, over the "original" records that `add_alignment`
counted as `properly_paired` (0 when there is none): it bounds the fragment
length of every such record, and it is the fragment length of one of them
unless there is none.  The fragment length is `|isize|` for every `isize`
above -2147483648 and 18446744071562067968 for `isize = -2147483648`, which a
stream of one such record leaves as the maximum. -/
theorem maximum_over_counted_proper_pairs (ops : FeatureOps) (collector : MetricsCollector)
    (name : String) (peaks_requested : Bool) (peaks : PeakTree) (total_peak_territory : Nat)
    (header : Header) (refcache : Refcache) (records : List Record) :
    ((Metrics.constructed collector name peaks_requested peaks total_peak_territory).finalized
        ops header refcache records).maximum_proper_pair_fragment_size =
      ((records.filter (fun r =>
          decide (taxonomy_outcome r = Outcome.counted Leaf.properly_paired) &&
            IS_ORIGINAL r)).map fragment_length).foldl max 0 ∧
    (∀ r ∈ records, taxonomy_outcome r = Outcome.counted Leaf.properly_paired →
      IS_ORIGINAL r = true →
      (fragment_length r) ≤
        ((Metrics.constructed collector name peaks_requested peaks total_peak_territory).finalized
          ops header refcache records).maximum_proper_pair_fragment_size) ∧
    ((∃ r ∈ records, taxonomy_outcome r = Outcome.counted Leaf.properly_paired ∧
        IS_ORIGINAL r = true ∧
        (fragment_length r) =
          ((Metrics.constructed collector name peaks_requested peaks
            total_peak_territory).finalized ops header refcache
              records).maximum_proper_pair_fragment_size) ∨
      ((∀ r ∈ records, ¬ (taxonomy_outcome r = Outcome.counted Leaf.properly_paired ∧
          IS_ORIGINAL r = true)) ∧
        ((Metrics.constructed collector name peaks_requested peaks
          total_peak_territory).finalized ops header refcache
            records).maximum_proper_pair_fragment_size = 0)) ∧
    (∀ r : Record, -2147483648 < r.isize → r.isize < 2147483648 →
      fragment_length r = r.isize.natAbs) ∧
    (∀ r : Record, r.isize = -2147483648 → fragment_length r = 18446744071562067968) ∧
    (∀ r : Record, taxonomy_outcome r = Outcome.counted Leaf.properly_paired ↔
      (IS_QCFAIL r = false ∧ IS_PAIRED r = true ∧ IS_UNMAPPED r = false ∧
        IS_MATE_UNMAPPED r = false ∧ is_rf r = false ∧ is_ff r = false ∧ is_rr r = false ∧
        r.qual ≠ 0 ∧ IS_PAIRED_AND_MAPPED r = true ∧ IS_PROPERLYPAIRED r = true)) := by
  have hmax : ((Metrics.constructed collector name peaks_requested peaks
      total_peak_territory).finalized ops header refcache
        records).maximum_proper_pair_fragment_size =
      ((records.filter (fun r => reaches_proper r && IS_ORIGINAL r)).map
        fragment_length).foldl max 0 := by
    unfold Metrics.finalized Metrics.after_stream
    obtain ⟨s, hs⟩ := Metrics.make_aggregate_diagnoses_shape (add_alignments ops header
      (Metrics.constructed collector name peaks_requested peaks total_peak_territory, refcache)
      records).1
    rw [hs]
    exact add_alignments_maximum ops header records _
  have hfilter : records.filter (fun r =>
      decide (taxonomy_outcome r = Outcome.counted Leaf.properly_paired) && IS_ORIGINAL r) =
      records.filter (fun r => reaches_proper r && IS_ORIGINAL r) := by
    apply List.filter_congr
    intro r _
    congr 1
    by_cases h : reaches_proper r = true
    · rw [h]
      exact decide_eq_true ((reaches_proper_iff r).mp h)
    · rw [Bool.not_eq_true] at h
      rw [h]
      exact decide_eq_false (fun ho => by
        rw [(reaches_proper_iff r).mpr ho] at h
        exact Bool.noConfusion h)
  rw [hmax, hfilter]
  have hmem : ∀ r : Record, r ∈ records.filter (fun r => reaches_proper r && IS_ORIGINAL r) ↔
      r ∈ records ∧ taxonomy_outcome r = Outcome.counted Leaf.properly_paired ∧
        IS_ORIGINAL r = true := by
    intro r
    rw [List.mem_filter, Bool.and_eq_true, reaches_proper_iff]
  refine ⟨rfl, ?_, ?_, fragment_length_eq_natAbs, fragment_length_least_int, ?_⟩
  · intro r hr ho horig
    exact foldl_max_ge_mem _ 0 _
      (List.mem_map.mpr ⟨r, (hmem r).mpr ⟨hr, ho, horig⟩, rfl⟩)
  · rcases foldl_max_mem_or_init
      ((records.filter (fun r => reaches_proper r && IS_ORIGINAL r)).map
        fragment_length) 0 with h | h
    · by_cases hne : ∃ r ∈ records, taxonomy_outcome r = Outcome.counted Leaf.properly_paired ∧
          IS_ORIGINAL r = true
      · obtain ⟨r, hr, ho, horig⟩ := hne
        have hle := foldl_max_ge_mem
          ((records.filter (fun r => reaches_proper r && IS_ORIGINAL r)).map
            fragment_length) 0 _
          (List.mem_map.mpr ⟨r, (hmem r).mpr ⟨hr, ho, horig⟩, rfl⟩)
        rw [h] at hle
        exact Or.inl ⟨r, hr, ho, horig, by rw [h]; exact Nat.le_zero.mp hle⟩
      · exact Or.inr ⟨fun r hr hc => hne ⟨r, hr, hc.1, hc.2⟩, h⟩
    · obtain ⟨r, hr, hsize⟩ := List.mem_map.mp h
      obtain ⟨hr', ho, horig⟩ := (hmem r).mp hr
      exact Or.inl ⟨r, hr', ho, horig, hsize⟩
  · intro r
    rw [← reaches_proper_iff]
    unfold reaches_proper
    simp only [Bool.and_eq_true, Bool.not_eq_true', decide_eq_true_eq, decide_eq_false_iff_not,
      ne_eq]
    tauto

/-- In a stream of a counted proper pair of size 250 and a flagged proper pair
of size 500 with mapping quality 0, the counted one is below the maximum,
which is 250; the fragment length of the first is `|isize|`; and the stream of
one counted proper pair with `isize = -2147483648` ends with the maximum
18446744071562067968. -/
theorem maximum_over_counted_proper_pairs_witness :
    Sample.proper ∈ [Sample.proper_zero_quality, Sample.proper] ∧
    taxonomy_outcome Sample.proper = Outcome.counted Leaf.properly_paired ∧
    IS_ORIGINAL Sample.proper = true ∧
    fragment_length Sample.proper ≤
      ((Metrics.constructed Sample.collector "rg" false { tree := [] } 0).finalized Sample.ops
        Sample.header [] [Sample.proper_zero_quality,
          Sample.proper]).maximum_proper_pair_fragment_size ∧
    ((Metrics.constructed Sample.collector "rg" false { tree := [] } 0).finalized Sample.ops
        Sample.header [] [Sample.proper_zero_quality,
          Sample.proper]).maximum_proper_pair_fragment_size = 250 ∧
    fragment_length Sample.proper = 250 ∧
    taxonomy_outcome Sample.proper_least_isize = Outcome.counted Leaf.properly_paired ∧
    IS_ORIGINAL Sample.proper_least_isize = true ∧
    fragment_length Sample.proper_least_isize = 18446744071562067968 ∧
    ((Metrics.constructed Sample.collector "rg" false { tree := [] } 0).finalized Sample.ops
        Sample.header [] [Sample.proper_least_isize]).maximum_proper_pair_fragment_size =
      18446744071562067968 :=
  ⟨by decide, by decide, by decide,
    (maximum_over_counted_proper_pairs Sample.ops Sample.collector "rg" false { tree := [] } 0
      Sample.header [] [Sample.proper_zero_quality, Sample.proper]).2.1 Sample.proper
      (by decide) (by decide) (by decide),
    by decide,
    ((maximum_over_counted_proper_pairs Sample.ops Sample.collector "rg" false { tree := [] } 0
      Sample.header [] []).2.2.2.1 Sample.proper (by decide) (by decide)).trans (by decide),
    by decide, by decide,
    (maximum_over_counted_proper_pairs Sample.ops Sample.collector "rg" false { tree := [] } 0
      Sample.header [] []).2.2.2.2.1 Sample.proper_least_isize (by decide),
    by decide⟩

/-! ### The hqaa counter -/

theorem Refcache.consistent_lookup (c : MetricsCollector) (refcache : Refcache)
    (h : Refcache.consistent c refcache) (name : String) (b : Bool)
    (hl : refcache.lookup name = some b) : b = c.autosomal_reference name := by
  induction refcache with
  | nil => cases hl
  | cons e rest ih =>
    unfold Refcache.consistent at h
    rw [List.all_cons, Bool.and_eq_true] at h
    rw [List.lookup_cons] at hl
    by_cases hb : (name == e.1) = true
    · rw [hb] at hl
      rw [← Option.some.inj hl, eq_of_beq hb]
      exact eq_of_beq h.1
    · rw [Bool.not_eq_true] at hb
      rw [hb] at hl
      exact ih h.2 hl

theorem Refcache.consistent_is_autosomal (c : MetricsCollector) (name : String)
    (refcache : Refcache) (h : Refcache.consistent c refcache) :
    (c.is_autosomal name refcache).1 = c.autosomal_reference name ∧
      Refcache.consistent c (c.is_autosomal name refcache).2 := by
  unfold MetricsCollector.is_autosomal
  cases hl : List.lookup name refcache with
  | some b => exact ⟨Refcache.consistent_lookup c refcache h name b hl, h⟩
  | none =>
    refine ⟨rfl, ?_⟩
    unfold Refcache.consistent
    dsimp only
    rw [List.all_cons, Bool.and_eq_true]
    exact ⟨beq_self_eq_true _, h⟩

/-- With a consistent cache, `is_hqaa` is the stated definition of a
high-quality autosomal alignment, and it leaves the cache consistent. -/
theorem Metrics.is_hqaa_consistent (m : Metrics) (header : Header) (r : Record)
    (refcache : Refcache) (h : Refcache.consistent m.collector refcache) :
    (m.is_hqaa header r refcache).1 = high_quality_autosomal m.collector header r ∧
      Refcache.consistent m.collector (m.is_hqaa header r refcache).2 := by
  obtain ⟨h1, h2⟩ := Refcache.consistent_is_autosomal m.collector (header.name_of r.tid)
    refcache h
  unfold Metrics.is_hqaa Metrics.is_autosomal high_quality_autosomal mapq_at_least
  dsimp only
  by_cases hs : (!IS_UNMAPPED r && !IS_MATE_UNMAPPED r && !IS_DUP r && IS_PAIRED_AND_MAPPED r &&
      IS_PROPERLYPAIRED r && IS_ORIGINAL r && decide (30 ≤ r.qual) && decide (r.tid ≥ 0)) = true
  · rw [if_pos hs, hs, Bool.true_and]
    by_cases ha : (m.collector.is_autosomal (header.name_of r.tid) refcache).1 = true
    · rw [if_pos ha]
      exact ⟨by rw [← h1, ha], h2⟩
    · rw [if_neg ha]
      rw [Bool.not_eq_true] at ha
      exact ⟨by rw [← h1, ha], h2⟩
  · rw [if_neg hs]
    rw [Bool.not_eq_true] at hs
    rw [hs, Bool.false_and]
    exact ⟨rfl, h⟩

theorem Metrics.add_alignment_original_cache (ops : FeatureOps) (m : Metrics) (header : Header)
    (r : Record) (n : Nat) (refcache : Refcache) :
    (m.add_alignment_original ops header r n refcache).2 = (m.is_hqaa header r refcache).2 := by
  have hc : ∀ (f : List (Nat × Nat)) (c : Nat),
      Metrics.is_hqaa { m with fragment_length_counts := f, maximum_proper_pair_fragment_size := c }
        header r refcache = m.is_hqaa header r refcache := fun _ _ => rfl
  unfold Metrics.add_alignment_original
  dsimp only
  rw [hc]
  split_ifs <;> rfl

theorem Metrics.is_hqaa_cache_consistent (m : Metrics) (c : MetricsCollector)
    (hc : m.collector = c) (header : Header) (r : Record) (refcache : Refcache)
    (h : Refcache.consistent c refcache) :
    Refcache.consistent c (m.is_hqaa header r refcache).2 := by
  subst hc
  exact (Metrics.is_hqaa_consistent m header r refcache h).2

theorem Metrics.add_alignment_reference_consistent (m : Metrics) (c : MetricsCollector)
    (hc : m.collector = c) (header : Header) (r : Record) (refcache : Refcache)
    (h : Refcache.consistent c refcache) :
    Refcache.consistent c (m.add_alignment_reference header r refcache).2 := by
  subst hc
  rw [Metrics.add_alignment_reference_cache]
  split_ifs
  · exact (Refcache.consistent_is_autosomal m.collector _ refcache h).2
  · exact h

theorem Metrics.cache_after_reference_consistent (ops : FeatureOps) (m : Metrics)
    (c : MetricsCollector) (hc : m.collector = c) (header : Header) (r : Record) (n : Nat)
    (refcache : Refcache) (h : Refcache.consistent c refcache) :
    Refcache.consistent c
      (if IS_ORIGINAL r then
        (m.add_alignment_reference header r refcache).1.add_alignment_original ops header r n
          (m.add_alignment_reference header r refcache).2
      else m.add_alignment_reference header r refcache).2 := by
  have href := Metrics.add_alignment_reference_consistent m c hc header r refcache h
  by_cases ho : IS_ORIGINAL r = true
  · rw [if_pos ho, Metrics.add_alignment_original_cache]
    exact Metrics.is_hqaa_cache_consistent (m.add_alignment_reference header r refcache).1 c
      ((Metrics.collector_add_alignment_reference m header r refcache).trans hc) header r _ href
  · rw [if_neg ho]
    exact href

theorem Metrics.add_alignment_proper_consistent (ops : FeatureOps) (m : Metrics)
    (header : Header) (r : Record) (n : Nat) (refcache : Refcache)
    (h : Refcache.consistent m.collector refcache) :
    Refcache.consistent m.collector (m.add_alignment_proper ops header r n refcache).2 := by
  unfold Metrics.add_alignment_proper
  dsimp only
  refine Metrics.cache_after_reference_consistent ops _ m.collector ?_ header r n refcache h
  rfl

theorem Metrics.add_alignment_consistent (ops : FeatureOps) (m : Metrics) (header : Header)
    (r : Record) (refcache : Refcache) (h : Refcache.consistent m.collector refcache) :
    Refcache.consistent m.collector (m.add_alignment ops header r refcache).2 := by
  unfold Metrics.add_alignment
  dsimp only
  by_cases h1 : IS_QCFAIL r = true
  · rw [if_pos h1]; exact h
  rw [if_neg h1]
  by_cases h2 : (!IS_PAIRED r) = true
  · rw [if_pos h2]; exact h
  rw [if_neg h2]
  by_cases h3 : IS_UNMAPPED r = true
  · rw [if_pos h3]; exact h
  rw [if_neg h3]
  by_cases h4 : IS_MATE_UNMAPPED r = true
  · rw [if_pos h4]; exact h
  rw [if_neg h4]
  by_cases h5 : is_rf r = true
  · rw [if_pos h5]; exact h
  rw [if_neg h5]
  by_cases h6 : is_ff r = true
  · rw [if_pos h6]; exact h
  rw [if_neg h6]
  by_cases h7 : is_rr r = true
  · rw [if_pos h7]; exact h
  rw [if_neg h7]
  by_cases h8 : r.qual = 0
  · rw [if_pos h8]; exact h
  rw [if_neg h8]
  by_cases h9 : IS_PAIRED_AND_MAPPED r = true
  swap
  · rw [if_neg h9]; exact h
  rw [if_pos h9]
  by_cases h10 : IS_PROPERLYPAIRED r = true
  · rw [if_pos h10]
    exact Metrics.add_alignment_proper_consistent ops _ header r _ refcache h
  rw [if_neg h10]
  by_cases h11 : r.tid ≠ r.mtid
  · rw [if_pos h11]; exact h
  · rw [if_neg h11]; exact h

/-- What `is_hqaa` requires of the flags and the quality of a record. -/
theorem Metrics.is_hqaa_flags (m : Metrics) (header : Header) (r : Record)
    (refcache : Refcache) (h : (m.is_hqaa header r refcache).1 = true) :
    IS_UNMAPPED r = false ∧ IS_MATE_UNMAPPED r = false ∧ IS_PAIRED_AND_MAPPED r = true ∧
      IS_PROPERLYPAIRED r = true ∧ IS_ORIGINAL r = true ∧ 30 ≤ r.qual := by
  unfold Metrics.is_hqaa mapq_at_least at h
  by_cases hs : (!IS_UNMAPPED r && !IS_MATE_UNMAPPED r && !IS_DUP r && IS_PAIRED_AND_MAPPED r &&
      IS_PROPERLYPAIRED r && IS_ORIGINAL r && decide (30 ≤ r.qual) && decide (r.tid ≥ 0)) = true
  · simp only [Bool.and_eq_true, Bool.not_eq_true', decide_eq_true_eq] at hs
    exact ⟨hs.1.1.1.1.1.1.1, hs.1.1.1.1.1.1.2, hs.1.1.1.1.2, hs.1.1.1.2, hs.1.1.2, hs.1.2⟩
  · rw [if_neg hs] at h
    exact Bool.noConfusion h

/-- The hqaa counter goes up exactly for the records that pass the QC and
orientation guards and for which `is_hqaa` holds. -/
theorem Metrics.hqaa_add_alignment (ops : FeatureOps) (m : Metrics) (header : Header)
    (r : Record) (refcache : Refcache) :
    (m.add_alignment ops header r refcache).1.hqaa =
      m.hqaa + if (!IS_QCFAIL r && !is_rf r && !is_ff r && !is_rr r &&
        (m.is_hqaa header r refcache).1) = true then 1 else 0 := by
  rw [(Metrics.add_alignment_effect ops m header r refcache).2.2.2.2]
  congr 1
  by_cases hq : (m.is_hqaa header r refcache).1 = true
  · obtain ⟨h1, h2, h3, h4, h5, h6⟩ := Metrics.is_hqaa_flags m header r refcache hq
    have hp : IS_PAIRED r = true := by
      unfold IS_PAIRED_AND_MAPPED at h3
      simp only [Bool.and_eq_true] at h3
      exact h3.1.1
    have h0 : ¬ r.qual = 0 := by omega
    simp [reaches_proper, hq, h1, h2, h3, h4, h5, hp, h0]
  · simp [hq]

theorem add_alignments_hqaa (ops : FeatureOps) (header : Header) (records : List Record)
    (s : Metrics × Refcache) (h : Refcache.consistent s.1.collector s.2) :
    (add_alignments ops header s records).1.hqaa =
      s.1.hqaa + records.countP (fun r => !IS_QCFAIL r && !is_rf r && !is_ff r && !is_rr r &&
        high_quality_autosomal s.1.collector header r) := by
  induction records generalizing s with
  | nil => rfl
  | cons r rest ih =>
    have hcoll := (Metrics.add_alignment_effect ops s.1 header r s.2).2.1
    have hcons := Metrics.add_alignment_consistent ops s.1 header r s.2 h
    rw [add_alignments_cons, ih _ (by rw [hcoll]; exact hcons), hcoll,
      Metrics.hqaa_add_alignment, (Metrics.is_hqaa_consistent s.1 header r s.2 h).1,
      List.countP_cons]
    omega

/-- C7, as stated, fails: `Sample.proper_qc_failed` is a high-quality
autosomal alignment by the stated definition, and `is_hqaa` holds for it, but
`add_alignment` counts it as QC-failed and leaves `hqaa` as it is. -/
theorem hqaa_skips_qc_failed_record :
    high_quality_autosomal Sample.collector Sample.header Sample.proper_qc_failed = true ∧
    ((Metrics.fresh Sample.collector "rg").is_hqaa Sample.header Sample.proper_qc_failed
      []).1 = true ∧
    ((Metrics.fresh Sample.collector "rg").add_alignment Sample.ops Sample.header
      Sample.proper_qc_failed []).1.hqaa = (Metrics.fresh Sample.collector "rg").hqaa ∧
    ((Metrics.constructed Sample.collector "rg" false { tree := [] } 0).after_stream Sample.ops
      Sample.header [] [Sample.proper_qc_failed]).hqaa ≠
      [Sample.proper_qc_failed].countP
        (fun r => high_quality_autosomal Sample.collector Sample.header r) := by
  refine ⟨?_, ?_, ?_, ?_⟩ <;> decide

/-- C7, amended. `add_alignment` raises `hqaa` for a record iff the record is
not QC-failed, is not in RF, FF or RR orientation, and `is_hqaa` holds for it;
so, in a process whose reference cache holds only answers of this collector,
`hqaa` after a record stream (and after `make_aggregate_diagnoses`) is the
number of records of the stream that are not QC-failed, not RF, FF or RR, and
high-quality autosomal alignments by the stated definition. -/
theorem hqaa_counts_classified_high_quality (ops : FeatureOps) (collector : MetricsCollector)
    (name : String) (peaks_requested : Bool) (peaks : PeakTree) (total_peak_territory : Nat)
    (header : Header) (refcache : Refcache) (records : List Record)
    (h : Refcache.consistent collector refcache) :
    ((Metrics.constructed collector name peaks_requested peaks total_peak_territory).after_stream
        ops header refcache records).hqaa =
      records.countP (fun r => !IS_QCFAIL r && !is_rf r && !is_ff r && !is_rr r &&
        high_quality_autosomal collector header r) ∧
    ((Metrics.constructed collector name peaks_requested peaks total_peak_territory).finalized
        ops header refcache records).hqaa =
      records.countP (fun r => !IS_QCFAIL r && !is_rf r && !is_ff r && !is_rr r &&
        high_quality_autosomal collector header r) ∧
    (∀ (m : Metrics) (r : Record) (cache : Refcache),
      (m.add_alignment ops header r cache).1.hqaa =
        m.hqaa + if (!IS_QCFAIL r && !is_rf r && !is_ff r && !is_rr r &&
          (m.is_hqaa header r cache).1) = true then 1 else 0) := by
  have hstream : ((Metrics.constructed collector name peaks_requested peaks
      total_peak_territory).after_stream ops header refcache records).hqaa =
      records.countP (fun r => !IS_QCFAIL r && !is_rf r && !is_ff r && !is_rr r &&
        high_quality_autosomal collector header r) := by
    have := add_alignments_hqaa ops header records
      (Metrics.constructed collector name peaks_requested peaks total_peak_territory, refcache) h
    have h0 : (Metrics.constructed collector name peaks_requested peaks
      total_peak_territory).hqaa = 0 := rfl
    have hc : (Metrics.constructed collector name peaks_requested peaks
      total_peak_territory).collector = collector := rfl
    dsimp only at this
    rw [h0, hc, Nat.zero_add] at this
    exact this
  refine ⟨hstream, ?_, fun m r cache => Metrics.hqaa_add_alignment ops m header r cache⟩
  unfold Metrics.finalized
  obtain ⟨s, hs⟩ := Metrics.make_aggregate_diagnoses_shape
    ((Metrics.constructed collector name peaks_requested peaks total_peak_territory).after_stream
      ops header refcache records)
  rw [hs]
  exact hstream

/-- From an empty cache, a stream of a counted proper pair, a QC-failed one
and a deferred record has one high-quality autosomal alignment counted. -/
theorem hqaa_counts_classified_high_quality_witness :
    Refcache.consistent Sample.collector [] = true ∧
    ((Metrics.constructed Sample.collector "rg" false { tree := [] } 0).after_stream Sample.ops
        Sample.header [] [Sample.proper, Sample.proper_qc_failed, Sample.improper]).hqaa =
      [Sample.proper, Sample.proper_qc_failed, Sample.improper].countP
        (fun r => !IS_QCFAIL r && !is_rf r && !is_ff r && !is_rr r &&
          high_quality_autosomal Sample.collector Sample.header r) ∧
    ((Metrics.constructed Sample.collector "rg" false { tree := [] } 0).after_stream Sample.ops
        Sample.header [] [Sample.proper, Sample.proper_qc_failed, Sample.improper]).hqaa = 1 :=
  ⟨rfl,
    (hqaa_counts_classified_high_quality Sample.ops Sample.collector "rg" false { tree := [] } 0
      Sample.header [] [Sample.proper, Sample.proper_qc_failed, Sample.improper] rfl).1,
    by decide⟩

/-! ### Aggregate statistics -/

/-- C8, on the histogram of the spec's own example: after three records of
mapping quality 10, 20 and 30 the histogram is `{10: 1, 20: 1, 30: 1}` with
`total_reads = 3`, whose median is 20, and `median_mapq` returns 25.  On the
even histogram `{10: 1, 20: 3}` the median is 20 and `median_mapq` returns 25
as well; on `{10: 1, 20: 1}` it returns the median, 15. -/
theorem median_mapq_of_three_qualities :
    ((Metrics.fresh Sample.collector "rg").finalized Sample.ops Sample.header []
      [Sample.single 10, Sample.single 20, Sample.single 30]).mapq_counts =
      [(10, 1), (20, 1), (30, 1)] ∧
    ((Metrics.fresh Sample.collector "rg").finalized Sample.ops Sample.header []
      [Sample.single 10, Sample.single 20, Sample.single 30]).total_reads = 3 ∧
    median_of_ascending (histogram_values [(10, 1), (20, 1), (30, 1)]) = 20 ∧
    ((Metrics.fresh Sample.collector "rg").finalized Sample.ops Sample.header []
      [Sample.single 10, Sample.single 20, Sample.single 30]).median_mapq = Fp.fin 25 ∧
    median_of_ascending (histogram_values [(10, 1), (20, 3)]) = 20 ∧
    ((Metrics.fresh Sample.collector "rg").finalized Sample.ops Sample.header []
      [Sample.single 20, Sample.single 10, Sample.single 20,
        Sample.single 20]).median_mapq = Fp.fin 25 ∧
    median_of_ascending (histogram_values [(10, 1), (20, 1)]) = 15 ∧
    ((Metrics.fresh Sample.collector "rg").finalized Sample.ops Sample.header []
      [Sample.single 20, Sample.single 10]).median_mapq = Fp.fin 15 := by
  have h1 : ((Metrics.fresh Sample.collector "rg").finalized Sample.ops Sample.header []
      [Sample.single 10, Sample.single 20, Sample.single 30]).mapq_counts =
      [(10, 1), (20, 1), (30, 1)] := by decide
  have h2 : ((Metrics.fresh Sample.collector "rg").finalized Sample.ops Sample.header []
      [Sample.single 10, Sample.single 20, Sample.single 30]).total_reads = 3 := by decide
  have h3 : ((Metrics.fresh Sample.collector "rg").finalized Sample.ops Sample.header []
      [Sample.single 20, Sample.single 10, Sample.single 20,
        Sample.single 20]).mapq_counts = [(10, 1), (20, 3)] := by decide
  have h4 : ((Metrics.fresh Sample.collector "rg").finalized Sample.ops Sample.header []
      [Sample.single 20, Sample.single 10, Sample.single 20,
        Sample.single 20]).total_reads = 4 := by decide
  have h5 : ((Metrics.fresh Sample.collector "rg").finalized Sample.ops Sample.header []
      [Sample.single 20, Sample.single 10]).mapq_counts = [(10, 1), (20, 1)] := by decide
  have h6 : ((Metrics.fresh Sample.collector "rg").finalized Sample.ops Sample.header []
      [Sample.single 20, Sample.single 10]).total_reads = 2 := by decide
  refine ⟨h1, h2, ?_, ?_, ?_, ?_, ?_, ?_⟩
  · norm_num [median_of_ascending, histogram_values, List.replicate]
  · unfold Metrics.median_mapq
    rw [h1, h2]
    norm_num [median_mapq_step, Fp.add, Fp.div, Fp.ofNat]
  · norm_num [median_of_ascending, histogram_values, List.replicate]
  · unfold Metrics.median_mapq
    rw [h3, h4]
    norm_num [median_mapq_step, Fp.add, Fp.div, Fp.ofNat]
  · norm_num [median_of_ascending, histogram_values, List.replicate]
  · unfold Metrics.median_mapq
    rw [h5, h6]
    norm_num [median_mapq_step, Fp.add, Fp.div, Fp.ofNat]

theorem increment_while_overlapping_features (hqaa : Feature) (peaks : List Peak) :
    (increment_while_overlapping hqaa peaks).map Peak.toFeature = peaks.map Peak.toFeature := by
  induction peaks with
  | nil => rfl
  | cons p rest ih =>
    unfold increment_while_overlapping
    split_ifs
    · rw [List.map_cons, List.map_cons, ih]
    · rfl

theorem ReferencePeakCollection.increment_keeps_features (ops : FeatureOps)
    (rpc : ReferencePeakCollection) (hqaa : Feature) :
    (rpc.increment_overlapping_hqaa ops hqaa).peaks.map Peak.toFeature =
      rpc.peaks.map Peak.toFeature := by
  unfold ReferencePeakCollection.increment_overlapping_hqaa
  dsimp only
  split_ifs
  · rw [List.map_append, increment_while_overlapping_features, ← List.map_append,
      List.take_append_drop]
  · rfl

theorem tree_update_features (name : String)
    (f : ReferencePeakCollection → ReferencePeakCollection)
    (hf : ∀ c, (f c).peaks.map Peak.toFeature = c.peaks.map Peak.toFeature)
    (tree : List (String × ReferencePeakCollection)) :
    ((tree_update name f tree).flatMap (fun e => e.2.peaks)).map Peak.toFeature =
      (tree.flatMap (fun e => e.2.peaks)).map Peak.toFeature := by
  induction tree with
  | nil =>
    simp only [tree_update, List.flatMap_cons, List.flatMap_nil, List.append_nil, List.map_nil]
    rw [hf]
    rfl
  | cons e rest ih =>
    obtain ⟨n, c⟩ := e
    unfold tree_update
    by_cases h1 : string_lt name n = true
    · rw [if_pos h1, List.flatMap_cons, List.map_append, hf]
      rfl
    · rw [if_neg h1]
      by_cases h2 : name = n
      · rw [if_pos h2, List.flatMap_cons, List.flatMap_cons, List.map_append, List.map_append, hf]
      · rw [if_neg h2, List.flatMap_cons, List.flatMap_cons, List.map_append, List.map_append, ih]

theorem PeakTree.increment_overlapping_hqaa_features (ops : FeatureOps) (t : PeakTree)
    (hqaa : Feature) :
    (t.increment_overlapping_hqaa ops hqaa).all_peaks.map Peak.toFeature =
      t.all_peaks.map Peak.toFeature :=
  tree_update_features hqaa.reference _
    (fun c => ReferencePeakCollection.increment_keeps_features ops c hqaa) t.tree

/-- Adding a peak to a tree adds its size to the sum of the sizes of the peaks
held. -/
theorem PeakTree.add_sizes (t : PeakTree) (peak : Peak) :
    ((t.add peak).1.all_peaks.map (fun p => p.toFeature.size)).sum =
      (t.all_peaks.map (fun p => p.toFeature.size)).sum + peak.toFeature.size := by
  have hadd : ∀ c : ReferencePeakCollection, (c.add peak).1.peaks = c.peaks ++ [peak] := by
    intro c
    unfold ReferencePeakCollection.add
    dsimp only
    split_ifs <;> rfl
  unfold PeakTree.add PeakTree.all_peaks
  dsimp only
  induction t.tree with
  | nil =>
    simp [tree_update, hadd, ReferencePeakCollection.empty]
  | cons e rest ih =>
    obtain ⟨n, c⟩ := e
    unfold tree_update
    by_cases h1 : string_lt peak.reference n = true
    · rw [if_pos h1]
      simp [hadd, ReferencePeakCollection.empty]
      omega
    · rw [if_neg h1]
      by_cases h2 : peak.reference = n
      · rw [if_pos h2]
        simp [hadd]
        omega
      · rw [if_neg h2, List.flatMap_cons, List.flatMap_cons, List.map_append, List.map_append,
          List.sum_append, List.sum_append, ih]
        omega

theorem Metrics.territory_view_log_if (m : Metrics) (problem : String)
    (subject : ProblemSubject) : (m.log_if problem subject).territory_view = m.territory_view :=
  Metrics.log_if_frame (fun m => m.territory_view) (fun _ _ => rfl) m problem subject

theorem Metrics.territory_view_add_alignment_reference (m : Metrics) (header : Header)
    (r : Record) (refcache : Refcache) :
    (m.add_alignment_reference header r refcache).1.territory_view = m.territory_view := by
  obtain ⟨_, _, _, _, h⟩ := Metrics.add_alignment_reference_shape m header r refcache
  rw [h]
  rfl

theorem Metrics.territory_view_add_alignment_original (ops : FeatureOps) (m : Metrics)
    (header : Header) (r : Record) (n : Nat) (refcache : Refcache) :
    (m.add_alignment_original ops header r n refcache).1.territory_view = m.territory_view := by
  have hc : ∀ (f : List (Nat × Nat)) (c : Nat),
      Metrics.is_hqaa { m with fragment_length_counts := f, maximum_proper_pair_fragment_size := c }
        header r refcache = m.is_hqaa header r refcache := fun _ _ => rfl
  unfold Metrics.add_alignment_original
  dsimp only
  rw [hc]
  by_cases hq : (m.is_hqaa header r refcache).1 = true
  · rw [if_pos hq]
    unfold Metrics.territory_view
    dsimp only
    by_cases he : (!m.peaks.empty) = true
    · rw [if_pos he, PeakTree.increment_overlapping_hqaa_features]
    · rw [if_neg he]
  · rw [if_neg hq]
    rfl

theorem Metrics.territory_view_after_reference (ops : FeatureOps) (m : Metrics)
    (header : Header) (r : Record) (n : Nat) (refcache : Refcache) :
    (if IS_ORIGINAL r then
        (m.add_alignment_reference header r refcache).1.add_alignment_original ops header r n
          (m.add_alignment_reference header r refcache).2
      else m.add_alignment_reference header r refcache).1.territory_view = m.territory_view := by
  by_cases ho : IS_ORIGINAL r = true
  · rw [if_pos ho, Metrics.territory_view_add_alignment_original,
      Metrics.territory_view_add_alignment_reference]
  · rw [if_neg ho, Metrics.territory_view_add_alignment_reference]

theorem Metrics.territory_view_add_alignment_proper (ops : FeatureOps) (m : Metrics)
    (header : Header) (r : Record) (n : Nat) (refcache : Refcache) :
    (m.add_alignment_proper ops header r n refcache).1.territory_view = m.territory_view :=
  Metrics.territory_view_after_reference ops _ header r n refcache

theorem Metrics.territory_view_add_alignment (ops : FeatureOps) (m : Metrics) (header : Header)
    (r : Record) (refcache : Refcache) :
    (m.add_alignment ops header r refcache).1.territory_view = m.territory_view := by
  unfold Metrics.add_alignment
  dsimp only
  by_cases h1 : IS_QCFAIL r = true
  · rw [if_pos h1, Metrics.territory_view_log_if]; rfl
  rw [if_neg h1]
  by_cases h2 : (!IS_PAIRED r) = true
  · rw [if_pos h2, Metrics.territory_view_log_if]; rfl
  rw [if_neg h2]
  by_cases h3 : IS_UNMAPPED r = true
  · rw [if_pos h3, Metrics.territory_view_log_if]; rfl
  rw [if_neg h3]
  by_cases h4 : IS_MATE_UNMAPPED r = true
  · rw [if_pos h4, Metrics.territory_view_log_if]; rfl
  rw [if_neg h4]
  by_cases h5 : is_rf r = true
  · rw [if_pos h5, Metrics.territory_view_log_if]; rfl
  rw [if_neg h5]
  by_cases h6 : is_ff r = true
  · rw [if_pos h6, Metrics.territory_view_log_if]; rfl
  rw [if_neg h6]
  by_cases h7 : is_rr r = true
  · rw [if_pos h7, Metrics.territory_view_log_if]; rfl
  rw [if_neg h7]
  by_cases h8 : r.qual = 0
  · rw [if_pos h8, Metrics.territory_view_log_if]; rfl
  rw [if_neg h8]
  by_cases h9 : IS_PAIRED_AND_MAPPED r = true
  swap
  · rw [if_neg h9, Metrics.territory_view_log_if]; rfl
  rw [if_pos h9]
  by_cases h10 : IS_PROPERLYPAIRED r = true
  · rw [if_pos h10, Metrics.territory_view_add_alignment_proper]; rfl
  rw [if_neg h10]
  by_cases h11 : r.tid ≠ r.mtid
  · rw [if_pos h11, Metrics.territory_view_log_if]; rfl
  · rw [if_neg h11, Metrics.territory_view_log_if]; rfl

theorem add_alignments_territory_view (ops : FeatureOps) (header : Header)
    (records : List Record) (s : Metrics × Refcache) :
    (add_alignments ops header s records).1.territory_view = s.1.territory_view := by
  induction records generalizing s with
  | nil => rfl
  | cons r rest ih => rw [add_alignments_cons, ih, Metrics.territory_view_add_alignment]

theorem Metrics.territory_view_finalized (ops : FeatureOps) (m : Metrics) (header : Header)
    (refcache : Refcache) (records : List Record) :
    (m.finalized ops header refcache records).territory_view = m.territory_view := by
  unfold Metrics.finalized Metrics.after_stream
  obtain ⟨s, hs⟩ := Metrics.make_aggregate_diagnoses_shape
    (add_alignments ops header (m, refcache) records).1
  rw [hs]
  exact add_alignments_territory_view ops header records (m, refcache)

/-- `load_peaks` adds to the territory the sizes of the peaks it adds to the
tree. -/
theorem Metrics.load_peaks_loop_territory (peak_file : List PeakLine) (peak : Peak)
    (m : Metrics) (refcache : Refcache) (s : Metrics × Refcache)
    (h : Metrics.load_peaks_loop peak_file peak m refcache = Except.ok s) :
    s.1.total_peak_territory + (m.peaks.all_peaks.map (fun p => p.toFeature.size)).sum =
      m.total_peak_territory + (s.1.peaks.all_peaks.map (fun p => p.toFeature.size)).sum := by
  induction peak_file generalizing peak m refcache with
  | nil =>
    unfold Metrics.load_peaks_loop at h
    rw [← Except.ok.inj h]
  | cons line rest ih =>
    unfold Metrics.load_peaks_loop at h
    dsimp only at h
    split_ifs at h with h1 h2 h3
    · exact ih _ _ _ h
    · have := ih _ _ _ h
      dsimp only at this
      rw [PeakTree.add_sizes] at this
      omega
    · exact ih _ _ _ h

/-- A constructed aggregator holds as territory the sum of the sizes of its
peaks. -/
theorem Metrics.new_territory (collector : MetricsCollector) (name : String) (peak : Peak)
    (peak_file : List PeakLine) (refcache : Refcache) (s : Metrics × Refcache)
    (h : Metrics.new collector name peak peak_file refcache = Except.ok s) :
    s.1.total_peak_territory = (s.1.peaks.all_peaks.map (fun p => p.toFeature.size)).sum := by
  unfold Metrics.new at h
  split_ifs at h with h1
  · unfold Metrics.load_peaks at h
    split_ifs at h with h2
    have := Metrics.load_peaks_loop_territory peak_file peak _ refcache s h
    simpa [Metrics.fresh, PeakTree.all_peaks] using this
  · rw [← Except.ok.inj h]
    rfl

/-- `load_peaks` changes nothing of an aggregator but its peaks and its
territory. -/
theorem Metrics.load_peaks_loop_shape (peak_file : List PeakLine) (peak : Peak)
    (m : Metrics) (refcache : Refcache) (s : Metrics × Refcache)
    (h : Metrics.load_peaks_loop peak_file peak m refcache = Except.ok s) :
    ∃ peaks territory, s.1 = { m with peaks := peaks, total_peak_territory := territory } := by
  induction peak_file generalizing peak m refcache with
  | nil =>
    unfold Metrics.load_peaks_loop at h
    rw [← Except.ok.inj h]
    exact ⟨m.peaks, m.total_peak_territory, rfl⟩
  | cons line rest ih =>
    unfold Metrics.load_peaks_loop at h
    dsimp only at h
    split_ifs at h with h1 h2 h3
    · exact ih _ _ _ h
    · obtain ⟨peaks, territory, hs⟩ := ih _ _ _ h
      exact ⟨peaks, territory, hs⟩
    · exact ih _ _ _ h

/-- Whatever the constructor returns is a constructed aggregator: what is
proved of `Metrics.constructed` holds of every result of `Metrics.new`. -/
theorem Metrics.new_eq_constructed (collector : MetricsCollector) (name : String)
    (peak : Peak) (peak_file : List PeakLine) (refcache : Refcache) (s : Metrics × Refcache)
    (h : Metrics.new collector name peak peak_file refcache = Except.ok s) :
    ∃ peaks_requested peaks territory,
      s.1 = Metrics.constructed collector name peaks_requested peaks territory := by
  unfold Metrics.new at h
  split_ifs at h with h1
  · unfold Metrics.load_peaks at h
    split_ifs at h with h2
    obtain ⟨peaks, territory, hs⟩ := Metrics.load_peaks_loop_shape peak_file peak _ refcache s h
    exact ⟨true, peaks, territory, hs⟩
  · rw [← Except.ok.inj h]
    exact ⟨false, { tree := [] }, 0, rfl⟩

/-! ### Ratios with a zero denominator -/

theorem Fp.add_nan (x : Fp) : Fp.add x Fp.nan = Fp.nan := by
  cases x <;> rfl

theorem Fp.zero_div_zero : Fp.div (Fp.ofNat 0) (Fp.ofNat 0) = Fp.nan := by
  norm_num [Fp.div, Fp.ofNat]

/-- When every term is not-a-number, so is every cumulative fraction that the
percentile pass emits. -/
theorem cumulative_fractions_nan (term : Peak → Fp) (percentile_indices : List Nat)
    (ranked : List Peak) (hterm : ∀ peak ∈ ranked, term peak = Fp.nan) (count : Nat)
    (cumulative : Fp) :
    ∀ x ∈ cumulative_fractions term percentile_indices ranked count cumulative, x = Fp.nan := by
  induction ranked generalizing count cumulative with
  | nil =>
    intro x hx
    cases hx
  | cons peak rest ih =>
    intro x hx
    have hrest : ∀ p ∈ rest, term p = Fp.nan := fun p hp => hterm p (List.mem_cons_of_mem _ hp)
    unfold cumulative_fractions at hx
    dsimp only at hx
    rw [hterm peak (List.mem_cons_self _ _), Fp.add_nan] at hx
    by_cases hc : percentile_indices.contains (count + 1) = true
    · rw [if_pos hc] at hx
      rcases List.mem_cons.mp hx with h | h
      · exact h
      · exact ih hrest _ _ x h
    · rw [if_neg hc] at hx
      exact ih hrest _ _ x hx

/-- With a territory total of 0 that is the sum of the sizes of the ranked
peaks, every term of the territory pass is `0/0`. -/
theorem Metrics.cumulative_fraction_of_territory_nan (m : Metrics)
    (percentile_indices : List Nat) (ranked : List Peak) (h0 : m.total_peak_territory = 0)
    (hsum : (ranked.map (fun peak => peak.toFeature.size)).sum = m.total_peak_territory) :
    ∀ x ∈ m.cumulative_fraction_of_territory percentile_indices ranked, x = Fp.nan := by
  unfold Metrics.cumulative_fraction_of_territory
  apply cumulative_fractions_nan
  intro peak hp
  rw [h0] at hsum ⊢
  have hz : peak.toFeature.size = 0 :=
    List.sum_eq_zero_iff.mp hsum _ (List.mem_map.mpr ⟨peak, hp, rfl⟩)
  rw [hz]
  exact Fp.zero_div_zero

/-- C10. A ratio with a zero denominator is not-a-number: `fraction n 0` and
`percentage n 0` for every `n`; every cumulative fraction of hqaa that the
percentile pass emits when `hqaa` is 0; and, on an aggregator that was
constructed, fed a record stream and finalized, every cumulative fraction of
peak territory that the pass emits over a ranking of its peaks when
`total_peak_territory` is 0. -/
theorem ratios_nan_on_zero_denominator :
    (∀ n : Nat, fraction n 0 = Fp.nan) ∧
    (∀ n : Nat, percentage n 0 = Fp.nan) ∧
    (∀ (m : Metrics) (percentile_indices : List Nat) (ranked : List Peak), m.hqaa = 0 →
      ∀ x ∈ m.cumulative_fraction_of_hqaa percentile_indices ranked, x = Fp.nan) ∧
    (∀ (ops : FeatureOps) (collector : MetricsCollector) (name : String)
      (peak : Peak) (peak_file : List PeakLine) (refcache : Refcache) (s : Metrics × Refcache)
      (header : Header) (records : List Record) (percentile_indices : List Nat)
      (ranked : List Peak),
      Metrics.new collector name peak peak_file refcache = Except.ok s →
      (s.1.finalized ops header s.2 records).total_peak_territory = 0 →
      ranked.Perm (s.1.finalized ops header s.2 records).peaks.all_peaks →
      ∀ x ∈ (s.1.finalized ops header s.2 records).cumulative_fraction_of_territory
        percentile_indices ranked, x = Fp.nan) := by
  refine ⟨fun n => rfl, fun n => rfl, ?_, ?_⟩
  · intro m idx ranked h0
    unfold Metrics.cumulative_fraction_of_hqaa
    apply cumulative_fractions_nan
    intro peak _
    rw [if_pos h0]
  · intro ops collector name peak peak_file refcache s header records idx ranked hnew h0 hperm
    apply Metrics.cumulative_fraction_of_territory_nan _ idx ranked h0
    have hview := Metrics.territory_view_finalized ops s.1 header s.2 records
    have hterr := Metrics.new_territory collector name peak peak_file refcache s hnew
    unfold Metrics.territory_view at hview
    have h1 := congrArg Prod.fst hview
    have h2 := congrArg (fun v => (v.2.map Feature.size).sum) hview
    dsimp only at h1 h2
    rw [List.map_map, List.map_map] at h2
    rw [(hperm.map _).sum_eq, h1, hterr]
    exact h2

/-- A peak file with two peaks of size 0 and an empty record stream: the pass
emits a value at ranks 1 and 2, and each is not-a-number. -/
theorem ratios_nan_on_zero_denominator_witness :
    Metrics.new Sample.peak_collector "rg" Sample.unread_peak
        (Sample.point_peak_file.map PeakLine.full) [] =
      Except.ok (Metrics.constructed Sample.peak_collector "rg" true Sample.point_peaks 0,
        [("chr1", true)]) ∧
    ((Metrics.constructed Sample.peak_collector "rg" true Sample.point_peaks 0).finalized
      Sample.ops Sample.header [("chr1", true)] []).total_peak_territory = 0 ∧
    ((Metrics.constructed Sample.peak_collector "rg" true Sample.point_peaks 0).finalized
      Sample.ops Sample.header [("chr1", true)] []).hqaa = 0 ∧
    ((Metrics.constructed Sample.peak_collector "rg" true Sample.point_peaks 0).finalized
      Sample.ops Sample.header [("chr1", true)] []).peaks.all_peaks =
        [Sample.peak "A" 10 10, Sample.peak "B" 20 20] ∧
    ((Metrics.constructed Sample.peak_collector "rg" true Sample.point_peaks 0).finalized
      Sample.ops Sample.header [("chr1", true)] []).cumulative_fraction_of_territory
        [1, 2] [Sample.peak "B" 20 20, Sample.peak "A" 10 10] = [Fp.nan, Fp.nan] ∧
    (∀ x ∈ ((Metrics.constructed Sample.peak_collector "rg" true Sample.point_peaks 0).finalized
      Sample.ops Sample.header [("chr1", true)] []).cumulative_fraction_of_territory
        [1, 2] [Sample.peak "B" 20 20, Sample.peak "A" 10 10], x = Fp.nan) ∧
    (∀ x ∈ ((Metrics.constructed Sample.peak_collector "rg" true Sample.point_peaks 0).finalized
      Sample.ops Sample.header [("chr1", true)] []).cumulative_fraction_of_hqaa
        [1, 2] [Sample.peak "B" 20 20, Sample.peak "A" 10 10], x = Fp.nan) :=
  ⟨rfl, rfl, rfl, rfl,
    by norm_num [Metrics.cumulative_fraction_of_territory, cumulative_fractions, Fp.add, Fp.div,
      Fp.ofNat, Metrics.finalized, Metrics.after_stream, add_alignments,
      Metrics.make_aggregate_diagnoses, diagnose_suspects, Metrics.constructed, Metrics.fresh,
      Sample.peak, Feature.size],
    ratios_nan_on_zero_denominator.2.2.2 Sample.ops Sample.peak_collector "rg"
      Sample.unread_peak (Sample.point_peak_file.map PeakLine.full) []
      (Metrics.constructed Sample.peak_collector "rg" true Sample.point_peaks 0, [("chr1", true)])
      Sample.header [] [1, 2] [Sample.peak "B" 20 20, Sample.peak "A" 10 10] rfl rfl
      (List.Perm.swap _ _ []),
    ratios_nan_on_zero_denominator.2.2.1
      ((Metrics.constructed Sample.peak_collector "rg" true Sample.point_peaks 0).finalized
        Sample.ops Sample.header [("chr1", true)] []) [1, 2]
      [Sample.peak "B" 20 20, Sample.peak "A" 10 10] rfl⟩


/-! ### The peak tree -/

theorem string_lt_irrefl (a : String) : string_lt a a = false := by
  unfold string_lt
  exact decide_eq_false (lt_irrefl a.data)

theorem string_lt_asymm (a b : String) (h : string_lt a b = true) : string_lt b a = false := by
  unfold string_lt at *
  exact decide_eq_false (lt_asymm (of_decide_eq_true h))

theorem string_lt_trans (a b c : String) (h1 : string_lt a b = true) (h2 : string_lt b c = true) :
    string_lt a c = true := by
  unfold string_lt at *
  exact decide_eq_true (lt_trans (of_decide_eq_true h1) (of_decide_eq_true h2))

theorem string_lt_connected (a b : String) (h1 : string_lt a b = false) (h2 : a ≠ b) :
    string_lt b a = true := by
  unfold string_lt at *
  have h := of_decide_eq_false h1
  rcases lt_trichotomy a.data b.data with h3 | h3 | h3
  · exact absurd h3 h
  · exact absurd (String.ext h3) h2
  · exact decide_eq_true h3

theorem string_lt_ne (a b : String) (h : string_lt a b = true) : a ≠ b := by
  intro e
  rw [e, string_lt_irrefl] at h
  exact Bool.noConfusion h

/-- The collection that `tree[name]` refers to after an update under the same
name is the updated one. -/
theorem tree_find_update_same (name : String)
    (f : ReferencePeakCollection → ReferencePeakCollection)
    (l : List (String × ReferencePeakCollection)) :
    tree_find name (tree_update name f l) = f (tree_find name l) := by
  induction l with
  | nil => simp [tree_update, tree_find, string_lt_irrefl]
  | cons e rest ih =>
    obtain ⟨n, c⟩ := e
    unfold tree_update
    by_cases h1 : string_lt name n = true
    · rw [if_pos h1]
      simp [tree_find, string_lt_irrefl, h1]
    · rw [if_neg h1]
      by_cases h2 : name = n
      · rw [if_pos h2]
        subst h2
        simp [tree_find, string_lt_irrefl]
      · rw [if_neg h2]
        simp [tree_find, h1, h2, ih]

/-- An update under one name leaves the collections of the other names. -/
theorem tree_find_update_other (name other : String) (h : name ≠ other)
    (f : ReferencePeakCollection → ReferencePeakCollection)
    (l : List (String × ReferencePeakCollection)) :
    tree_find name (tree_update other f l) = tree_find name l := by
  induction l with
  | nil =>
    by_cases h0 : string_lt name other = true
    · simp [tree_update, tree_find, h0]
    · simp [tree_update, tree_find, h0, h]
  | cons e rest ih =>
    obtain ⟨n, c⟩ := e
    unfold tree_update
    by_cases h1 : string_lt other n = true
    · rw [if_pos h1]
      by_cases h0 : string_lt name other = true
      · simp [tree_find, h0, string_lt_trans name other n h0 h1]
      · rw [tree_find, if_neg h0, if_neg h]
    · rw [if_neg h1]
      by_cases h2 : other = n
      · rw [if_pos h2]
        have h3 : name ≠ n := fun e => h (e.trans h2.symm)
        simp [tree_find, h3]
      · rw [if_neg h2]
        simp [tree_find, ih]

/-- Two updates under the same name are one update. -/
theorem tree_update_update_same (name : String)
    (f g : ReferencePeakCollection → ReferencePeakCollection)
    (l : List (String × ReferencePeakCollection)) :
    tree_update name f (tree_update name g l) = tree_update name (fun c => f (g c)) l := by
  induction l with
  | nil => simp [tree_update, string_lt_irrefl]
  | cons e rest ih =>
    obtain ⟨n, c⟩ := e
    by_cases h1 : string_lt name n = true
    · simp [tree_update, h1, string_lt_irrefl]
    · by_cases h2 : name = n
      · subst h2
        simp [tree_update, string_lt_irrefl]
      · simp [tree_update, h1, h2, ih]

/-- Updates under different names commute. -/
theorem tree_update_comm (name other : String) (h : name ≠ other)
    (f g : ReferencePeakCollection → ReferencePeakCollection)
    (l : List (String × ReferencePeakCollection)) :
    tree_update name f (tree_update other g l) = tree_update other g (tree_update name f l) := by
  have h' : other ≠ name := fun e => h e.symm
  induction l with
  | nil =>
    by_cases h0 : string_lt name other = true
    · simp [tree_update, h0, string_lt_asymm name other h0, h']
    · simp [tree_update, h0, string_lt_connected name other (by simpa using h0) h, h]
  | cons e rest ih =>
    obtain ⟨n, c⟩ := e
    by_cases h0 : string_lt name other = true
    · have h0' := string_lt_asymm name other h0
      by_cases h1 : string_lt other n = true
      · have h2 := string_lt_trans name other n h0 h1
        simp [tree_update, h0, h0', h1, h2, h']
      · by_cases h3 : other = n
        · subst h3
          simp [tree_update, h0, h0', string_lt_irrefl, h']
        · by_cases h4 : string_lt name n = true
          · simp [tree_update, h0', h1, h3, h4, h']
          · by_cases h5 : name = n
            · subst h5
              simp [tree_update, string_lt_irrefl, h1, h3]
            · simp [tree_update, h1, h3, h4, h5, ih]
    · have h0' := string_lt_connected name other (by simpa using h0) h
      by_cases h1 : string_lt name n = true
      · have h2 := string_lt_trans other name n h0' h1
        simp [tree_update, h0, h0', h1, h2, h]
      · by_cases h3 : name = n
        · subst h3
          simp [tree_update, h0, h0', string_lt_irrefl, h]
        · by_cases h4 : string_lt other n = true
          · simp [tree_update, h0, h1, h3, h4, h]
          · by_cases h5 : other = n
            · subst h5
              simp [tree_update, string_lt_irrefl, h1, h3]
            · simp [tree_update, h1, h3, h4, h5, ih]


/-! ### Insertion order of the peaks of a reference -/

theorem ReferencePeakCollection.add_peaks (c : ReferencePeakCollection) (peak : Peak) :
    (c.add peak).1.peaks = c.peaks ++ [peak] := by
  unfold ReferencePeakCollection.add
  dsimp only
  split_ifs <;> rfl

/-- C20 (the code does otherwise): `PeakTree::add` appends the peak to the
sequence of its reference, wherever its start lies, and nothing sorts the
sequence: after adding chr1:300-500 and then chr1:50-200 to an empty tree, the
sequence that `increment_overlapping_hqaa` searches has the starts 300, 50. -/
theorem add_keeps_arrival_order :
    (∀ (t : PeakTree) (peak : Peak),
      (tree_find peak.reference (t.add peak).1.tree).peaks =
        (tree_find peak.reference t.tree).peaks ++ [peak]) ∧
    (PeakTree.add_all { tree := [] } Sample.unsorted_peak_file).2 = false ∧
    (tree_find "chr1" (PeakTree.add_all { tree := [] } Sample.unsorted_peak_file).1.tree).peaks.map
      (fun p => p.start) = [300, 50] := by
  refine ⟨fun t peak => ?_, by decide, by decide⟩
  unfold PeakTree.add
  dsimp only
  rw [tree_find_update_same, ReferencePeakCollection.add_peaks]


/-! ### The effect of one increment -/

theorem Peak.raised_by_refl (hqaa : Feature) (p : Peak) : Peak.raised_by hqaa p p :=
  ⟨rfl, Or.inl rfl⟩

theorem forall₂_raised_by_refl (hqaa : Feature) (l : List Peak) :
    List.Forall₂ (Peak.raised_by hqaa) l l := by
  induction l with
  | nil => exact List.Forall₂.nil
  | cons p rest ih => exact List.Forall₂.cons (Peak.raised_by_refl hqaa p) ih

theorem forall₂_append_of {α : Type} (R : α → α → Prop) (a b c d : List α)
    (h1 : List.Forall₂ R a b) (h2 : List.Forall₂ R c d) : List.Forall₂ R (a ++ c) (b ++ d) := by
  induction h1 with
  | nil => exact h2
  | cons h _ ih => exact List.Forall₂.cons h ih

theorem Feature.overlaps_reference (f other : Feature) (h : f.overlaps other = true) :
    f.reference = other.reference := by
  unfold Feature.overlaps at h
  simp only [Bool.and_eq_true, beq_iff_eq] at h
  exact h.1.1

theorem increment_while_overlapping_raised (hqaa : Feature) (peaks : List Peak) :
    List.Forall₂ (Peak.raised_by hqaa) peaks (increment_while_overlapping hqaa peaks) := by
  induction peaks with
  | nil => exact List.Forall₂.nil
  | cons p rest ih =>
    unfold increment_while_overlapping
    by_cases h : p.toFeature.overlaps hqaa = true
    · rw [if_pos h]
      exact List.Forall₂.cons ⟨rfl, Or.inr ⟨rfl, Feature.overlaps_reference _ _ h, h⟩⟩ ih
    · rw [if_neg h]
      exact forall₂_raised_by_refl hqaa _

theorem ReferencePeakCollection.increment_raised (ops : FeatureOps)
    (rpc : ReferencePeakCollection) (hqaa : Feature) :
    rpc.raised_by hqaa (rpc.increment_overlapping_hqaa ops hqaa) := by
  unfold ReferencePeakCollection.increment_overlapping_hqaa
  by_cases h : rpc.overlaps hqaa = true
  · rw [if_pos h]
    refine ⟨rfl, rfl, rfl, ?_⟩
    dsimp only
    have := forall₂_append_of (Peak.raised_by hqaa) _ _ _ _
      (forall₂_raised_by_refl hqaa (rpc.peaks.take (upper_bound ops rpc.peaks hqaa)))
      (increment_while_overlapping_raised hqaa (rpc.peaks.drop (upper_bound ops rpc.peaks hqaa)))
    rw [List.take_append_drop] at this
    exact this
  · rw [if_neg h]
    exact ⟨rfl, rfl, rfl, forall₂_raised_by_refl hqaa _⟩

theorem ReferencePeakCollection.increment_empty (ops : FeatureOps) (hqaa : Feature) :
    ReferencePeakCollection.empty.increment_overlapping_hqaa ops hqaa =
      ReferencePeakCollection.empty := by
  simp [ReferencePeakCollection.increment_overlapping_hqaa, ReferencePeakCollection.overlaps,
    ReferencePeakCollection.empty]

theorem forall₂_isEmpty {α : Type} (R : α → α → Prop) (a b : List α)
    (h : List.Forall₂ R a b) : a.isEmpty = b.isEmpty := by
  cases h <;> rfl

/-- An update of one collection that keeps the default collection and relates
every collection to its update relates the peaks of the tree position by
position. -/
theorem tree_update_all_peaks (R : Peak → Peak → Prop) (hR : ∀ p, R p p) (name : String)
    (f : ReferencePeakCollection → ReferencePeakCollection)
    (hf : ∀ c, List.Forall₂ R c.peaks (f c).peaks)
    (he : f ReferencePeakCollection.empty = ReferencePeakCollection.empty)
    (l : List (String × ReferencePeakCollection)) :
    List.Forall₂ R (l.flatMap (fun e => e.2.peaks))
      ((tree_update name f l).flatMap (fun e => e.2.peaks)) := by
  have hrefl : ∀ l : List Peak, List.Forall₂ R l l := by
    intro l
    induction l with
    | nil => exact List.Forall₂.nil
    | cons p rest ih => exact List.Forall₂.cons (hR p) ih
  have hnew : ∀ l : List (String × ReferencePeakCollection),
      ((name, ReferencePeakCollection.empty) :: l).flatMap (fun e => e.2.peaks) =
        l.flatMap (fun e => e.2.peaks) := fun l => by
    simp [ReferencePeakCollection.empty]
  induction l with
  | nil =>
    unfold tree_update
    rw [he, hnew]
    exact List.Forall₂.nil
  | cons e rest ih =>
    obtain ⟨n, c⟩ := e
    unfold tree_update
    by_cases h1 : string_lt name n = true
    · rw [if_pos h1, he, hnew]
      exact hrefl _
    · rw [if_neg h1]
      by_cases h2 : name = n
      · rw [if_pos h2, List.flatMap_cons, List.flatMap_cons]
        exact forall₂_append_of R _ _ _ _ (hf c) (hrefl _)
      · rw [if_neg h2, List.flatMap_cons, List.flatMap_cons]
        exact forall₂_append_of R _ _ _ _ (hrefl _) ih

/-- The same for the entries that hold peaks. -/
theorem tree_update_inhabited (R : ReferencePeakCollection → ReferencePeakCollection → Prop)
    (hR : ∀ c, R c c) (name : String)
    (f : ReferencePeakCollection → ReferencePeakCollection)
    (hf : ∀ c, R c (f c)) (hn : ∀ c, (f c).peaks.isEmpty = c.peaks.isEmpty)
    (he : f ReferencePeakCollection.empty = ReferencePeakCollection.empty)
    (l : List (String × ReferencePeakCollection)) :
    List.Forall₂ (fun e d => d.1 = e.1 ∧ R e.2 d.2)
      (l.filter (fun e => !e.2.peaks.isEmpty))
      ((tree_update name f l).filter (fun e => !e.2.peaks.isEmpty)) := by
  have hrefl : ∀ l : List (String × ReferencePeakCollection),
      List.Forall₂ (fun e d => d.1 = e.1 ∧ R e.2 d.2) l l := by
    intro l
    induction l with
    | nil => exact List.Forall₂.nil
    | cons p rest ih => exact List.Forall₂.cons ⟨rfl, hR p.2⟩ ih
  have hnew : ∀ l : List (String × ReferencePeakCollection),
      ((name, ReferencePeakCollection.empty) :: l).filter (fun e => !e.2.peaks.isEmpty) =
        l.filter (fun e => !e.2.peaks.isEmpty) := fun l =>
    List.filter_cons_of_neg (by simp [ReferencePeakCollection.empty])
  induction l with
  | nil =>
    unfold tree_update
    rw [he, hnew]
    exact List.Forall₂.nil
  | cons e rest ih =>
    obtain ⟨n, c⟩ := e
    unfold tree_update
    by_cases h1 : string_lt name n = true
    · rw [if_pos h1, he, hnew]
      exact hrefl _
    · rw [if_neg h1]
      by_cases h2 : name = n
      · rw [if_pos h2]
        by_cases h3 : c.peaks.isEmpty = true
        · rw [List.filter_cons_of_neg (by simp [h3]),
            List.filter_cons_of_neg (by simp [hn, h3])]
          exact hrefl _
        · rw [List.filter_cons_of_pos (by simp [h3]),
            List.filter_cons_of_pos (by simp [hn, h3])]
          exact List.Forall₂.cons ⟨rfl, hf c⟩ (hrefl _)
      · rw [if_neg h2]
        by_cases h3 : c.peaks.isEmpty = true
        · rw [List.filter_cons_of_neg (by simp [h3]),
            List.filter_cons_of_neg (by simp [h3])]
          exact ih
        · rw [List.filter_cons_of_pos (by simp [h3]),
            List.filter_cons_of_pos (by simp [h3])]
          exact List.Forall₂.cons ⟨rfl, hR c⟩ ih

theorem ReferencePeakCollection.raised_by_self (hqaa : Feature) (c : ReferencePeakCollection) :
    c.raised_by hqaa c :=
  ⟨rfl, rfl, rfl, forall₂_raised_by_refl hqaa _⟩

/-- C13: a peak read from the peak source has no hits, whatever the line it is
read from, and holds the four fields of a line that parses; a call of
`increment_overlapping_hqaa` keeps every peak of the tree at its position in
its collection with its reference, start, end and name, keeps its count or
raises it by one, and raises only counts of peaks that are in the feature's
reference and overlap the feature; the collections keep their name and
bounds. -/
theorem increment_overlapping_hqaa_raises_overlapping (ops : FeatureOps) (t : PeakTree)
    (hqaa : Feature) :
    ((∀ (peak : Peak) (line : PeakLine), (Peak.read peak line).overlapping_hqaa = 0) ∧
      (∀ (peak : Peak) (line : Feature),
        (Peak.read peak (PeakLine.full line)).toFeature = line)) ∧
    List.Forall₂ (Peak.raised_by hqaa) t.all_peaks
      (t.increment_overlapping_hqaa ops hqaa).all_peaks ∧
    List.Forall₂ (fun e d => d.1 = e.1 ∧ e.2.raised_by hqaa d.2) t.inhabited
      (t.increment_overlapping_hqaa ops hqaa).inhabited ∧
    List.Forall₂ (fun p q => p.overlapping_hqaa ≤ q.overlapping_hqaa) t.all_peaks
      (t.increment_overlapping_hqaa ops hqaa).all_peaks := by
  have hall : List.Forall₂ (Peak.raised_by hqaa) t.all_peaks
      (t.increment_overlapping_hqaa ops hqaa).all_peaks :=
    tree_update_all_peaks (Peak.raised_by hqaa) (Peak.raised_by_refl hqaa) hqaa.reference _
      (fun c => (ReferencePeakCollection.increment_raised ops c hqaa).2.2.2)
      (ReferencePeakCollection.increment_empty ops hqaa) t.tree
  refine ⟨⟨fun _ _ => rfl, fun _ _ => rfl⟩, hall, ?_, ?_⟩
  · exact tree_update_inhabited (ReferencePeakCollection.raised_by hqaa)
      (ReferencePeakCollection.raised_by_self hqaa) hqaa.reference _
      (fun c => ReferencePeakCollection.increment_raised ops c hqaa)
      (fun c => (forall₂_isEmpty _ _ _
        (ReferencePeakCollection.increment_raised ops c hqaa).2.2.2).symm)
      (ReferencePeakCollection.increment_empty ops hqaa) t.tree
  · refine List.Forall₂.imp ?_ hall
    intro p q h
    rcases h.2 with h1 | h1
    · exact Nat.le_of_eq h1.symm
    · rw [h1.1]
      exact Nat.le_succ _


/-! ### Ranking -/

theorem std_sort_perm (comp : Peak → Peak → Bool) (peaks : List Peak) :
    (std_sort comp peaks).Perm peaks :=
  List.perm_insertionSort _ peaks

theorem std_sort_descending (peaks : List Peak) :
    (std_sort peak_overlapping_hqaa_descending_comparator peaks).Pairwise
      (fun p q => q.overlapping_hqaa ≤ p.overlapping_hqaa) := by
  have ht : IsTotal Peak (fun a b => peak_overlapping_hqaa_descending_comparator b a = false) :=
    ⟨fun a b => by
      simp only [peak_overlapping_hqaa_descending_comparator, decide_eq_false_iff_not]
      omega⟩
  have htr : IsTrans Peak (fun a b => peak_overlapping_hqaa_descending_comparator b a = false) :=
    ⟨fun a b c => by
      simp only [peak_overlapping_hqaa_descending_comparator, decide_eq_false_iff_not]
      omega⟩
  have hs := @List.sorted_insertionSort Peak
    (fun a b => peak_overlapping_hqaa_descending_comparator b a = false) _ ht htr peaks
  refine List.Pairwise.imp ?_ hs
  intro a b h
  simp only [peak_overlapping_hqaa_descending_comparator, decide_eq_false_iff_not] at h
  omega

/-- The counts of the ranked peaks are the counts of the peaks, sorted
descending. -/
theorem std_sort_counts (peaks : List Peak) :
    (std_sort peak_overlapping_hqaa_descending_comparator peaks).map
        (fun p => p.overlapping_hqaa) =
      (peaks.map (fun p => p.overlapping_hqaa)).insertionSort (fun a b => b ≤ a) := by
  unfold std_sort
  refine List.map_insertionSort
    (fun a b => peak_overlapping_hqaa_descending_comparator b a = false) (fun a b => b ≤ a)
    (fun p => p.overlapping_hqaa) peaks ?_
  intro a _ b _
  simp only [peak_overlapping_hqaa_descending_comparator, decide_eq_false_iff_not]
  omega

/-- C14: `list_peaks_by_overlapping_hqaa_descending` returns the peaks of the
tree rearranged so that no peak comes before one with a larger count; the
peaks with 1, 5, 3 and 5 hits named D, A, C, B come out with the counts 5, 5,
3, 1, the peaks C and D last. -/
theorem list_peaks_by_overlapping_hqaa_descending_ranks (t : PeakTree) :
    t.list_peaks_by_overlapping_hqaa_descending.Perm t.all_peaks ∧
    t.list_peaks_by_overlapping_hqaa_descending.Pairwise
      (fun p q => q.overlapping_hqaa ≤ p.overlapping_hqaa) ∧
    Sample.ranked_peaks.list_peaks_by_overlapping_hqaa_descending.map
      (fun p => p.overlapping_hqaa) = [5, 5, 3, 1] ∧
    (Sample.ranked_peaks.list_peaks_by_overlapping_hqaa_descending.drop 2).map
      (fun p => p.name) = ["C", "D"] :=
  ⟨std_sort_perm _ _, std_sort_descending _, by decide, by decide⟩


/-! ### Fields that the classification never writes -/

theorem Metrics.side_view_log_if (m : Metrics) (problem : String)
    (subject : ProblemSubject) : (m.log_if problem subject).side_view = m.side_view :=
  Metrics.log_if_frame (fun m => m.side_view) (fun _ _ => rfl) m problem subject

theorem Metrics.side_view_add_alignment_reference (m : Metrics) (header : Header)
    (r : Record) (refcache : Refcache) :
    (m.add_alignment_reference header r refcache).1.side_view = m.side_view := by
  obtain ⟨_, _, _, _, h⟩ := Metrics.add_alignment_reference_shape m header r refcache
  rw [h]
  rfl

theorem Metrics.side_view_add_alignment_original (ops : FeatureOps) (m : Metrics)
    (header : Header) (r : Record) (n : Nat) (refcache : Refcache) :
    (m.add_alignment_original ops header r n refcache).1.side_view = m.side_view := by
  have hc : ∀ (f : List (Nat × Nat)) (c : Nat),
      Metrics.is_hqaa { m with fragment_length_counts := f, maximum_proper_pair_fragment_size := c }
        header r refcache = m.is_hqaa header r refcache := fun _ _ => rfl
  unfold Metrics.add_alignment_original
  dsimp only
  rw [hc]
  by_cases hq : (m.is_hqaa header r refcache).1 = true
  · rw [if_pos hq]
    rfl
  · rw [if_neg hq]
    rfl

theorem Metrics.side_view_after_reference (ops : FeatureOps) (m : Metrics)
    (header : Header) (r : Record) (n : Nat) (refcache : Refcache) :
    (if IS_ORIGINAL r then
        (m.add_alignment_reference header r refcache).1.add_alignment_original ops header r n
          (m.add_alignment_reference header r refcache).2
      else m.add_alignment_reference header r refcache).1.side_view = m.side_view := by
  by_cases ho : IS_ORIGINAL r = true
  · rw [if_pos ho, Metrics.side_view_add_alignment_original,
      Metrics.side_view_add_alignment_reference]
  · rw [if_neg ho, Metrics.side_view_add_alignment_reference]

theorem Metrics.side_view_add_alignment_proper (ops : FeatureOps) (m : Metrics)
    (header : Header) (r : Record) (n : Nat) (refcache : Refcache) :
    (m.add_alignment_proper ops header r n refcache).1.side_view = m.side_view :=
  Metrics.side_view_after_reference ops _ header r n refcache

/-- After the tallies of its head, `add_alignment` writes none of the fields
of the side view. -/
theorem Metrics.side_view_add_alignment (ops : FeatureOps) (m : Metrics) (header : Header)
    (r : Record) (refcache : Refcache) :
    (m.add_alignment ops header r refcache).1.side_view =
      (m.add_alignment_tallies r).side_view := by
  unfold Metrics.add_alignment
  dsimp only
  by_cases h1 : IS_QCFAIL r = true
  · rw [if_pos h1, Metrics.side_view_log_if]; rfl
  rw [if_neg h1]
  by_cases h2 : (!IS_PAIRED r) = true
  · rw [if_pos h2, Metrics.side_view_log_if]; rfl
  rw [if_neg h2]
  by_cases h3 : IS_UNMAPPED r = true
  · rw [if_pos h3, Metrics.side_view_log_if]; rfl
  rw [if_neg h3]
  by_cases h4 : IS_MATE_UNMAPPED r = true
  · rw [if_pos h4, Metrics.side_view_log_if]; rfl
  rw [if_neg h4]
  by_cases h5 : is_rf r = true
  · rw [if_pos h5, Metrics.side_view_log_if]; rfl
  rw [if_neg h5]
  by_cases h6 : is_ff r = true
  · rw [if_pos h6, Metrics.side_view_log_if]; rfl
  rw [if_neg h6]
  by_cases h7 : is_rr r = true
  · rw [if_pos h7, Metrics.side_view_log_if]; rfl
  rw [if_neg h7]
  by_cases h8 : r.qual = 0
  · rw [if_pos h8, Metrics.side_view_log_if]; rfl
  rw [if_neg h8]
  by_cases h9 : IS_PAIRED_AND_MAPPED r = true
  swap
  · rw [if_neg h9, Metrics.side_view_log_if]; rfl
  rw [if_pos h9]
  by_cases h10 : IS_PROPERLYPAIRED r = true
  · rw [if_pos h10, Metrics.side_view_add_alignment_proper]; rfl
  rw [if_neg h10]
  by_cases h11 : r.tid ≠ r.mtid
  · rw [if_pos h11, Metrics.side_view_log_if]; rfl
  · rw [if_neg h11, Metrics.side_view_log_if]; rfl

theorem add_alignments_side_view (ops : FeatureOps) (header : Header)
    (records : List Record) (s : Metrics × Refcache) :
    (add_alignments ops header s records).1.side_view.2 = s.1.side_view.2 := by
  induction records generalizing s with
  | nil => rfl
  | cons r rest ih =>
    rw [add_alignments_cons, ih, Metrics.side_view_add_alignment]
    rfl

theorem Metrics.side_view_make_aggregate_diagnoses (m : Metrics) :
    m.make_aggregate_diagnoses.side_view = m.side_view := by
  obtain ⟨s, hs⟩ := Metrics.make_aggregate_diagnoses_shape m
  rw [hs]
  rfl

theorem Metrics.side_view_finalized (ops : FeatureOps) (m : Metrics) (header : Header)
    (refcache : Refcache) (records : List Record) :
    (m.finalized ops header refcache records).side_view.2 = m.side_view.2 := by
  unfold Metrics.finalized Metrics.after_stream
  rw [Metrics.side_view_make_aggregate_diagnoses]
  exact add_alignments_side_view ops header records (m, refcache)


/-! ### Side tallies -/

theorem histogram_count_increment (k q : Nat) (counts : List (Nat × Nat)) :
    histogram_count k (count_increment q counts) =
      histogram_count k counts + (if k = q then 1 else 0) := by
  induction counts with
  | nil =>
    by_cases h : q = k
    · simp [count_increment, histogram_count, h]
    · have h' : ¬ k = q := fun e => h e.symm
      simp [count_increment, histogram_count, h, h']
  | cons e rest ih =>
    obtain ⟨k', c⟩ := e
    unfold count_increment
    by_cases h1 : q < k'
    · rw [if_pos h1]
      by_cases h : q = k
      · simp [histogram_count, h, List.filter_cons]
        omega
      · have h' : ¬ k = q := fun e => h e.symm
        simp [histogram_count, h, h', List.filter_cons]
    · rw [if_neg h1]
      by_cases h2 : q = k'
      · rw [if_pos h2]
        subst h2
        by_cases h : q = k
        · simp [histogram_count, h, List.filter_cons]
          omega
        · have h' : ¬ k = q := fun e => h e.symm
          simp [histogram_count, h, h', List.filter_cons]
      · rw [if_neg h2]
        unfold histogram_count at ih ⊢
        by_cases h3 : k' = k
        · simp only [List.filter_cons, h3, decide_True, if_true, List.map_cons, List.sum_cons]
          rw [ih]
          omega
        · simp only [List.filter_cons, h3, decide_False]
          exact ih

theorem histogram_total_increment (q : Nat) (counts : List (Nat × Nat)) :
    histogram_total (count_increment q counts) = histogram_total counts + 1 := by
  induction counts with
  | nil => simp [count_increment, histogram_total]
  | cons e rest ih =>
    obtain ⟨k', c⟩ := e
    unfold count_increment
    by_cases h1 : q < k'
    · rw [if_pos h1]
      simp [histogram_total]
      omega
    · rw [if_neg h1]
      by_cases h2 : q = k'
      · rw [if_pos h2]
        simp [histogram_total]
        omega
      · rw [if_neg h2]
        unfold histogram_total at ih ⊢
        simp only [List.map_cons, List.sum_cons]
        rw [ih]
        omega

/-- What one call of `add_alignment` does to the side tallies. -/
theorem Metrics.add_alignment_side_tallies (ops : FeatureOps) (m : Metrics) (header : Header)
    (r : Record) (refcache : Refcache) :
    (m.add_alignment ops header r refcache).1.total_reads = m.total_reads + 1 ∧
    (m.add_alignment ops header r refcache).1.mapq_counts =
      count_increment r.qual m.mapq_counts ∧
    (m.add_alignment ops header r refcache).1.forward_reads =
      m.forward_reads + (if IS_REVERSE r then 0 else 1) ∧
    (m.add_alignment ops header r refcache).1.reverse_reads =
      m.reverse_reads + (if IS_REVERSE r then 1 else 0) ∧
    (m.add_alignment ops header r refcache).1.forward_mate_reads =
      m.forward_mate_reads + (if IS_MATE_REVERSE r then 0 else 1) ∧
    (m.add_alignment ops header r refcache).1.reverse_mate_reads =
      m.reverse_mate_reads + (if IS_MATE_REVERSE r then 1 else 0) ∧
    (m.add_alignment ops header r refcache).1.secondary_reads =
      m.secondary_reads + (if IS_SECONDARY r then 1 else 0) ∧
    (m.add_alignment ops header r refcache).1.supplementary_reads =
      m.supplementary_reads + (if IS_SUPPLEMENTARY r then 1 else 0) ∧
    (m.add_alignment ops header r refcache).1.duplicate_reads =
      m.duplicate_reads + (if IS_DUP r then 1 else 0) ∧
    (m.add_alignment ops header r refcache).1.first_reads =
      m.first_reads + (if IS_READ1 r then 1 else 0) ∧
    (m.add_alignment ops header r refcache).1.second_reads =
      m.second_reads + (if IS_READ2 r then 1 else 0) ∧
    (m.add_alignment ops header r refcache).1.paired_reads =
      m.paired_reads + (if IS_PAIRED r then 1 else 0) := by
  have h := Metrics.side_view_add_alignment ops m header r refcache
  simp only [Metrics.side_view, Prod.mk.injEq] at h
  obtain ⟨⟨h1, h2, h3, h4, h5, h6, h7, h8, h9, h10, h11, h12⟩, -⟩ := h
  rw [h1, h2, h3, h4, h5, h6, h7, h8, h9, h10, h11, h12]
  refine ⟨rfl, rfl, ?_, ?_, ?_, ?_, ?_, ?_, ?_, ?_, ?_, ?_⟩
  · cases hb : IS_REVERSE r <;> simp [Metrics.add_alignment_tallies, bump, hb]
  · cases hb : IS_REVERSE r <;> simp [Metrics.add_alignment_tallies, bump, hb]
  · cases hb : IS_MATE_REVERSE r <;> simp [Metrics.add_alignment_tallies, bump, hb]
  · cases hb : IS_MATE_REVERSE r <;> simp [Metrics.add_alignment_tallies, bump, hb]
  · cases hb : IS_SECONDARY r <;> simp [Metrics.add_alignment_tallies, bump, hb]
  · cases hb : IS_SUPPLEMENTARY r <;> simp [Metrics.add_alignment_tallies, bump, hb]
  · cases hb : IS_DUP r <;> simp [Metrics.add_alignment_tallies, bump, hb]
  · cases hb : IS_READ1 r <;> simp [Metrics.add_alignment_tallies, bump, hb]
  · cases hb : IS_READ2 r <;> simp [Metrics.add_alignment_tallies, bump, hb]
  · cases hb : IS_PAIRED r <;> simp [Metrics.add_alignment_tallies, bump, hb]

/-- A property of the aggregator that every `add_alignment` keeps holds after
every stream. -/
theorem add_alignments_invariant (ops : FeatureOps) (header : Header) (P : Metrics → Prop)
    (hstep : ∀ (m : Metrics) (r : Record) (refcache : Refcache),
      P m → P (m.add_alignment ops header r refcache).1)
    (records : List Record) (s : Metrics × Refcache) (h : P s.1) :
    P (add_alignments ops header s records).1 := by
  induction records generalizing s with
  | nil => exact h
  | cons r rest ih =>
    rw [add_alignments_cons]
    exact ih _ (hstep _ _ _ h)

/-- The strand tallies and the mapq histogram count every record once. -/
theorem add_alignments_strand_totals (ops : FeatureOps) (header : Header)
    (records : List Record) (s : Metrics × Refcache)
    (h : s.1.forward_reads + s.1.reverse_reads = s.1.total_reads ∧
      s.1.forward_mate_reads + s.1.reverse_mate_reads = s.1.total_reads ∧
      histogram_total s.1.mapq_counts = s.1.total_reads) :
    (add_alignments ops header s records).1.forward_reads +
        (add_alignments ops header s records).1.reverse_reads =
      (add_alignments ops header s records).1.total_reads ∧
    (add_alignments ops header s records).1.forward_mate_reads +
        (add_alignments ops header s records).1.reverse_mate_reads =
      (add_alignments ops header s records).1.total_reads ∧
    histogram_total (add_alignments ops header s records).1.mapq_counts =
      (add_alignments ops header s records).1.total_reads := by
  refine add_alignments_invariant ops header
    (fun m => m.forward_reads + m.reverse_reads = m.total_reads ∧
      m.forward_mate_reads + m.reverse_mate_reads = m.total_reads ∧
      histogram_total m.mapq_counts = m.total_reads) ?_ records s h
  intro m r refcache hm
  obtain ⟨h1, h2, h3, h4, h5, h6, -⟩ := Metrics.add_alignment_side_tallies ops m header r refcache
  rw [h1, h2, h3, h4, h5, h6, histogram_total_increment]
  obtain ⟨a, b, c⟩ := hm
  refine ⟨?_, ?_, by omega⟩
  · cases IS_REVERSE r <;> simp <;> omega
  · cases IS_MATE_REVERSE r <;> simp <;> omega


/-- C19: every call of `add_alignment`, whatever the taxonomy outcome of the
record, raises `total_reads` by one, the mapq histogram bucket of the record's
mapping quality by one (and no other bucket), one of `forward_reads` and
`reverse_reads` and one of `forward_mate_reads` and `reverse_mate_reads`
according to the strand flags, and each of the secondary, supplementary,
duplicate, first, second and paired tallies iff its flag is set; so after every
stream, and after `make_aggregate_diagnoses`, the two strand sums and the sum
of the mapq histogram equal `total_reads`. -/
theorem add_alignment_updates_side_tallies (ops : FeatureOps) (header : Header) :
    (∀ (m : Metrics) (r : Record) (refcache : Refcache),
      (m.add_alignment ops header r refcache).1.total_reads = m.total_reads + 1 ∧
      (∀ k : Nat, histogram_count k (m.add_alignment ops header r refcache).1.mapq_counts =
        histogram_count k m.mapq_counts + (if k = r.qual then 1 else 0)) ∧
      (m.add_alignment ops header r refcache).1.forward_reads =
        m.forward_reads + (if IS_REVERSE r then 0 else 1) ∧
      (m.add_alignment ops header r refcache).1.reverse_reads =
        m.reverse_reads + (if IS_REVERSE r then 1 else 0) ∧
      (m.add_alignment ops header r refcache).1.forward_mate_reads =
        m.forward_mate_reads + (if IS_MATE_REVERSE r then 0 else 1) ∧
      (m.add_alignment ops header r refcache).1.reverse_mate_reads =
        m.reverse_mate_reads + (if IS_MATE_REVERSE r then 1 else 0) ∧
      (m.add_alignment ops header r refcache).1.secondary_reads =
        m.secondary_reads + (if IS_SECONDARY r then 1 else 0) ∧
      (m.add_alignment ops header r refcache).1.supplementary_reads =
        m.supplementary_reads + (if IS_SUPPLEMENTARY r then 1 else 0) ∧
      (m.add_alignment ops header r refcache).1.duplicate_reads =
        m.duplicate_reads + (if IS_DUP r then 1 else 0) ∧
      (m.add_alignment ops header r refcache).1.first_reads =
        m.first_reads + (if IS_READ1 r then 1 else 0) ∧
      (m.add_alignment ops header r refcache).1.second_reads =
        m.second_reads + (if IS_READ2 r then 1 else 0) ∧
      (m.add_alignment ops header r refcache).1.paired_reads =
        m.paired_reads + (if IS_PAIRED r then 1 else 0)) ∧
    (∀ (collector : MetricsCollector) (name : String) (peaks_requested : Bool)
        (peaks : PeakTree) (total_peak_territory : Nat) (refcache : Refcache)
        (records : List Record),
      ((Metrics.constructed collector name peaks_requested peaks
          total_peak_territory).after_stream ops header refcache records).forward_reads +
        ((Metrics.constructed collector name peaks_requested peaks
          total_peak_territory).after_stream ops header refcache records).reverse_reads =
        records.length ∧
      ((Metrics.constructed collector name peaks_requested peaks
          total_peak_territory).after_stream ops header refcache records).forward_mate_reads +
        ((Metrics.constructed collector name peaks_requested peaks
          total_peak_territory).after_stream ops header refcache records).reverse_mate_reads =
        records.length ∧
      histogram_total ((Metrics.constructed collector name peaks_requested peaks
          total_peak_territory).after_stream ops header refcache records).mapq_counts =
        records.length ∧
      ((Metrics.constructed collector name peaks_requested peaks
          total_peak_territory).after_stream ops header refcache records).total_reads =
        records.length ∧
      ((Metrics.constructed collector name peaks_requested peaks
          total_peak_territory).finalized ops header refcache records).side_view.1 =
        ((Metrics.constructed collector name peaks_requested peaks
          total_peak_territory).after_stream ops header refcache records).side_view.1) := by
  constructor
  · intro m r refcache
    obtain ⟨h1, h2, h3⟩ := Metrics.add_alignment_side_tallies ops m header r refcache
    refine ⟨h1, fun k => ?_, h3⟩
    rw [h2, histogram_count_increment]
  · intro collector name peaks_requested peaks total_peak_territory refcache records
    have ht := add_alignments_total_reads ops header records
      (Metrics.constructed collector name peaks_requested peaks total_peak_territory, refcache)
    have hs := add_alignments_strand_totals ops header records
      (Metrics.constructed collector name peaks_requested peaks total_peak_territory, refcache)
      ⟨rfl, rfl, rfl⟩
    have e0 : (Metrics.constructed collector name peaks_requested peaks
        total_peak_territory).total_reads = 0 := rfl
    unfold Metrics.after_stream
    rw [e0, Nat.zero_add] at ht
    rw [ht] at hs
    refine ⟨hs.1, hs.2.1, hs.2.2, ht, ?_⟩
    unfold Metrics.finalized Metrics.after_stream
    rw [Metrics.side_view_make_aggregate_diagnoses]


/-! ### The top peak counters -/

/-- One round of the loop, seen from one counter with rank cutoff `K`. -/
theorem top_counter_step (K c s a x : Nat) (rest : List Nat) :
    (if rest = [] ∨ K ≤ c + 1 then (if c + 1 ≤ K then s + x else a)
      else s + x + (rest.take (K - (c + 1))).sum) =
    if x :: rest = [] ∨ K ≤ c then a else s + ((x :: rest).take (K - c)).sum := by
  by_cases h1 : K ≤ c
  · have h2 : K ≤ c + 1 := Nat.le_succ_of_le h1
    have h3 : ¬ c + 1 ≤ K := by omega
    simp [h1, h2, h3]
  · by_cases h2 : K ≤ c + 1
    · have h3 : c + 1 ≤ K := by omega
      have h4 : K - c = 1 := by omega
      simp [h1, h2, h3, h4]
    · have h3 : c + 1 ≤ K := by omega
      have h4 : K - c = (K - (c + 1)) + 1 := by omega
      by_cases h5 : rest = []
      · subst h5
        simp [h1, h3, h4]
      · simp only [h5, h2, h1, or_self, if_false, false_or, List.cons_ne_nil]
        rw [h4, List.take_succ_cons, List.sum_cons]
        omega

/-- The loop of `determine_top_peaks` in closed form: every counter with rank
cutoff `K` holds the running sum over the first `K` values met. -/
theorem top_peaks_fold (l : List Nat) (c s a1 a10 a100 a1000 a10000 : Nat) :
    l.foldl top_peaks_step (c, s, a1, a10, a100, a1000, a10000) =
      (c + l.length, s + l.sum,
       if l = [] ∨ 1 ≤ c then a1 else s + (l.take (1 - c)).sum,
       if l = [] ∨ 10 ≤ c then a10 else s + (l.take (10 - c)).sum,
       if l = [] ∨ 100 ≤ c then a100 else s + (l.take (100 - c)).sum,
       if l = [] ∨ 1000 ≤ c then a1000 else s + (l.take (1000 - c)).sum,
       if l = [] ∨ 10000 ≤ c then a10000 else s + (l.take (10000 - c)).sum) := by
  induction l generalizing c s a1 a10 a100 a1000 a10000 with
  | nil => simp
  | cons x rest ih =>
    have e : top_peaks_step (c, s, a1, a10, a100, a1000, a10000) x =
        (c + 1, s + x, if c + 1 = 1 then s + x else a1, if c + 1 ≤ 10 then s + x else a10,
          if c + 1 ≤ 100 then s + x else a100, if c + 1 ≤ 1000 then s + x else a1000,
          if c + 1 ≤ 10000 then s + x else a10000) := rfl
    rw [List.foldl_cons, e, ih]
    have e1 : (c + 1 = 1) = (c + 1 ≤ 1) := by
      apply propext
      omega
    simp only [e1]
    rw [top_counter_step 1, top_counter_step 10, top_counter_step 100, top_counter_step 1000,
      top_counter_step 10000]
    simp only [List.length_cons, List.sum_cons, Prod.mk.injEq, and_true, true_and]
    omega

/-- The loop of `determine_top_peaks` writes the counters as the loop on the
counters alone does, and nothing else. -/
theorem determine_top_peaks_fold (l : List Peak) (c : Nat) (m : Metrics) :
    ((l.foldl determine_top_peaks_step (c, m)).1,
      (l.foldl determine_top_peaks_step (c, m)).2.side_view.2.1) =
      (l.map (fun p => p.overlapping_hqaa)).foldl top_peaks_step (c, m.side_view.2.1) ∧
    (l.foldl determine_top_peaks_step (c, m)).2.peaks = m.peaks := by
  induction l generalizing c m with
  | nil => exact ⟨rfl, rfl⟩
  | cons p rest ih =>
    rw [List.foldl_cons, List.map_cons, List.foldl_cons]
    have e : determine_top_peaks_step (c, m) p =
        ((determine_top_peaks_step (c, m) p).1, (determine_top_peaks_step (c, m) p).2) := rfl
    rw [e]
    obtain ⟨h1, h2⟩ := ih (determine_top_peaks_step (c, m) p).1
      (determine_top_peaks_step (c, m) p).2
    rw [h1, h2]
    exact ⟨rfl, rfl⟩

theorem sum_of_largest_all (n : Nat) (values : List Nat) (h : values.length ≤ n) :
    sum_of_largest n values = values.sum := by
  unfold sum_of_largest
  rw [List.take_of_length_le (by rw [List.length_insertionSort]; exact h)]
  exact (List.perm_insertionSort _ values).sum_eq

theorem foldr_max_perm (l1 l2 : List Nat) (h : l1.Perm l2) :
    l1.foldr max 0 = l2.foldr max 0 := by
  induction h with
  | nil => rfl
  | cons x _ ih => simp [ih]
  | swap x y l => simp only [List.foldr_cons]; omega
  | trans _ _ ih1 ih2 => exact ih1.trans ih2

theorem sum_of_largest_one (values : List Nat) :
    sum_of_largest 1 values = values.foldr max 0 := by
  unfold sum_of_largest
  rw [← foldr_max_perm _ _ (List.perm_insertionSort (fun a b => b ≤ a) values)]
  have hs : (values.insertionSort (fun a b => b ≤ a)).Sorted (fun a b => b ≤ a) :=
    @List.sorted_insertionSort Nat (fun a b => b ≤ a) _
      ⟨fun a b => Nat.le_total b a⟩ ⟨fun a b c h1 h2 => Nat.le_trans h2 h1⟩ values
  generalize values.insertionSort (fun a b => b ≤ a) = l at hs
  cases l with
  | nil => rfl
  | cons x rest =>
    have hx : ∀ y ∈ rest, y ≤ x := (List.sorted_cons.mp hs).1
    have hmax : rest.foldr max 0 ≤ x := by
      clear hs
      induction rest with
      | nil => exact Nat.zero_le _
      | cons y rest ih =>
        simp only [List.foldr_cons]
        have h1 := hx y (List.mem_cons_self _ _)
        have h2 := ih (fun z hz => hx z (List.mem_cons_of_mem _ hz))
        omega
    simp only [List.take_succ_cons, List.take_zero, List.sum_cons, List.sum_nil, List.foldr_cons]
    omega


theorem sum_of_largest_take (n : Nat) (values : List Nat) :
    (if values.insertionSort (fun a b => b ≤ a) = [] ∨ n ≤ 0 then 0
      else 0 + ((values.insertionSort (fun a b => b ≤ a)).take (n - 0)).sum) =
      sum_of_largest n values := by
  unfold sum_of_largest
  by_cases h : values.insertionSort (fun a b => b ≤ a) = []
  · simp [h]
  · by_cases hn : n = 0
    · simp [hn]
    · simp [h, hn]

/-- On an aggregator whose ranking counters are still zero,
`determine_top_peaks` leaves in `hqaa_in_peaks` the sum of all counts and in
each top counter the sum of the largest counts up to its rank cutoff. -/
theorem Metrics.determine_top_peaks_counters (m : Metrics)
    (h0 : m.side_view.2.1 = (0, 0, 0, 0, 0, 0)) :
    m.determine_top_peaks.side_view.2.1 =
      ((m.peaks.all_peaks.map (fun p => p.overlapping_hqaa)).sum,
       sum_of_largest 1 (m.peaks.all_peaks.map (fun p => p.overlapping_hqaa)),
       sum_of_largest 10 (m.peaks.all_peaks.map (fun p => p.overlapping_hqaa)),
       sum_of_largest 100 (m.peaks.all_peaks.map (fun p => p.overlapping_hqaa)),
       sum_of_largest 1000 (m.peaks.all_peaks.map (fun p => p.overlapping_hqaa)),
       sum_of_largest 10000 (m.peaks.all_peaks.map (fun p => p.overlapping_hqaa))) ∧
    m.determine_top_peaks.peaks = m.peaks := by
  unfold Metrics.determine_top_peaks
  obtain ⟨h1, h2⟩ := determine_top_peaks_fold
    m.peaks.list_peaks_by_overlapping_hqaa_descending 0 m
  refine ⟨?_, h2⟩
  have h3 := congrArg Prod.snd h1
  dsimp only at h3
  rw [h3, h0, top_peaks_fold]
  unfold PeakTree.list_peaks_by_overlapping_hqaa_descending
  rw [std_sort_counts]
  dsimp only
  rw [sum_of_largest_take, sum_of_largest_take, sum_of_largest_take, sum_of_largest_take,
    sum_of_largest_take, Nat.zero_add,
    (List.perm_insertionSort (fun a b => b ≤ a) _).sum_eq]

/-- C15: after the stream, `make_aggregate_diagnoses` and the one run of
`determine_top_peaks`, `hqaa_in_peaks` is the sum of the counts of all peaks
and each top-N counter is the sum of the N largest counts (of all counts when
there are no more than N peaks, so 0 without peaks); the top-1 counter is the
largest count.  Counts 1, 5, 3, 5 give top-1 = 5 and top-10 = 14. -/
theorem determine_top_peaks_sums (ops : FeatureOps) (collector : MetricsCollector)
    (name : String) (peaks_requested : Bool) (peaks : PeakTree) (total_peak_territory : Nat)
    (header : Header) (refcache : Refcache) (records : List Record) :
    let done := (Metrics.constructed collector name peaks_requested peaks
      total_peak_territory).completed ops header refcache records
    let counts := done.peaks.all_peaks.map (fun p => p.overlapping_hqaa)
    (done.peaks = ((Metrics.constructed collector name peaks_requested peaks
      total_peak_territory).finalized ops header refcache records).peaks ∧
     done.hqaa_in_peaks = counts.sum ∧
     done.top_peak_hqaa_read_count = sum_of_largest 1 counts ∧
     done.top_10_peak_hqaa_read_count = sum_of_largest 10 counts ∧
     done.top_100_peak_hqaa_read_count = sum_of_largest 100 counts ∧
     done.top_1000_peak_hqaa_read_count = sum_of_largest 1000 counts ∧
     done.top_10000_peak_hqaa_read_count = sum_of_largest 10000 counts) ∧
    (done.top_peak_hqaa_read_count = counts.foldr max 0 ∧
     done.top_10_peak_hqaa_read_count =
       (if counts.length ≤ 10 then counts.sum else sum_of_largest 10 counts) ∧
     done.top_100_peak_hqaa_read_count =
       (if counts.length ≤ 100 then counts.sum else sum_of_largest 100 counts) ∧
     done.top_1000_peak_hqaa_read_count =
       (if counts.length ≤ 1000 then counts.sum else sum_of_largest 1000 counts) ∧
     done.top_10000_peak_hqaa_read_count =
       (if counts.length ≤ 10000 then counts.sum else sum_of_largest 10000 counts)) ∧
    (sum_of_largest 1 [] = 0 ∧ sum_of_largest 10 [] = 0 ∧ sum_of_largest 100 [] = 0 ∧
     sum_of_largest 1000 [] = 0 ∧ sum_of_largest 10000 [] = 0) ∧
    ((Metrics.constructed Sample.collector "sample" true Sample.ranked_peaks
        0).determine_top_peaks.top_peak_hqaa_read_count = 5 ∧
     (Metrics.constructed Sample.collector "sample" true Sample.ranked_peaks
        0).determine_top_peaks.top_10_peak_hqaa_read_count = 14 ∧
     (Metrics.constructed Sample.collector "sample" true Sample.ranked_peaks
        0).determine_top_peaks.hqaa_in_peaks = 14) := by
  intro done counts
  have h0 : ((Metrics.constructed collector name peaks_requested peaks
      total_peak_territory).finalized ops header refcache records).side_view.2.1 =
      (0, 0, 0, 0, 0, 0) := by
    rw [Metrics.side_view_finalized]
    rfl
  obtain ⟨h1, h2⟩ := Metrics.determine_top_peaks_counters _ h0
  have hp : done.peaks = ((Metrics.constructed collector name peaks_requested peaks
      total_peak_territory).finalized ops header refcache records).peaks := h2
  rw [← hp] at h1
  simp only [Metrics.side_view, Prod.mk.injEq] at h1
  obtain ⟨e0, e1, e2, e3, e4, e5⟩ := h1
  have f0 : done.hqaa_in_peaks = counts.sum := e0
  have f1 : done.top_peak_hqaa_read_count = sum_of_largest 1 counts := e1
  have f2 : done.top_10_peak_hqaa_read_count = sum_of_largest 10 counts := e2
  have f3 : done.top_100_peak_hqaa_read_count = sum_of_largest 100 counts := e3
  have f4 : done.top_1000_peak_hqaa_read_count = sum_of_largest 1000 counts := e4
  have f5 : done.top_10000_peak_hqaa_read_count = sum_of_largest 10000 counts := e5
  have hall : ∀ n, sum_of_largest n counts =
      (if counts.length ≤ n then counts.sum else sum_of_largest n counts) := by
    intro n
    by_cases h : counts.length ≤ n
    · rw [if_pos h, sum_of_largest_all n counts h]
    · rw [if_neg h]
  refine ⟨⟨hp, f0, f1, f2, f3, f4, f5⟩, ⟨?_, ?_, ?_, ?_, ?_⟩, ⟨rfl, rfl, rfl, rfl, rfl⟩,
    ⟨by decide, by decide, by decide⟩⟩
  · rw [f1, sum_of_largest_one]
  · rw [f2]; exact hall 10
  · rw [f3]; exact hall 100
  · rw [f4]; exact hall 1000
  · rw [f5]; exact hall 10000


/-! ### The autosomal and mitochondrial totals -/

theorem Metrics.reference_view_log_if (m : Metrics) (problem : String)
    (subject : ProblemSubject) : (m.log_if problem subject).reference_view = m.reference_view :=
  Metrics.log_if_frame (fun m => m.reference_view) (fun _ _ => rfl) m problem subject

/-- The autosomal / mitochondrial block in closed form. -/
theorem Metrics.reference_view_add_alignment_reference (m : Metrics) (header : Header)
    (r : Record) (refcache : Refcache) :
    (m.add_alignment_reference header r refcache).1.reference_view =
      (m.total_autosomal_reads +
        (if 0 ≤ r.tid ∧ (m.collector.is_autosomal (header.name_of r.tid) refcache).1 = true
          then 1 else 0),
       m.duplicate_autosomal_reads +
        (if 0 ≤ r.tid ∧ (m.collector.is_autosomal (header.name_of r.tid) refcache).1 = true ∧
          IS_DUP r = true then 1 else 0),
       m.total_mitochondrial_reads +
        (if 0 ≤ r.tid ∧ (m.collector.is_autosomal (header.name_of r.tid) refcache).1 = false ∧
          m.collector.is_mitochondrial (header.name_of r.tid) = true then 1 else 0),
       m.duplicate_mitochondrial_reads +
        (if 0 ≤ r.tid ∧ (m.collector.is_autosomal (header.name_of r.tid) refcache).1 = false ∧
          m.collector.is_mitochondrial (header.name_of r.tid) = true ∧ IS_DUP r = true
          then 1 else 0)) := by
  unfold Metrics.add_alignment_reference Metrics.is_autosomal Metrics.is_mitochondrial
  dsimp only
  by_cases h1 : r.tid ≥ 0
  · have h1' : 0 ≤ r.tid := h1
    rw [if_pos h1]
    by_cases h2 : (m.collector.is_autosomal (header.name_of r.tid) refcache).1 = true
    · rw [if_pos h2]
      cases hd : IS_DUP r <;> simp [Metrics.reference_view, h1', h2, bump]
    · rw [if_neg h2]
      by_cases h3 : m.collector.is_mitochondrial (header.name_of r.tid) = true
      · rw [if_pos h3]
        cases hd : IS_DUP r <;> simp [Metrics.reference_view, h1', h2, h3, bump]
      · rw [if_neg h3]
        simp [Metrics.reference_view, h2, h3]
  · have h1' : ¬ 0 ≤ r.tid := h1
    rw [if_neg h1]
    simp [Metrics.reference_view, h1']

theorem Metrics.reference_view_add_alignment_original (ops : FeatureOps) (m : Metrics)
    (header : Header) (r : Record) (n : Nat) (refcache : Refcache) :
    (m.add_alignment_original ops header r n refcache).1.reference_view = m.reference_view := by
  obtain ⟨_, _, _, _, _, _, _, h⟩ := Metrics.add_alignment_original_shape ops m header r n refcache
  rw [h]
  rfl

theorem Metrics.reference_view_after_reference (ops : FeatureOps) (m : Metrics)
    (header : Header) (r : Record) (n : Nat) (refcache : Refcache) :
    (if IS_ORIGINAL r then
        (m.add_alignment_reference header r refcache).1.add_alignment_original ops header r n
          (m.add_alignment_reference header r refcache).2
      else m.add_alignment_reference header r refcache).1.reference_view =
      (m.add_alignment_reference header r refcache).1.reference_view := by
  by_cases ho : IS_ORIGINAL r = true
  · rw [if_pos ho, Metrics.reference_view_add_alignment_original]
  · rw [if_neg ho]

theorem Metrics.reference_view_add_alignment_proper (ops : FeatureOps) (m : Metrics)
    (header : Header) (r : Record) (n : Nat) (refcache : Refcache) :
    (m.add_alignment_proper ops header r n refcache).1.reference_view =
      (m.add_alignment_reference header r refcache).1.reference_view := by
  unfold Metrics.add_alignment_proper
  dsimp only
  rw [Metrics.reference_view_after_reference, Metrics.reference_view_add_alignment_reference,
    Metrics.reference_view_add_alignment_reference]

/-- The four counters move in the properly paired branch only, and there as
the autosomal / mitochondrial block moves them. -/
theorem Metrics.reference_view_add_alignment (ops : FeatureOps) (m : Metrics) (header : Header)
    (r : Record) (refcache : Refcache) :
    (m.add_alignment ops header r refcache).1.reference_view =
      if reaches_proper r then (m.add_alignment_reference header r refcache).1.reference_view
      else m.reference_view := by
  unfold Metrics.add_alignment reaches_proper
  dsimp only
  by_cases h1 : IS_QCFAIL r = true
  · rw [if_pos h1, Metrics.reference_view_log_if]; simp [h1]; rfl
  rw [if_neg h1]
  by_cases h2 : (!IS_PAIRED r) = true
  · rw [if_pos h2, Metrics.reference_view_log_if]
    simp only [Bool.not_eq_true', ] at h2
    simp [h2]; rfl
  rw [if_neg h2]
  by_cases h3 : IS_UNMAPPED r = true
  · rw [if_pos h3, Metrics.reference_view_log_if]; simp [h3]; rfl
  rw [if_neg h3]
  by_cases h4 : IS_MATE_UNMAPPED r = true
  · rw [if_pos h4, Metrics.reference_view_log_if]; simp [h4]; rfl
  rw [if_neg h4]
  by_cases h5 : is_rf r = true
  · rw [if_pos h5, Metrics.reference_view_log_if]; simp [h5]; rfl
  rw [if_neg h5]
  by_cases h6 : is_ff r = true
  · rw [if_pos h6, Metrics.reference_view_log_if]; simp [h6]; rfl
  rw [if_neg h6]
  by_cases h7 : is_rr r = true
  · rw [if_pos h7, Metrics.reference_view_log_if]; simp [h7]; rfl
  rw [if_neg h7]
  by_cases h8 : r.qual = 0
  · rw [if_pos h8, Metrics.reference_view_log_if]; simp [h8]; rfl
  rw [if_neg h8]
  by_cases h9 : IS_PAIRED_AND_MAPPED r = true
  swap
  · rw [if_neg h9, Metrics.reference_view_log_if]; simp [h9]; rfl
  rw [if_pos h9]
  by_cases h10 : IS_PROPERLYPAIRED r = true
  · rw [if_pos h10, Metrics.reference_view_add_alignment_proper]
    simp only [Bool.not_eq_true', Bool.not_eq_true] at h1 h2 h3 h4 h5 h6 h7
    simp only [Bool.not_eq_false] at h2
    simp only [h1, h2, h3, h4, h5, h6, h7, h8, h9, h10, Bool.not_false, Bool.and_self,
      decide_False, if_true]
    rw [Metrics.reference_view_add_alignment_reference,
      Metrics.reference_view_add_alignment_reference]
    rfl
  rw [if_neg h10]
  by_cases h11 : r.tid ≠ r.mtid
  · rw [if_pos h11, Metrics.reference_view_log_if]; simp [h10]; rfl
  · rw [if_neg h11, Metrics.reference_view_log_if]; simp [h10]; rfl


/-- C17, as stated, fails: `Sample.proper_secondary` reaches the properly
paired branch as a secondary alignment (not "original") on the autosomal
reference chr1, and `add_alignment` raises `total_autosomal_reads` for it. -/
theorem secondary_record_counts_as_autosomal :
    reaches_proper Sample.proper_secondary = true ∧
    IS_SECONDARY Sample.proper_secondary = true ∧
    IS_ORIGINAL Sample.proper_secondary = false ∧
    (Metrics.fresh Sample.collector "rg").total_autosomal_reads = 0 ∧
    ((Metrics.fresh Sample.collector "rg").add_alignment Sample.ops Sample.header
      Sample.proper_secondary []).1.total_autosomal_reads = 1 := by
  refine ⟨?_, ?_, ?_, ?_, ?_⟩ <;> decide

/-- C17, amended. `add_alignment` moves the four autosomal / mitochondrial
counters for a record iff the record reaches the properly paired branch and its
reference id is not negative, whether or not the alignment is "original":
`total_autosomal_reads` rises by one when `is_autosomal` holds of the
reference name, otherwise `total_mitochondrial_reads` rises by one when
`is_mitochondrial` holds of it, and the duplicate counter of the total that
rises rises with it iff the record is flagged duplicate. -/
theorem reference_totals_of_proper_record (ops : FeatureOps) (m : Metrics) (header : Header)
    (r : Record) (refcache : Refcache) :
    (m.add_alignment ops header r refcache).1.reference_view =
      if reaches_proper r then
        (m.total_autosomal_reads +
          (if 0 ≤ r.tid ∧ (m.is_autosomal (header.name_of r.tid) refcache).1 = true
            then 1 else 0),
         m.duplicate_autosomal_reads +
          (if 0 ≤ r.tid ∧ (m.is_autosomal (header.name_of r.tid) refcache).1 = true ∧
            IS_DUP r = true then 1 else 0),
         m.total_mitochondrial_reads +
          (if 0 ≤ r.tid ∧ (m.is_autosomal (header.name_of r.tid) refcache).1 = false ∧
            m.is_mitochondrial (header.name_of r.tid) = true then 1 else 0),
         m.duplicate_mitochondrial_reads +
          (if 0 ≤ r.tid ∧ (m.is_autosomal (header.name_of r.tid) refcache).1 = false ∧
            m.is_mitochondrial (header.name_of r.tid) = true ∧ IS_DUP r = true
            then 1 else 0))
      else m.reference_view := by
  rw [Metrics.reference_view_add_alignment, Metrics.reference_view_add_alignment_reference]
  rfl


/-! ### Peaks that the scan misses -/

/-- The binary search of `std::upper_bound` over two elements. -/
theorem upper_bound_pair (ops : FeatureOps) (value : Feature) (a b : Peak) :
    upper_bound ops [a, b] value =
      if ops.lt value b then (if ops.lt value a then 0 else 1) else 2 := by
  cases h1 : ops.lt value b <;> cases h2 : ops.lt value a <;>
    simp [upper_bound, upper_bound_loop, h1, h2]

/-- An increment on a tree that holds two peaks, both in the reference of the
feature. -/
theorem increment_pair (ops : FeatureOps) (hqaa : Feature) (a b : Peak)
    (c : ReferencePeakCollection) (hc : c.peaks = [a, b]) (hov : c.overlaps hqaa = true) :
    (PeakTree.increment_overlapping_hqaa ops { tree := [(hqaa.reference, c)] } hqaa).all_peaks =
      [a, b].take (if ops.lt hqaa b then (if ops.lt hqaa a then 0 else 1) else 2) ++
        increment_while_overlapping hqaa
          ([a, b].drop (if ops.lt hqaa b then (if ops.lt hqaa a then 0 else 1) else 2)) := by
  simp only [PeakTree.increment_overlapping_hqaa, PeakTree.all_peaks, tree_update,
    string_lt_irrefl, ReferencePeakCollection.increment_overlapping_hqaa, hov, hc,
    upper_bound_pair, if_true, List.flatMap_cons, List.flatMap_nil, List.append_nil]
  simp

theorem near_far_tree_eq :
    Sample.near_far_tree =
      { tree := [(Sample.inner_feature.reference,
          { reference := "chr1", start := 100, end_ := 1100,
            peaks := [Sample.peak "A" 100 200, Sample.peak "B" 1000 1100] })] } := by
  decide

theorem far_near_tree_eq :
    Sample.far_near_tree =
      { tree := [(Sample.inner_feature.reference,
          { reference := "chr1", start := 100, end_ := 1100,
            peaks := [Sample.peak "B" 1000 1100, Sample.peak "A" 100 200] })] } := by
  decide

/-- C11 (the code does otherwise): the feature chr1:150-160 overlaps the peak
A = chr1:100-200 and not the peak B = chr1:1000-1100, so the count of A should
become 1.  Whatever comparison `std::upper_bound` is given, after one of the
two orders of loading A and B the increment leaves both counts at 0; with the
comparison by start coordinate it does so for the peaks loaded in ascending
order, and for the peak A loaded alone. -/
theorem increment_misses_overlapping_peak :
    ((Sample.peak "A" 100 200).toFeature.overlaps Sample.inner_feature = true ∧
      (Sample.peak "B" 1000 1100).toFeature.overlaps Sample.inner_feature = false ∧
      overlap_count [Sample.inner_feature] (Sample.peak "A" 100 200) = 1) ∧
    (∀ ops : FeatureOps,
      (Sample.near_far_tree.increment_overlapping_hqaa ops Sample.inner_feature).all_peaks.map
          (fun p => p.overlapping_hqaa) = [0, 0] ∨
      (Sample.far_near_tree.increment_overlapping_hqaa ops Sample.inner_feature).all_peaks.map
          (fun p => p.overlapping_hqaa) = [0, 0]) ∧
    (Sample.near_far_tree.increment_overlapping_hqaa Sample.ops
        Sample.inner_feature).all_peaks.map (fun p => p.overlapping_hqaa) = [0, 0] ∧
    (((PeakTree.add { tree := [] } (Sample.peak "A" 100 200)).1.increment_overlapping_hqaa
        Sample.ops Sample.inner_feature).all_peaks.map (fun p => p.overlapping_hqaa) = [0]) := by
  refine ⟨⟨by decide, by decide, by decide⟩, fun ops => ?_, by decide, by decide⟩
  rw [near_far_tree_eq, far_near_tree_eq, increment_pair ops _ _ _ _ rfl (by decide),
    increment_pair ops _ _ _ _ rfl (by decide)]
  cases h1 : ops.lt Sample.inner_feature (Sample.peak "B" 1000 1100) <;>
    cases h2 : ops.lt Sample.inner_feature (Sample.peak "A" 100 200)
  · exact Or.inl (by decide)
  · exact Or.inl (by decide)
  · exact Or.inl (by decide)
  · exact Or.inr (by decide)


/-! ### Loading peaks -/

theorem ReferencePeakCollection.add_throws (c : ReferencePeakCollection) (peak : Peak)
    (h : c.reference = peak.reference ∨ c.reference = "") : (c.add peak).2 = false := by
  unfold ReferencePeakCollection.add
  dsimp only
  have h' : ¬ (c.reference ≠ peak.reference ∧ c.reference ≠ "") := by
    rintro ⟨h1, h2⟩
    rcases h with h | h
    · exact h1 h
    · exact h2 h
  rw [if_neg h']

theorem ReferencePeakCollection.add_reference (c : ReferencePeakCollection) (peak : Peak)
    (h : c.reference = peak.reference ∨ c.reference = "") :
    (c.add peak).1.reference = peak.reference := by
  unfold ReferencePeakCollection.add
  dsimp only
  have h' : ¬ (c.reference ≠ peak.reference ∧ c.reference ≠ "") := by
    rintro ⟨h1, h2⟩
    rcases h with h | h
    · exact h1 h
    · exact h2 h
  rw [if_neg h']
  by_cases h1 : c.reference = peak.reference
  · have h1' : ¬ c.reference ≠ peak.reference := fun e => e h1
    simp only [h1', if_false]
    split_ifs <;> exact h1
  · have h1' : c.reference ≠ peak.reference := h1
    simp only [h1', if_true]
    split_ifs <;> rfl

theorem PeakTree.add_well_named (t : PeakTree) (peak : Peak) (h : t.well_named) :
    (t.add peak).2 = false ∧ (t.add peak).1.well_named := by
  refine ⟨ReferencePeakCollection.add_throws _ _ (h peak.reference), fun name => ?_⟩
  unfold PeakTree.add
  dsimp only
  by_cases hn : name = peak.reference
  · rw [hn, tree_find_update_same]
    exact Or.inl (ReferencePeakCollection.add_reference _ _ (h peak.reference))
  · rw [tree_find_update_other name peak.reference hn]
    exact h name

theorem tree_update_append_perm (name : String) (p : Peak)
    (f : ReferencePeakCollection → ReferencePeakCollection)
    (hf : ∀ c, (f c).peaks = c.peaks ++ [p]) (l : List (String × ReferencePeakCollection)) :
    ((tree_update name f l).flatMap (fun e => e.2.peaks)).Perm
      (l.flatMap (fun e => e.2.peaks) ++ [p]) := by
  induction l with
  | nil => simp [tree_update, hf, ReferencePeakCollection.empty]
  | cons e rest ih =>
    obtain ⟨n, c⟩ := e
    unfold tree_update
    by_cases h1 : string_lt name n = true
    · rw [if_pos h1]
      simp only [List.flatMap_cons, hf, ReferencePeakCollection.empty, List.nil_append]
      exact List.perm_append_comm
    · rw [if_neg h1]
      by_cases h2 : name = n
      · rw [if_pos h2]
        simp only [List.flatMap_cons, hf, List.append_assoc]
        exact List.Perm.append_left _ List.perm_append_comm
      · rw [if_neg h2]
        simp only [List.flatMap_cons, List.append_assoc]
        exact List.Perm.append_left _ ih

theorem PeakTree.add_all_peaks (t : PeakTree) (peak : Peak) :
    (t.add peak).1.all_peaks.Perm (t.all_peaks ++ [peak]) :=
  tree_update_append_perm peak.reference peak _
    (fun c => ReferencePeakCollection.add_peaks c peak) t.tree

/-- With a reference cache that holds only answers of this collector and a
tree in which every collection is filed under its own name, the loop of
`load_peaks` ends without an exception and adds to the tree the peaks it read
that pass the test, and no other. -/
theorem Metrics.load_peaks_loop_kept (peak_file : List PeakLine) (peak : Peak) (m : Metrics)
    (refcache : Refcache) (hc : Refcache.consistent m.collector refcache = true)
    (hn : m.peaks.well_named) :
    ∃ s, Metrics.load_peaks_loop peak_file peak m refcache = Except.ok s ∧
      s.1.peaks.all_peaks.Perm
        (m.peaks.all_peaks ++
          (peaks_read peak peak_file).filter (fun p => m.collector.keeps_peak p.toFeature)) := by
  induction peak_file generalizing peak m refcache with
  | nil => exact ⟨(m, refcache), rfl, by simp [peaks_read]⟩
  | cons line rest ih =>
    obtain ⟨ha, hc'⟩ := Refcache.consistent_is_autosomal m.collector
      (Peak.read peak line).reference refcache hc
    have er : peaks_read peak (line :: rest) =
        Peak.read peak line :: peaks_read (Peak.read peak line) rest := rfl
    rw [er]
    unfold Metrics.load_peaks_loop
    dsimp only
    unfold Metrics.is_autosomal
    generalize Peak.read peak line = p at ha hc' ⊢
    rw [ha]
    by_cases h1 : m.collector.autosomal_reference p.reference = true
    · have h1' : ¬ (!m.collector.autosomal_reference p.reference) = true := by simp [h1]
      rw [if_neg h1']
      by_cases h2 : m.collector.excluded_regions.any (fun er => p.toFeature.overlaps er) = true
      · have h2' : ¬ (!m.collector.excluded_regions.any
            (fun er => p.toFeature.overlaps er)) = true := by
          simp only [h2, Bool.not_true]
          exact Bool.false_ne_true
        rw [if_neg h2']
        have hk : m.collector.keeps_peak p.toFeature = false := by
          unfold MetricsCollector.keeps_peak
          rw [h2]
          simp
        rw [List.filter_cons_of_neg (by rw [hk]; exact Bool.false_ne_true)]
        exact ih p m _ hc' hn
      · have h2' : (!m.collector.excluded_regions.any
            (fun er => p.toFeature.overlaps er)) = true := by
          simpa using h2
        rw [if_pos h2']
        obtain ⟨ht, hw⟩ := PeakTree.add_well_named m.peaks p hn
        rw [ht]
        have hk : m.collector.keeps_peak p.toFeature = true := by
          unfold MetricsCollector.keeps_peak
          rw [h1, h2']
          rfl
        rw [List.filter_cons_of_pos (by exact hk)]
        obtain ⟨s, hs, hp⟩ := ih p
          { m with
            peaks := (m.peaks.add p).1
            total_peak_territory := m.total_peak_territory + p.toFeature.size }
          (m.collector.is_autosomal p.reference refcache).2 hc' hw
        refine ⟨s, ?_, ?_⟩
        · simpa using hs
        · refine hp.trans ?_
          dsimp only
          refine ((PeakTree.add_all_peaks m.peaks p).append_right _).trans ?_
          simp
    · have h1' : (!m.collector.autosomal_reference p.reference) = true := by simpa using h1
      rw [if_pos h1']
      have hk : m.collector.keeps_peak p.toFeature = false := by
        unfold MetricsCollector.keeps_peak
        simp [h1]
      rw [List.filter_cons_of_neg (by rw [hk]; exact Bool.false_ne_true)]
      exact ih p m _ hc' hn

theorem Feature.contained_in_overlaps (f region : Feature) (h : f.contained_in region) :
    f.overlaps region = true := by
  obtain ⟨h1, h2, h3, h4⟩ := h
  unfold Feature.overlaps
  simp only [Bool.and_eq_true, beq_iff_eq, decide_eq_true_eq]
  exact ⟨⟨h1, Nat.le_trans h3 h4⟩, Nat.le_trans h2 h3⟩

/-- From a file whose lines all parse, the peaks read are the lines, whatever
the variable held before. -/
theorem peaks_read_full (peak : Peak) (features : List Feature) :
    peaks_read peak (features.map PeakLine.full) =
      features.map (fun f => Peak.read peak (PeakLine.full f)) := by
  induction features generalizing peak with
  | nil => rfl
  | cons f rest ih =>
    rw [List.map_cons, List.map_cons]
    have er : peaks_read peak (PeakLine.full f :: rest.map PeakLine.full) =
        Peak.read peak (PeakLine.full f) ::
          peaks_read (Peak.read peak (PeakLine.full f)) (rest.map PeakLine.full) := rfl
    rw [er, ih]
    rfl

/-- The constructor's `load_peaks` on any peak file: it ends without an
exception, the tree holds the peaks read that pass the test, and the territory
is the sum of their sizes. -/
theorem Metrics.new_kept (collector : MetricsCollector) (name : String) (peak : Peak)
    (peak_file : List PeakLine) (refcache : Refcache) (hf : collector.peak_filename ≠ "")
    (hc : Refcache.consistent collector refcache = true) :
    ∃ s, Metrics.new collector name peak peak_file refcache = Except.ok s ∧
      s.1.peaks.all_peaks.Perm
        ((peaks_read peak peak_file).filter (fun p => collector.keeps_peak p.toFeature)) ∧
      s.1.total_peak_territory =
        (((peaks_read peak peak_file).filter (fun p => collector.keeps_peak p.toFeature)).map
          (fun p => p.toFeature.size)).sum := by
  have hw : (Metrics.constructed collector name true { tree := [] } 0).peaks.well_named :=
    fun _ => Or.inr rfl
  obtain ⟨s, hs, hp⟩ := Metrics.load_peaks_loop_kept peak_file peak
    (Metrics.constructed collector name true { tree := [] } 0) refcache hc hw
  have hnew : Metrics.new collector name peak peak_file refcache = Except.ok s := by
    unfold Metrics.new Metrics.load_peaks
    rw [if_pos hf]
    have hf' : ¬ ({ Metrics.fresh collector name with
        peaks_requested := true }).collector.peak_filename = "" := hf
    rw [if_neg hf']
    exact hs
  have hp' : s.1.peaks.all_peaks.Perm
      ((peaks_read peak peak_file).filter (fun p => collector.keeps_peak p.toFeature)) := by
    simpa [Metrics.constructed, Metrics.fresh, PeakTree.all_peaks] using hp
  refine ⟨s, hnew, hp', ?_⟩
  rw [Metrics.new_territory collector name peak peak_file refcache s hnew,
    (hp'.map (fun p => p.toFeature.size)).sum_eq]

theorem Peak.read_full_injective (peak : Peak) (a b : Feature)
    (h : Peak.read peak (PeakLine.full a) = Peak.read peak (PeakLine.full b)) : a = b := by
  have := congrArg Peak.toFeature h
  exact this

theorem MetricsCollector.keeps_peak_contained (collector : MetricsCollector)
    (line region : Feature) (hr : region ∈ collector.excluded_regions)
    (hcont : line.contained_in region) : collector.keeps_peak line = false := by
  unfold MetricsCollector.keeps_peak
  have : collector.excluded_regions.any (fun er => line.overlaps er) = true :=
    List.any_eq_true.mpr ⟨region, hr, Feature.contained_in_overlaps line region hcont⟩
  rw [this]
  simp

/-- C16 fails on a peak file with a line that does not parse.  `operator>>`
leaves the members that a line does not assign as the line before set them and
still returns the stream in a good state, and `load_peaks` tests and adds the
variable `peak` once per line read.  On the file `Sample.mixed_peak_lines`,
whose input peaks are those of `Sample.mixed_peak_file` with an empty line
after the first and one at the end, the tree ends with each of the two peaks
that pass the test twice and the territory is 260, where the input peaks that
pass the test have sizes that sum to 130.  In general, when the collector
names a peak file and the reference cache holds only answers of this
collector, the constructor's `load_peaks` ends without an exception, the tree
holds the peaks read (one per line, the repeated ones included) that are
autosomal and overlap no excluded region, the territory is the sum of their
sizes, and no peak of the tree lies within an excluded region; on a file whose
lines all parse the peaks read are the lines, so the tree holds exactly the
lines that pass the test and the territory is the sum of their sizes. -/
theorem load_peaks_adds_peak_again_on_blank_line :
    (Metrics.new Sample.excluding_collector "rg" Sample.unread_peak Sample.mixed_peak_lines [] =
        Except.ok
          (Metrics.constructed Sample.excluding_collector "rg" true Sample.twice_loaded_peaks 260,
            [("chr2", true), ("chrM", false), ("chr1", true)]) ∧
      Sample.twice_loaded_peaks.all_peaks.map (fun p => p.name) =
        ["kept1", "kept1", "kept2", "kept2"] ∧
      Sample.mixed_peak_lines.filter (fun line => decide (line ≠ PeakLine.blank)) =
        Sample.mixed_peak_file.map PeakLine.full ∧
      (Sample.mixed_peak_file.filter Sample.excluding_collector.keeps_peak).map
        (fun line => line.name) = ["kept1", "kept2"] ∧
      ((Sample.mixed_peak_file.filter Sample.excluding_collector.keeps_peak).map
        Feature.size).sum = 130) ∧
    (∀ (peak : Peak) (line : PeakLine),
      (Peak.read peak line).reference = line.reference.getD peak.reference ∧
      (Peak.read peak line).start = line.start.getD peak.start ∧
      (Peak.read peak line).end_ = line.end_.getD peak.end_ ∧
      (Peak.read peak line).name = line.name.getD peak.name) ∧
    (∀ peak : Peak, Peak.read peak PeakLine.blank = { peak with overlapping_hqaa := 0 }) ∧
    (∀ (collector : MetricsCollector) (name : String) (peak : Peak) (peak_file : List PeakLine)
      (refcache : Refcache), collector.peak_filename ≠ "" →
      Refcache.consistent collector refcache = true →
      ∃ s, Metrics.new collector name peak peak_file refcache = Except.ok s ∧
        s.1.peaks.all_peaks.Perm
          ((peaks_read peak peak_file).filter (fun p => collector.keeps_peak p.toFeature)) ∧
        s.1.total_peak_territory =
          (((peaks_read peak peak_file).filter (fun p => collector.keeps_peak p.toFeature)).map
            (fun p => p.toFeature.size)).sum ∧
        (∀ p ∈ s.1.peaks.all_peaks, ∀ region ∈ collector.excluded_regions,
          ¬ p.toFeature.contained_in region)) ∧
    (∀ (collector : MetricsCollector) (name : String) (peak : Peak) (features : List Feature)
      (refcache : Refcache), collector.peak_filename ≠ "" →
      Refcache.consistent collector refcache = true →
      ∃ s, Metrics.new collector name peak (features.map PeakLine.full) refcache = Except.ok s ∧
        s.1.peaks.all_peaks.Perm
          ((features.filter collector.keeps_peak).map
            (fun line => Peak.read peak (PeakLine.full line))) ∧
        s.1.total_peak_territory =
          ((features.filter collector.keeps_peak).map Feature.size).sum ∧
        (∀ line region : Feature, region ∈ collector.excluded_regions →
          line.contained_in region →
            collector.keeps_peak line = false ∧
              Peak.read peak (PeakLine.full line) ∉ s.1.peaks.all_peaks)) := by
  refine ⟨⟨rfl, by decide, by decide, by decide, by decide⟩,
    fun _ _ => ⟨rfl, rfl, rfl, rfl⟩, fun _ => rfl, ?_, ?_⟩
  · intro collector name peak peak_file refcache hf hc
    obtain ⟨s, hnew, hp, ht⟩ := Metrics.new_kept collector name peak peak_file refcache hf hc
    refine ⟨s, hnew, hp, ht, ?_⟩
    intro p hmem region hr hcont
    have hk := (List.mem_filter.mp (hp.subset hmem)).2
    rw [MetricsCollector.keeps_peak_contained collector _ region hr hcont] at hk
    exact Bool.false_ne_true hk
  · intro collector name peak features refcache hf hc
    obtain ⟨s, hnew, hp, ht⟩ := Metrics.new_kept collector name peak
      (features.map PeakLine.full) refcache hf hc
    have hfull : (peaks_read peak (features.map PeakLine.full)).filter
        (fun p => collector.keeps_peak p.toFeature) =
        (features.filter collector.keeps_peak).map
          (fun line => Peak.read peak (PeakLine.full line)) := by
      rw [peaks_read_full, List.filter_map]
      rfl
    rw [hfull] at hp ht
    refine ⟨s, hnew, hp, ?_, ?_⟩
    · rw [ht, List.map_map]
      rfl
    · intro line region hr hcont
      have hk := MetricsCollector.keeps_peak_contained collector line region hr hcont
      refine ⟨hk, fun hmem => ?_⟩
      have hmem' := hp.subset hmem
      rw [List.mem_map] at hmem'
      obtain ⟨other, hl, he⟩ := hmem'
      rw [Peak.read_full_injective peak _ _ he] at hl
      have := (List.mem_filter.mp hl).2
      rw [hk] at this
      exact Bool.false_ne_true this

/-- The peak file of `Sample.mixed_peak_file`, whose lines all parse: the two
autosomal peaks outside the excluded region chr1:1000-2000 are loaded, with
territory 100 + 30.  The same peaks with two empty lines among them: four
peaks are loaded, with territory 260. -/
theorem load_peaks_adds_peak_again_on_blank_line_witness :
    Sample.excluding_collector.peak_filename ≠ "" ∧
    Refcache.consistent Sample.excluding_collector [] = true ∧
    (∃ s, Metrics.new Sample.excluding_collector "rg" Sample.unread_peak
        (Sample.mixed_peak_file.map PeakLine.full) [] = Except.ok s ∧
      s.1.peaks.all_peaks.Perm
        ((Sample.mixed_peak_file.filter Sample.excluding_collector.keeps_peak).map
          (fun line => Peak.read Sample.unread_peak (PeakLine.full line))) ∧
      s.1.total_peak_territory =
        ((Sample.mixed_peak_file.filter Sample.excluding_collector.keeps_peak).map
          Feature.size).sum ∧
      (∀ line region : Feature, region ∈ Sample.excluding_collector.excluded_regions →
        line.contained_in region →
          Sample.excluding_collector.keeps_peak line = false ∧
            Peak.read Sample.unread_peak (PeakLine.full line) ∉ s.1.peaks.all_peaks)) ∧
    (∃ s, Metrics.new Sample.excluding_collector "rg" Sample.unread_peak
        Sample.mixed_peak_lines [] = Except.ok s ∧
      s.1.peaks.all_peaks.Perm
        ((peaks_read Sample.unread_peak Sample.mixed_peak_lines).filter
          (fun p => Sample.excluding_collector.keeps_peak p.toFeature)) ∧
      s.1.total_peak_territory =
        (((peaks_read Sample.unread_peak Sample.mixed_peak_lines).filter
          (fun p => Sample.excluding_collector.keeps_peak p.toFeature)).map
            (fun p => p.toFeature.size)).sum ∧
      (∀ p ∈ s.1.peaks.all_peaks, ∀ region ∈ Sample.excluding_collector.excluded_regions,
        ¬ p.toFeature.contained_in region)) ∧
    ((peaks_read Sample.unread_peak Sample.mixed_peak_lines).filter
      (fun p => Sample.excluding_collector.keeps_peak p.toFeature)).map (fun p => p.name) =
        ["kept1", "kept1", "kept2", "kept2"] :=
  ⟨by decide, rfl,
    load_peaks_adds_peak_again_on_blank_line.2.2.2.2 Sample.excluding_collector "rg"
      Sample.unread_peak Sample.mixed_peak_file [] (by decide) rfl,
    load_peaks_adds_peak_again_on_blank_line.2.2.2.1 Sample.excluding_collector "rg"
      Sample.unread_peak Sample.mixed_peak_lines [] (by decide) rfl,
    by decide⟩

/-! ### The problem log -/

theorem Metrics.erase_log_log_if (m : Metrics) (problem : String) (subject : ProblemSubject) :
    (m.log_if problem subject).erase_log = m.erase_log :=
  Metrics.log_if_frame (fun m => m.erase_log) (fun _ _ => rfl) m problem subject

theorem Metrics.log_if_erase_log (m : Metrics) (problem : String) (subject : ProblemSubject) :
    (m.erase_log).log_if problem subject = m.erase_log := rfl


theorem Metrics.erase_log_add_alignment_reference (m : Metrics) (header : Header) (r : Record)
    (refcache : Refcache) :
    (m.erase_log).add_alignment_reference header r refcache =
      ((m.add_alignment_reference header r refcache).1.erase_log,
        (m.add_alignment_reference header r refcache).2) := by
  have ha : ∀ name, (m.erase_log).is_autosomal name refcache = m.is_autosomal name refcache :=
    fun _ => rfl
  have hm : ∀ name, (m.erase_log).is_mitochondrial name = m.is_mitochondrial name :=
    fun _ => rfl
  unfold Metrics.add_alignment_reference
  dsimp only
  rw [ha, hm]
  by_cases h1 : r.tid ≥ 0
  · simp only [if_pos h1]
    by_cases h2 : (m.is_autosomal (header.name_of r.tid) refcache).1 = true
    · simp only [if_pos h2]
      rfl
    · simp only [if_neg h2]
      by_cases h3 : m.is_mitochondrial (header.name_of r.tid) = true
      · simp only [if_pos h3]
        rfl
      · simp only [if_neg h3]
  · simp only [if_neg h1]

theorem Metrics.erase_log_add_alignment_original (ops : FeatureOps) (m : Metrics)
    (header : Header) (r : Record) (n : Nat) (refcache : Refcache) :
    (m.erase_log).add_alignment_original ops header r n refcache =
      ((m.add_alignment_original ops header r n refcache).1.erase_log,
        (m.add_alignment_original ops header r n refcache).2) := by
  have hc : ∀ (f : List (Nat × Nat)) (c : Nat),
      Metrics.is_hqaa { m with fragment_length_counts := f, maximum_proper_pair_fragment_size := c }
        header r refcache = m.is_hqaa header r refcache := fun _ _ => rfl
  have hc' : ∀ (f : List (Nat × Nat)) (c : Nat),
      Metrics.is_hqaa { m.erase_log with
        fragment_length_counts := f, maximum_proper_pair_fragment_size := c }
        header r refcache = m.is_hqaa header r refcache := fun _ _ => rfl
  unfold Metrics.add_alignment_original
  dsimp only
  rw [hc, hc']
  by_cases hq : (m.is_hqaa header r refcache).1 = true
  · simp only [if_pos hq]
    rfl
  · simp only [if_neg hq]
    rfl

theorem Metrics.erase_log_after_reference (ops : FeatureOps) (m : Metrics)
    (header : Header) (r : Record) (n : Nat) (refcache : Refcache) :
    (if IS_ORIGINAL r then
        ((m.erase_log).add_alignment_reference header r refcache).1.add_alignment_original ops
          header r n ((m.erase_log).add_alignment_reference header r refcache).2
      else (m.erase_log).add_alignment_reference header r refcache) =
      ((if IS_ORIGINAL r then
          (m.add_alignment_reference header r refcache).1.add_alignment_original ops header r n
            (m.add_alignment_reference header r refcache).2
        else m.add_alignment_reference header r refcache).1.erase_log,
       (if IS_ORIGINAL r then
          (m.add_alignment_reference header r refcache).1.add_alignment_original ops header r n
            (m.add_alignment_reference header r refcache).2
        else m.add_alignment_reference header r refcache).2) := by
  rw [Metrics.erase_log_add_alignment_reference]
  by_cases ho : IS_ORIGINAL r = true
  · simp only [if_pos ho]
    rw [Metrics.erase_log_add_alignment_original]
  · simp only [if_neg ho]

/-- A step that commutes with taking the log out still does after an update
that commutes with it. -/
theorem Metrics.erase_log_after (F : Metrics → Metrics × Refcache) (g : Metrics → Metrics)
    (hF : ∀ m : Metrics, F m.erase_log = ((F m).1.erase_log, (F m).2))
    (hg : ∀ m : Metrics, g m.erase_log = (g m).erase_log) (m : Metrics) :
    F (g m.erase_log) = ((F (g m)).1.erase_log, (F (g m)).2) := by
  rw [hg, hF]

/-- A branch of `add_alignment` that counts and logs. -/
theorem Metrics.erase_log_counted (g : Metrics → Metrics)
    (hg : ∀ m : Metrics, g m.erase_log = (g m).erase_log) (m : Metrics) (problem : String)
    (subject : ProblemSubject) (refcache : Refcache) :
    ((g m.erase_log).log_if problem subject, refcache) =
      (((g m).log_if problem subject).erase_log, refcache) := by
  rw [hg, Metrics.erase_log_log_if, Metrics.log_if_erase_log]

theorem Metrics.erase_log_add_alignment_proper (ops : FeatureOps) (m : Metrics)
    (header : Header) (r : Record) (n : Nat) (refcache : Refcache) :
    (m.erase_log).add_alignment_proper ops header r n refcache =
      ((m.add_alignment_proper ops header r n refcache).1.erase_log,
        (m.add_alignment_proper ops header r n refcache).2) := by
  have hg : ∀ m : Metrics,
      ({ ({ m.erase_log with
          properly_paired_and_mapped_reads := m.erase_log.properly_paired_and_mapped_reads + 1 }) with
        fr_reads := bump (is_fr r) m.erase_log.fr_reads } : Metrics) =
      Metrics.erase_log ({ ({ m with
          properly_paired_and_mapped_reads := m.properly_paired_and_mapped_reads + 1 }) with
        fr_reads := bump (is_fr r) m.fr_reads }) := fun _ => rfl
  have h := Metrics.erase_log_after
    (fun m =>
      if IS_ORIGINAL r then
        (m.add_alignment_reference header r refcache).1.add_alignment_original ops header r n
          (m.add_alignment_reference header r refcache).2
      else m.add_alignment_reference header r refcache)
    (fun m =>
      { ({ m with properly_paired_and_mapped_reads := m.properly_paired_and_mapped_reads + 1 }) with
        fr_reads := bump (is_fr r) m.fr_reads })
    (fun m => Metrics.erase_log_after_reference ops m header r n refcache) hg m
  exact h

/-- Classifying a record and then taking the log out is taking the log out
and then classifying the record. -/
theorem Metrics.erase_log_add_alignment (ops : FeatureOps) (m : Metrics) (header : Header)
    (r : Record) (refcache : Refcache) :
    (m.erase_log).add_alignment ops header r refcache =
      ((m.add_alignment ops header r refcache).1.erase_log,
        (m.add_alignment ops header r refcache).2) := by
  unfold Metrics.add_alignment
  dsimp only
  by_cases h1 : IS_QCFAIL r = true
  · simp only [if_pos h1]
    exact Metrics.erase_log_counted
      (fun m => { m.add_alignment_tallies r with qcfailed_reads := (m.add_alignment_tallies r).qcfailed_reads + 1 })
      (fun _ => rfl) m _ _ _
  simp only [if_neg h1]
  by_cases h2 : (!IS_PAIRED r) = true
  · simp only [if_pos h2]
    exact Metrics.erase_log_counted
      (fun m => { m.add_alignment_tallies r with unpaired_reads := (m.add_alignment_tallies r).unpaired_reads + 1 })
      (fun _ => rfl) m _ _ _
  simp only [if_neg h2]
  by_cases h3 : IS_UNMAPPED r = true
  · simp only [if_pos h3]
    exact Metrics.erase_log_counted
      (fun m => { m.add_alignment_tallies r with unmapped_reads := (m.add_alignment_tallies r).unmapped_reads + 1 })
      (fun _ => rfl) m _ _ _
  simp only [if_neg h3]
  by_cases h4 : IS_MATE_UNMAPPED r = true
  · simp only [if_pos h4]
    exact Metrics.erase_log_counted
      (fun m => { m.add_alignment_tallies r with unmapped_mate_reads := (m.add_alignment_tallies r).unmapped_mate_reads + 1 })
      (fun _ => rfl) m _ _ _
  simp only [if_neg h4]
  by_cases h5 : is_rf r = true
  · simp only [if_pos h5]
    exact Metrics.erase_log_counted
      (fun m => { m.add_alignment_tallies r with rf_reads := (m.add_alignment_tallies r).rf_reads + 1 })
      (fun _ => rfl) m _ _ _
  simp only [if_neg h5]
  by_cases h6 : is_ff r = true
  · simp only [if_pos h6]
    exact Metrics.erase_log_counted
      (fun m => { m.add_alignment_tallies r with ff_reads := (m.add_alignment_tallies r).ff_reads + 1 })
      (fun _ => rfl) m _ _ _
  simp only [if_neg h6]
  by_cases h7 : is_rr r = true
  · simp only [if_pos h7]
    exact Metrics.erase_log_counted
      (fun m => { m.add_alignment_tallies r with rr_reads := (m.add_alignment_tallies r).rr_reads + 1 })
      (fun _ => rfl) m _ _ _
  simp only [if_neg h7]
  by_cases h8 : r.qual = 0
  · simp only [if_pos h8]
    exact Metrics.erase_log_counted
      (fun m => { m.add_alignment_tallies r with reads_mapped_with_zero_quality := (m.add_alignment_tallies r).reads_mapped_with_zero_quality + 1 })
      (fun _ => rfl) m _ _ _
  simp only [if_neg h8]
  by_cases h9 : IS_PAIRED_AND_MAPPED r = true
  swap
  · simp only [if_neg h9]
    exact Metrics.erase_log_counted
      (fun m => { m.add_alignment_tallies r with unclassified_reads := (m.add_alignment_tallies r).unclassified_reads + 1 })
      (fun _ => rfl) m _ _ _
  simp only [if_pos h9]
  by_cases h10 : IS_PROPERLYPAIRED r = true
  · simp only [if_pos h10]
    exact Metrics.erase_log_after
      (fun m => m.add_alignment_proper ops header r (fragment_length r) refcache)
      (fun m =>
        { m.add_alignment_tallies r with
          paired_and_mapped_reads := (m.add_alignment_tallies r).paired_and_mapped_reads + 1 })
      (fun m => Metrics.erase_log_add_alignment_proper ops m header r _ refcache)
      (fun _ => rfl) m
  simp only [if_neg h10]
  by_cases h11 : r.tid ≠ r.mtid
  · simp only [if_pos h11]
    exact Metrics.erase_log_counted
      (fun m =>
        { ({ m.add_alignment_tallies r with
            paired_and_mapped_reads := (m.add_alignment_tallies r).paired_and_mapped_reads + 1 }) with
          reads_with_mate_mapped_to_different_reference :=
            (m.add_alignment_tallies r).reads_with_mate_mapped_to_different_reference + 1 })
      (fun _ => rfl) m _ _ _
  · simp only [if_neg h11]
    exact Metrics.erase_log_counted
      (fun m =>
        { ({ m.add_alignment_tallies r with
            paired_and_mapped_reads := (m.add_alignment_tallies r).paired_and_mapped_reads + 1 }) with
          unlikely_fragment_sizes :=
            sizes_push_back r.qname (fragment_length r)
              (m.add_alignment_tallies r).unlikely_fragment_sizes })
      (fun _ => rfl) m _ _ _

theorem add_alignments_erase_log (ops : FeatureOps) (header : Header)
    (records : List Record) (s : Metrics × Refcache) :
    add_alignments ops header (s.1.erase_log, s.2) records =
      ((add_alignments ops header s records).1.erase_log,
        (add_alignments ops header s records).2) := by
  induction records generalizing s with
  | nil => rfl
  | cons r rest ih =>
    rw [add_alignments_cons, add_alignments_cons]
    dsimp only
    rw [Metrics.erase_log_add_alignment]
    exact ih _

theorem diagnose_sizes_erase_log (read_name : String) (sizes : List Nat) (m : Metrics) :
    diagnose_sizes read_name m.erase_log sizes = (diagnose_sizes read_name m sizes).erase_log := by
  induction sizes generalizing m with
  | nil => rfl
  | cons x rest ih =>
    have e : (m.erase_log).maximum_proper_pair_fragment_size =
        m.maximum_proper_pair_fragment_size := rfl
    unfold diagnose_sizes
    rw [e]
    by_cases h : m.maximum_proper_pair_fragment_size < x
    · rw [if_pos h, if_pos h, ← ih, Metrics.erase_log_log_if]
      rfl
    · rw [if_neg h, if_neg h, ← ih, Metrics.erase_log_log_if]
      rfl

theorem diagnose_suspects_erase_log (suspects : List (String × List Nat)) (m : Metrics) :
    diagnose_suspects m.erase_log suspects =
      ((diagnose_suspects m suspects).1.erase_log, (diagnose_suspects m suspects).2) := by
  induction suspects generalizing m with
  | nil => rfl
  | cons e rest ih =>
    obtain ⟨read_name, sizes⟩ := e
    unfold diagnose_suspects
    dsimp only
    rw [diagnose_sizes_erase_log, ih]

theorem Metrics.erase_log_make_aggregate_diagnoses (m : Metrics) :
    (m.erase_log).make_aggregate_diagnoses = (m.make_aggregate_diagnoses).erase_log := by
  have h := diagnose_suspects_erase_log m.unlikely_fragment_sizes
    { m with reads_with_mate_too_distant := 0, reads_mapped_and_paired_but_improperly := 0 }
  have h1 := congrArg Prod.fst h
  have h2 := congrArg Prod.snd h
  dsimp only at h1 h2
  unfold Metrics.make_aggregate_diagnoses
  dsimp only
  show ({ (diagnose_suspects (Metrics.erase_log { m with
      reads_with_mate_too_distant := 0, reads_mapped_and_paired_but_improperly := 0 })
      m.unlikely_fragment_sizes).1 with
    unlikely_fragment_sizes := (diagnose_suspects (Metrics.erase_log { m with
      reads_with_mate_too_distant := 0, reads_mapped_and_paired_but_improperly := 0 })
      m.unlikely_fragment_sizes).2 } : Metrics) = _
  rw [h1, h2]
  rfl

theorem Metrics.erase_log_finalized (ops : FeatureOps) (m : Metrics) (header : Header)
    (refcache : Refcache) (records : List Record) :
    (m.erase_log).finalized ops header refcache records =
      (m.finalized ops header refcache records).erase_log := by
  unfold Metrics.finalized Metrics.after_stream
  have h := add_alignments_erase_log ops header records (m, refcache)
  dsimp only at h
  rw [h, Metrics.erase_log_make_aggregate_diagnoses]

theorem Metrics.erase_log_determine_top_peaks (m : Metrics) :
    (m.erase_log).determine_top_peaks = (m.determine_top_peaks).erase_log := by
  unfold Metrics.determine_top_peaks
  have e : (m.erase_log).peaks = m.peaks := rfl
  rw [e]
  generalize m.peaks.list_peaks_by_overlapping_hqaa_descending = l
  have h : ∀ (c : Nat) (m : Metrics),
      l.foldl determine_top_peaks_step (c, m.erase_log) =
        ((l.foldl determine_top_peaks_step (c, m)).1,
          (l.foldl determine_top_peaks_step (c, m)).2.erase_log) := by
    induction l with
    | nil => intro c m; rfl
    | cons p rest ih =>
      intro c m
      rw [List.foldl_cons, List.foldl_cons]
      exact ih _ (determine_top_peaks_step (c, m) p).2
  rw [h]


theorem Metrics.erase_log_restore (m : Metrics) :
    m = { m.erase_log with
      collector := m.collector
      log_problematic_reads := m.log_problematic_reads
      problematic_read_stream := m.problematic_read_stream } := rfl

theorem Metrics.erase_log_constructed (collector : MetricsCollector) (name : String)
    (peaks_requested : Bool) (peaks : PeakTree) (total_peak_territory : Nat) :
    (Metrics.constructed collector name peaks_requested peaks total_peak_territory).erase_log =
      Metrics.constructed { collector with log_problematic_reads := false } name peaks_requested
        peaks total_peak_territory := rfl

theorem Metrics.determine_top_peaks_switch (m : Metrics) :
    m.determine_top_peaks.side_view.2.2 = m.side_view.2.2 := by
  unfold Metrics.determine_top_peaks
  generalize m.peaks.list_peaks_by_overlapping_hqaa_descending = l
  have h : ∀ (c : Nat) (m : Metrics),
      (l.foldl determine_top_peaks_step (c, m)).2.side_view.2.2 = m.side_view.2.2 := by
    induction l with
    | nil => intro c m; rfl
    | cons p rest ih =>
      intro c m
      rw [List.foldl_cons]
      exact ih _ (determine_top_peaks_step (c, m) p).2
  exact h 0 m

theorem Metrics.erase_log_completed (ops : FeatureOps) (m : Metrics) (header : Header)
    (refcache : Refcache) (records : List Record) :
    (m.erase_log).completed ops header refcache records =
      (m.completed ops header refcache records).erase_log := by
  unfold Metrics.completed
  rw [Metrics.erase_log_finalized, Metrics.erase_log_determine_top_peaks]

/-- C18: for every record stream, the run with the collector as given (its
problem log on or off) and the run with the problem log off end, after the
stream, `make_aggregate_diagnoses` and `determine_top_peaks`, in states that
differ at most in the collector, the logging switch and the problem stream:
every counter, histogram, the maximum and every peak count are the same, and
so is the reference cache. -/
theorem logging_keeps_outcomes (ops : FeatureOps) (collector : MetricsCollector)
    (name : String) (peaks_requested : Bool) (peaks : PeakTree) (total_peak_territory : Nat)
    (header : Header) (refcache : Refcache) (records : List Record) :
    (∃ stream : List (String × ProblemSubject),
      (Metrics.constructed collector name peaks_requested peaks
          total_peak_territory).finalized ops header refcache records =
        { (Metrics.constructed { collector with log_problematic_reads := false } name
            peaks_requested peaks total_peak_territory).finalized ops header refcache records with
          collector := collector
          log_problematic_reads := collector.log_problematic_reads
          problematic_read_stream := stream }) ∧
    (∃ stream : List (String × ProblemSubject),
      (Metrics.constructed collector name peaks_requested peaks
          total_peak_territory).completed ops header refcache records =
        { (Metrics.constructed { collector with log_problematic_reads := false } name
            peaks_requested peaks total_peak_territory).completed ops header refcache records with
          collector := collector
          log_problematic_reads := collector.log_problematic_reads
          problematic_read_stream := stream }) ∧
    (add_alignments ops header
        (Metrics.constructed collector name peaks_requested peaks total_peak_territory, refcache)
        records).2 =
      (add_alignments ops header
        (Metrics.constructed { collector with log_problematic_reads := false } name
          peaks_requested peaks total_peak_territory, refcache) records).2 := by
  have hf := Metrics.erase_log_finalized ops
    (Metrics.constructed collector name peaks_requested peaks total_peak_territory) header
    refcache records
  rw [Metrics.erase_log_constructed] at hf
  have hv := Metrics.side_view_finalized ops
    (Metrics.constructed collector name peaks_requested peaks total_peak_territory) header
    refcache records
  have hl : ((Metrics.constructed collector name peaks_requested peaks
      total_peak_territory).finalized ops header refcache records).log_problematic_reads =
      collector.log_problematic_reads := congrArg (fun v => v.2.1) hv
  have hc : ((Metrics.constructed collector name peaks_requested peaks
      total_peak_territory).finalized ops header refcache records).collector = collector :=
    congrArg (fun v => v.2.2) hv
  have hf2 := Metrics.erase_log_completed ops
    (Metrics.constructed collector name peaks_requested peaks total_peak_territory) header
    refcache records
  rw [Metrics.erase_log_constructed] at hf2
  have hv2 := (Metrics.determine_top_peaks_switch
    ((Metrics.constructed collector name peaks_requested peaks
      total_peak_territory).finalized ops header refcache records)).trans (congrArg Prod.snd hv)
  have hl2 : ((Metrics.constructed collector name peaks_requested peaks
      total_peak_territory).completed ops header refcache records).log_problematic_reads =
      collector.log_problematic_reads := congrArg Prod.fst hv2
  have hc2 : ((Metrics.constructed collector name peaks_requested peaks
      total_peak_territory).completed ops header refcache records).collector = collector :=
    congrArg Prod.snd hv2
  refine ⟨⟨((Metrics.constructed collector name peaks_requested peaks
      total_peak_territory).finalized ops header refcache records).problematic_read_stream, ?_⟩,
    ⟨((Metrics.constructed collector name peaks_requested peaks
      total_peak_territory).completed ops header refcache records).problematic_read_stream, ?_⟩,
    ?_⟩
  · have h := Metrics.erase_log_restore ((Metrics.constructed collector name peaks_requested peaks
      total_peak_territory).finalized ops header refcache records)
    rw [hl, hc] at h
    rw [hf]
    exact h
  · have h := Metrics.erase_log_restore ((Metrics.constructed collector name peaks_requested peaks
      total_peak_territory).completed ops header refcache records)
    rw [hl2, hc2] at h
    rw [hf2]
    exact h
  · have h := add_alignments_erase_log ops header records
      (Metrics.constructed collector name peaks_requested peaks total_peak_territory, refcache)
    dsimp only at h
    rw [Metrics.erase_log_constructed] at h
    rw [h]


/-! ### Order of the increments -/

theorem Peak.hit_comm (a b : Bool) (p : Peak) :
    Peak.hit a (Peak.hit b p) = Peak.hit b (Peak.hit a p) := by
  cases a <;> cases b <;> rfl

theorem zipWith_hit_comm (m1 m2 : List Bool) (l : List Peak) :
    List.zipWith Peak.hit m1 (List.zipWith Peak.hit m2 l) =
      List.zipWith Peak.hit m2 (List.zipWith Peak.hit m1 l) := by
  induction l generalizing m1 m2 with
  | nil => simp
  | cons p rest ih =>
    cases m1 with
    | nil => simp
    | cons a m1 =>
      cases m2 with
      | nil => simp
      | cons b m2 =>
        simp only [List.zipWith_cons_cons]
        rw [Peak.hit_comm, ih]

theorem zipWith_hit_false (n : Nat) (l : List Peak) (h : l.length ≤ n) :
    List.zipWith Peak.hit (List.replicate n false) l = l := by
  induction l generalizing n with
  | nil => simp
  | cons p rest ih =>
    cases n with
    | zero => simp at h
    | succ n =>
      rw [List.replicate_succ, List.zipWith_cons_cons, ih n (by simpa using h)]
      rfl

theorem zipWith_hit_skip (i : Nat) (m : List Bool) (l : List Peak) :
    List.zipWith Peak.hit (List.replicate i false ++ m) l =
      l.take i ++ List.zipWith Peak.hit m (l.drop i) := by
  induction i generalizing l with
  | zero => simp
  | succ i ih =>
    cases l with
    | nil => simp
    | cons p rest =>
      rw [List.replicate_succ, List.cons_append, List.zipWith_cons_cons, ih]
      rfl

theorem zipWith_hit_run (hqaa : Feature) (n : Nat) (l : List Peak) (h : l.length ≤ n) :
    List.zipWith Peak.hit
        (List.replicate (l.takeWhile (fun p => p.toFeature.overlaps hqaa)).length true ++
          List.replicate n false) l =
      increment_while_overlapping hqaa l := by
  induction l with
  | nil => simp [increment_while_overlapping]
  | cons p rest ih =>
    unfold increment_while_overlapping
    by_cases ho : p.toFeature.overlaps hqaa = true
    · rw [if_pos ho, List.takeWhile_cons]
      simp only [ho, if_true]
      rw [List.length_cons, List.replicate_succ, List.cons_append, List.zipWith_cons_cons,
        ih (Nat.le_trans (Nat.le_succ _) h)]
      rfl
    · rw [if_neg ho, List.takeWhile_cons]
      simp only [ho, if_false]
      exact zipWith_hit_false n _ h

/-- The collection after an increment, by the positions raised. -/
theorem ReferencePeakCollection.increment_marks (ops : FeatureOps)
    (rpc : ReferencePeakCollection) (hqaa : Feature) :
    rpc.increment_overlapping_hqaa ops hqaa =
      if rpc.overlaps hqaa then
        { rpc with peaks := List.zipWith Peak.hit (scan_marks ops hqaa rpc.peaks) rpc.peaks }
      else rpc := by
  unfold ReferencePeakCollection.increment_overlapping_hqaa scan_marks
  dsimp only
  rw [zipWith_hit_skip, zipWith_hit_run hqaa _ _ (by rw [List.length_drop]; omega)]

/-- The binary search reads of the sequence only how its elements compare
with the value. -/
theorem upper_bound_loop_congr (ops : FeatureOps) (value : Feature) (l1 l2 : List Peak)
    (h : l1.map (ops.lt value) = l2.map (ops.lt value)) (fuel first len : Nat) :
    upper_bound_loop ops value l1 fuel first len =
      upper_bound_loop ops value l2 fuel first len := by
  induction fuel generalizing first len with
  | zero => rfl
  | succ fuel ih =>
    unfold upper_bound_loop
    by_cases h0 : len = 0
    · rw [if_pos h0, if_pos h0]
    · rw [if_neg h0, if_neg h0]
      dsimp only
      have hk := congrArg (fun l => l.get? (first + len / 2)) h
      simp only [List.get?_eq_getElem?, List.getElem?_map] at hk
      rw [List.get?_eq_getElem?, List.get?_eq_getElem?]
      cases h1 : l1[first + len / 2]? with
      | none =>
        cases h2 : l2[first + len / 2]? with
        | none => rfl
        | some q => rw [h1, h2] at hk; cases hk
      | some p =>
        cases h2 : l2[first + len / 2]? with
        | none => rw [h1, h2] at hk; cases hk
        | some q =>
          rw [h1, h2] at hk
          have hpq : ops.lt value p = ops.lt value q := Option.some.inj hk
          dsimp only
          rw [hpq, ih, ih]

theorem same_features_lt (ops : FeatureOps)
    (hlt : ∀ (f : Feature) (p : Peak) (n : Nat),
      ops.lt f { p with overlapping_hqaa := n } = ops.lt f p)
    (value : Feature) (l1 l2 : List Peak)
    (h : l1.map Peak.toFeature = l2.map Peak.toFeature) :
    l1.map (ops.lt value) = l2.map (ops.lt value) := by
  induction l1 generalizing l2 with
  | nil =>
    cases l2 with
    | nil => rfl
    | cons q rest => simp at h
  | cons p rest ih =>
    cases l2 with
    | nil => simp at h
    | cons q rest2 =>
      simp only [List.map_cons, List.cons.injEq] at h ⊢
      refine ⟨?_, ih rest2 h.2⟩
      have e : q = { p with overlapping_hqaa := q.overlapping_hqaa } := by
        cases p
        cases q
        simp only at h
        simp [h.1]
      exact (hlt value p q.overlapping_hqaa).symm.trans (congrArg (ops.lt value) e.symm)

/-- The positions raised depend on the features of the peaks only, when the
comparison does not read the counts. -/
theorem scan_marks_congr (ops : FeatureOps)
    (hlt : ∀ (f : Feature) (p : Peak) (n : Nat),
      ops.lt f { p with overlapping_hqaa := n } = ops.lt f p)
    (hqaa : Feature) (l1 l2 : List Peak)
    (h : l1.map Peak.toFeature = l2.map Peak.toFeature) :
    scan_marks ops hqaa l1 = scan_marks ops hqaa l2 := by
  have hlen : l1.length = l2.length := by
    have := congrArg List.length h
    simpa using this
  have hub : upper_bound ops l1 hqaa = upper_bound ops l2 hqaa := by
    unfold upper_bound
    rw [hlen]
    exact upper_bound_loop_congr ops hqaa l1 l2 (same_features_lt ops hlt hqaa l1 l2 h) _ _ _
  have hrun : ∀ (a b : List Peak), a.map Peak.toFeature = b.map Peak.toFeature →
      (a.takeWhile (fun p => p.toFeature.overlaps hqaa)).length =
        (b.takeWhile (fun p => p.toFeature.overlaps hqaa)).length := by
    intro a
    induction a with
    | nil =>
      intro b hb
      cases b with
      | nil => rfl
      | cons q rest => simp at hb
    | cons p rest ih =>
      intro b hb
      cases b with
      | nil => simp at hb
      | cons q rest2 =>
        simp only [List.map_cons, List.cons.injEq] at hb
        simp only [List.takeWhile_cons, hb.1]
        split_ifs
        · simp only [List.length_cons, ih rest2 hb.2]
        · rfl
  unfold scan_marks
  rw [hub, hlen, hrun (l1.drop (upper_bound ops l2 hqaa)) (l2.drop (upper_bound ops l2 hqaa))
    (by rw [List.map_drop, List.map_drop, h])]


theorem ReferencePeakCollection.increment_overlaps (ops : FeatureOps)
    (rpc : ReferencePeakCollection) (hqaa other : Feature) :
    (rpc.increment_overlapping_hqaa ops hqaa).overlaps other = rpc.overlaps other := by
  have hr := ReferencePeakCollection.increment_raised ops rpc hqaa
  have he : (rpc.increment_overlapping_hqaa ops hqaa).peaks.isEmpty = rpc.peaks.isEmpty :=
    (forall₂_isEmpty _ _ _ hr.2.2.2).symm
  unfold ReferencePeakCollection.overlaps
  rw [he, hr.1, hr.2.1, hr.2.2.1]

/-- Two increments of one collection commute, when the comparison does not
read the counts. -/
theorem ReferencePeakCollection.increments_commute (ops : FeatureOps)
    (hlt : ∀ (f : Feature) (p : Peak) (n : Nat),
      ops.lt f { p with overlapping_hqaa := n } = ops.lt f p)
    (rpc : ReferencePeakCollection) (a b : Feature) :
    (rpc.increment_overlapping_hqaa ops a).increment_overlapping_hqaa ops b =
      (rpc.increment_overlapping_hqaa ops b).increment_overlapping_hqaa ops a := by
  have hab := scan_marks_congr ops hlt b _ _
    (ReferencePeakCollection.increment_keeps_features ops rpc a)
  have hba := scan_marks_congr ops hlt a _ _
    (ReferencePeakCollection.increment_keeps_features ops rpc b)
  rw [ReferencePeakCollection.increment_marks ops (rpc.increment_overlapping_hqaa ops a) b,
    ReferencePeakCollection.increment_marks ops (rpc.increment_overlapping_hqaa ops b) a,
    ReferencePeakCollection.increment_overlaps, ReferencePeakCollection.increment_overlaps,
    hab, hba]
  rw [ReferencePeakCollection.increment_marks ops rpc a,
    ReferencePeakCollection.increment_marks ops rpc b]
  cases h1 : rpc.overlaps a <;> cases h2 : rpc.overlaps b
  · rfl
  · rfl
  · rfl
  · simp only [if_true]
    rw [zipWith_hit_comm]

/-- Two increments of a tree commute, when the comparison does not read the
counts. -/
theorem PeakTree.increment_comm (ops : FeatureOps)
    (hlt : ∀ (f : Feature) (p : Peak) (n : Nat),
      ops.lt f { p with overlapping_hqaa := n } = ops.lt f p)
    (t : PeakTree) (a b : Feature) :
    (t.increment_overlapping_hqaa ops a).increment_overlapping_hqaa ops b =
      (t.increment_overlapping_hqaa ops b).increment_overlapping_hqaa ops a := by
  unfold PeakTree.increment_overlapping_hqaa
  dsimp only
  by_cases h : b.reference = a.reference
  · rw [h, tree_update_update_same, tree_update_update_same]
    have hfun : (fun c : ReferencePeakCollection =>
        (c.increment_overlapping_hqaa ops a).increment_overlapping_hqaa ops b) =
        (fun c => (c.increment_overlapping_hqaa ops b).increment_overlapping_hqaa ops a) :=
      funext (fun c => ReferencePeakCollection.increments_commute ops hlt c a b)
    rw [hfun]
  · rw [tree_update_comm b.reference a.reference h]

theorem PeakTree.increment_all_perm (ops : FeatureOps)
    (hlt : ∀ (f : Feature) (p : Peak) (n : Nat),
      ops.lt f { p with overlapping_hqaa := n } = ops.lt f p)
    (features others : List Feature) (hp : features.Perm others) (t : PeakTree) :
    t.increment_all ops features = t.increment_all ops others := by
  unfold PeakTree.increment_all
  induction hp generalizing t with
  | nil => rfl
  | cons x _ ih => exact ih _
  | swap x y l =>
    simp only [List.foldl_cons]
    rw [PeakTree.increment_comm ops hlt t y x]
  | trans _ _ ih1 ih2 => exact (ih1 t).trans (ih2 t)

/-- C12: when the comparison that `std::upper_bound` searches with does not
read the counts of the peaks, two calls of `increment_overlapping_hqaa`
commute on every tree, and submitting a list of features in any permutation
leaves the same tree: the same count for every peak. -/
theorem increment_overlapping_hqaa_order_independent (ops : FeatureOps)
    (hlt : ∀ (f : Feature) (p : Peak) (n : Nat),
      ops.lt f { p with overlapping_hqaa := n } = ops.lt f p)
    (t : PeakTree) (features others : List Feature) (hp : features.Perm others) :
    t.increment_all ops features = t.increment_all ops others ∧
    (∀ a b : Feature,
      (t.increment_overlapping_hqaa ops a).increment_overlapping_hqaa ops b =
        (t.increment_overlapping_hqaa ops b).increment_overlapping_hqaa ops a) :=
  ⟨PeakTree.increment_all_perm ops hlt features others hp t,
    fun a b => PeakTree.increment_comm ops hlt t a b⟩

/-- The comparison by start coordinate does not read the counts; the features
chr1:90-110 and chr1:150-160 submitted in both orders to the tree of the peaks
chr1:100-200 and chr1:1000-1100 leave the same counts. -/
theorem increment_overlapping_hqaa_order_independent_witness :
    (∀ (f : Feature) (p : Peak) (n : Nat),
      Sample.ops.lt f { p with overlapping_hqaa := n } = Sample.ops.lt f p) ∧
    [Sample.edge_feature, Sample.inner_feature].Perm
      [Sample.inner_feature, Sample.edge_feature] ∧
    (Sample.near_far_tree.increment_all Sample.ops [Sample.edge_feature, Sample.inner_feature] =
      Sample.near_far_tree.increment_all Sample.ops
        [Sample.inner_feature, Sample.edge_feature] ∧
    (∀ a b : Feature,
      (Sample.near_far_tree.increment_overlapping_hqaa Sample.ops a).increment_overlapping_hqaa
          Sample.ops b =
        (Sample.near_far_tree.increment_overlapping_hqaa Sample.ops b).increment_overlapping_hqaa
          Sample.ops a)) ∧
    (Sample.near_far_tree.increment_all Sample.ops
      [Sample.edge_feature, Sample.inner_feature]).all_peaks.map
        (fun p => p.overlapping_hqaa) = [1, 0] :=
  ⟨fun _ _ _ => rfl, List.Perm.swap _ _ _,
    increment_overlapping_hqaa_order_independent Sample.ops (fun _ _ _ => rfl)
      Sample.near_far_tree [Sample.edge_feature, Sample.inner_feature]
      [Sample.inner_feature, Sample.edge_feature] (List.Perm.swap _ _ _),
    by decide⟩


/-! ### The unclassified branch -/

theorem first_guards_imply_paired_and_mapped (r : Record) :
    (!IS_QCFAIL r && IS_PAIRED r && !IS_UNMAPPED r && !IS_MATE_UNMAPPED r &&
      !IS_PAIRED_AND_MAPPED r) = false := by
  unfold IS_PAIRED_AND_MAPPED
  cases IS_QCFAIL r <;> cases IS_PAIRED r <;> cases IS_UNMAPPED r <;>
    cases IS_MATE_UNMAPPED r <;> rfl

theorem taxonomy_outcome_not_unclassified (r : Record) :
    taxonomy_outcome r ≠ Outcome.counted Leaf.unclassified := by
  have hpm := first_guards_imply_paired_and_mapped r
  unfold taxonomy_outcome taxonomy_guards
  simp only [first_match_in, paired_and_mapped_outcome]
  by_cases h1 : IS_QCFAIL r = true
  · simp [h1]
  by_cases h2 : IS_PAIRED r = true
  swap
  · simp [h1, h2]
  by_cases h3 : IS_UNMAPPED r = true
  · simp [h1, h2, h3]
  by_cases h4 : IS_MATE_UNMAPPED r = true
  · simp [h1, h2, h3, h4]
  by_cases h5 : is_rf r = true
  · simp [h1, h2, h3, h4, h5]
  by_cases h6 : is_ff r = true
  · simp [h1, h2, h3, h4, h5, h6]
  by_cases h7 : is_rr r = true
  · simp [h1, h2, h3, h4, h5, h6, h7]
  by_cases h8 : r.qual = 0
  · simp [h1, h2, h3, h4, h5, h6, h7, h8]
  have h9 : IS_PAIRED_AND_MAPPED r = true := by
    simpa [h1, h2, h3, h4] using hpm
  by_cases h10 : IS_PROPERLYPAIRED r = true
  · simp [h1, h2, h3, h4, h5, h6, h7, h8, h9, h10]
  by_cases h11 : r.tid = r.mtid
  · simp [h1, h2, h3, h4, h5, h6, h7, h8, h9, h10, h11]
  · simp [h1, h2, h3, h4, h5, h6, h7, h8, h9, h10, h11]

/-- C27: a record that is not QC-failed, is paired and has neither itself nor
its mate unmapped is paired-and-mapped, so no record has the taxonomy outcome
"unclassified", no call of `add_alignment` changes `unclassified_reads`, and
the counter is 0 after every record stream and after
`make_aggregate_diagnoses`. -/
theorem unclassified_branch_unreachable (ops : FeatureOps) (header : Header) :
    (∀ r : Record,
      (!IS_QCFAIL r && IS_PAIRED r && !IS_UNMAPPED r && !IS_MATE_UNMAPPED r &&
        !IS_PAIRED_AND_MAPPED r) = false) ∧
    (∀ r : Record, taxonomy_outcome r ≠ Outcome.counted Leaf.unclassified) ∧
    (∀ (m : Metrics) (r : Record) (refcache : Refcache),
      (m.add_alignment ops header r refcache).1.unclassified_reads = m.unclassified_reads) ∧
    (∀ (collector : MetricsCollector) (name : String) (peaks_requested : Bool)
        (peaks : PeakTree) (total_peak_territory : Nat) (refcache : Refcache)
        (records : List Record),
      ((Metrics.constructed collector name peaks_requested peaks
          total_peak_territory).after_stream ops header refcache records).unclassified_reads =
        0 ∧
      ((Metrics.constructed collector name peaks_requested peaks
          total_peak_territory).finalized ops header refcache records).unclassified_reads =
        0) := by
  refine ⟨first_guards_imply_paired_and_mapped, taxonomy_outcome_not_unclassified, ?_, ?_⟩
  · intro m r refcache
    have h := Metrics.leaf_add_alignment ops m header r refcache Leaf.unclassified
    rw [if_neg (taxonomy_outcome_not_unclassified r)] at h
    exact h
  · intro collector name peaks_requested peaks total_peak_territory refcache records
    have h := add_alignments_leaf ops header records
      (Metrics.constructed collector name peaks_requested peaks total_peak_territory, refcache)
      Leaf.unclassified
    have hz : records.countP
        (fun r => decide (taxonomy_outcome r = Outcome.counted Leaf.unclassified)) = 0 := by
      rw [List.countP_eq_zero]
      intro r _
      simpa using taxonomy_outcome_not_unclassified r
    rw [hz] at h
    have h0 : ((Metrics.constructed collector name peaks_requested peaks
        total_peak_territory).after_stream ops header refcache records).unclassified_reads =
        0 := h
    refine ⟨h0, ?_⟩
    unfold Metrics.finalized
    obtain ⟨s, hs⟩ := Metrics.make_aggregate_diagnoses_shape
      ((Metrics.constructed collector name peaks_requested peaks
        total_peak_territory).after_stream ops header refcache records)
    rw [hs]
    exact h0


/-! ### A second finalize -/

theorem deferred_sizes_cleared (sizes : List (String × List Nat)) :
    deferred_sizes (sizes.map (fun e => (e.1, ([] : List Nat)))) = [] := by
  induction sizes with
  | nil => rfl
  | cons e rest ih =>
    unfold deferred_sizes at ih ⊢
    rw [List.map_cons, List.flatMap_cons, ih]
    rfl

/-- The second of two calls of `make_aggregate_diagnoses` finds every
deferred list empty. -/
theorem Metrics.make_aggregate_diagnoses_twice (m : Metrics) :
    m.make_aggregate_diagnoses.make_aggregate_diagnoses.reads_with_mate_too_distant = 0 ∧
    m.make_aggregate_diagnoses.make_aggregate_diagnoses.reads_mapped_and_paired_but_improperly =
      0 ∧
    deferred_sizes m.make_aggregate_diagnoses.unlikely_fragment_sizes = [] ∧
    m.make_aggregate_diagnoses.make_aggregate_diagnoses.taxonomy_sum +
        m.reads_with_mate_too_distant + m.reads_mapped_and_paired_but_improperly =
      m.taxonomy_sum := by
  obtain ⟨s1, h1⟩ := Metrics.make_aggregate_diagnoses_shape m
  obtain ⟨s2, h2⟩ := Metrics.make_aggregate_diagnoses_shape m.make_aggregate_diagnoses
  have hc : deferred_sizes m.make_aggregate_diagnoses.unlikely_fragment_sizes = [] := by
    rw [h1]
    exact deferred_sizes_cleared m.unlikely_fragment_sizes
  rw [hc] at h2
  rw [h2]
  refine ⟨rfl, rfl, hc, ?_⟩
  rw [h1]
  simp only [Metrics.taxonomy_sum, List.countP_nil]
  omega

/-- C25: a second call of `make_aggregate_diagnoses`, on any aggregator,
leaves `reads_with_mate_too_distant` and
`reads_mapped_and_paired_but_improperly` at 0, because the first call emptied
every deferred list; after a record stream and two calls the taxonomy sum
falls short of `total_reads` by the number of deferred records.  For the
stream of the one deferred record `Sample.improper` the sum is 0 and
`total_reads` is 1. -/
theorem second_finalize_drops_deferred (ops : FeatureOps) (collector : MetricsCollector)
    (name : String) (peaks_requested : Bool) (peaks : PeakTree) (total_peak_territory : Nat)
    (header : Header) (refcache : Refcache) (records : List Record) :
    (∀ m : Metrics,
      m.make_aggregate_diagnoses.make_aggregate_diagnoses.reads_with_mate_too_distant = 0 ∧
      m.make_aggregate_diagnoses.make_aggregate_diagnoses.reads_mapped_and_paired_but_improperly =
        0) ∧
    (((Metrics.constructed collector name peaks_requested peaks total_peak_territory).finalized
        ops header refcache records).make_aggregate_diagnoses.taxonomy_sum +
        records.countP reaches_deferred = records.length ∧
      ((Metrics.constructed collector name peaks_requested peaks total_peak_territory).finalized
        ops header refcache records).make_aggregate_diagnoses.total_reads = records.length) ∧
    (((Metrics.constructed Sample.collector "rg" false { tree := [] } 0).finalized Sample.ops
        Sample.header [] [Sample.improper]).make_aggregate_diagnoses.taxonomy_sum = 0 ∧
      ((Metrics.constructed Sample.collector "rg" false { tree := [] } 0).finalized Sample.ops
        Sample.header [] [Sample.improper]).make_aggregate_diagnoses.total_reads = 1 ∧
      reaches_deferred Sample.improper = true) := by
  refine ⟨fun m => ⟨(Metrics.make_aggregate_diagnoses_twice m).1,
    (Metrics.make_aggregate_diagnoses_twice m).2.1⟩, ?_, by decide, by decide, by decide⟩
  have hsum := add_alignments_sum ops header records
    (Metrics.constructed collector name peaks_requested peaks total_peak_territory, refcache)
  have hlate := add_alignments_late ops header records
    (Metrics.constructed collector name peaks_requested peaks total_peak_territory, refcache)
  have htotal := add_alignments_total_reads ops header records
    (Metrics.constructed collector name peaks_requested peaks total_peak_territory, refcache)
  have hdef := (add_alignments_deferred ops header records
    (Metrics.constructed collector name peaks_requested peaks total_peak_territory,
      refcache)).length_eq
  have e1 : (Metrics.constructed collector name peaks_requested peaks
      total_peak_territory).taxonomy_sum = 0 := rfl
  have e2 : (Metrics.constructed collector name peaks_requested peaks
      total_peak_territory).unlikely_fragment_sizes = [] := rfl
  have e3 : (Metrics.constructed collector name peaks_requested peaks
      total_peak_territory).total_reads = 0 := rfl
  have e4 : (Metrics.constructed collector name peaks_requested peaks
      total_peak_territory).reads_with_mate_too_distant = 0 := rfl
  have e5 : (Metrics.constructed collector name peaks_requested peaks
      total_peak_territory).reads_mapped_and_paired_but_improperly = 0 := rfl
  simp only [e1, e2, e3, e4, e5, deferred_sizes, List.flatMap_nil, List.length_nil,
    List.nil_append, List.length_map] at hsum hlate htotal hdef
  unfold Metrics.finalized Metrics.after_stream
  generalize (add_alignments ops header
    (Metrics.constructed collector name peaks_requested peaks total_peak_territory, refcache)
    records).1 = m at hsum hlate htotal hdef ⊢
  have htw := (Metrics.make_aggregate_diagnoses_twice m).2.2.2
  rw [hlate.1, hlate.2] at htw
  obtain ⟨s1, h1⟩ := Metrics.make_aggregate_diagnoses_shape m
  obtain ⟨s2, h2⟩ := Metrics.make_aggregate_diagnoses_shape m.make_aggregate_diagnoses
  have ht : m.make_aggregate_diagnoses.make_aggregate_diagnoses.total_reads = m.total_reads := by
    rw [h2, h1]
  rw [List.countP_eq_length_filter]
  refine ⟨?_, by rw [ht]; omega⟩
  omega


/-! ### Relations between the reference counters -/

/-- A record for which `is_hqaa` holds is not flagged duplicate and lies on a
reference for which `is_autosomal` holds. -/
theorem Metrics.is_hqaa_autosomal (m : Metrics) (header : Header) (r : Record)
    (refcache : Refcache) (h : (m.is_hqaa header r refcache).1 = true) :
    IS_DUP r = false ∧ 0 ≤ r.tid ∧
      (m.collector.is_autosomal (header.name_of r.tid) refcache).1 = true := by
  unfold Metrics.is_hqaa mapq_at_least Metrics.is_autosomal at h
  by_cases hs : (!IS_UNMAPPED r && !IS_MATE_UNMAPPED r && !IS_DUP r && IS_PAIRED_AND_MAPPED r &&
      IS_PROPERLYPAIRED r && IS_ORIGINAL r && decide (30 ≤ r.qual) && decide (r.tid ≥ 0)) = true
  · rw [if_pos hs] at h
    simp only [Bool.and_eq_true, Bool.not_eq_true', decide_eq_true_eq] at hs
    refine ⟨hs.1.1.1.1.1.2, hs.2, ?_⟩
    by_cases ha : (m.collector.is_autosomal (header.name_of r.tid) refcache).1 = true
    · exact ha
    · dsimp only at h
      rw [if_neg ha] at h
      exact Bool.noConfusion h
  · rw [if_neg hs] at h
    exact Bool.noConfusion h

/-- One call of `add_alignment` keeps the three counter relations. -/
theorem Metrics.reference_bounds_add_alignment (ops : FeatureOps) (m : Metrics)
    (header : Header) (r : Record) (refcache : Refcache) (h : m.reference_bounds) :
    (m.add_alignment ops header r refcache).1.reference_bounds := by
  have hq := Metrics.hqaa_add_alignment ops m header r refcache
  have hv := Metrics.reference_view_add_alignment ops m header r refcache
  have hp := Metrics.leaf_add_alignment ops m header r refcache Leaf.properly_paired
  rw [Metrics.reference_view_add_alignment_reference] at hv
  have hp' : (m.add_alignment ops header r refcache).1.properly_paired_and_mapped_reads =
      m.properly_paired_and_mapped_reads +
        if taxonomy_outcome r = Outcome.counted Leaf.properly_paired then 1 else 0 := hp
  unfold Metrics.reference_bounds at h ⊢
  obtain ⟨b1, b2, b3⟩ := h
  by_cases hr : reaches_proper r = true
  · have ho := (reaches_proper_iff r).mp hr
    rw [if_pos ho] at hp'
    rw [if_pos hr] at hv
    simp only [Metrics.reference_view, Prod.mk.injEq] at hv
    obtain ⟨v1, v2, v3, v4⟩ := hv
    rw [hq, v1, v2, v3, v4, hp']
    by_cases hh : (!IS_QCFAIL r && !is_rf r && !is_ff r && !is_rr r &&
        (m.is_hqaa header r refcache).1) = true
    · rw [if_pos hh]
      simp only [Bool.and_eq_true] at hh
      obtain ⟨d, t, a⟩ := Metrics.is_hqaa_autosomal m header r refcache hh.2
      simp [d, t, a]
      omega
    · rw [if_neg hh]
      by_cases ha : (m.collector.is_autosomal (header.name_of r.tid) refcache).1 = true
      · by_cases ht : 0 ≤ r.tid
        · cases hd : IS_DUP r <;> simp [ha, ht] <;> omega
        · simp [ht]
          omega
      · have ha' : (m.collector.is_autosomal (header.name_of r.tid) refcache).1 = false := by
          simpa using ha
        by_cases ht : 0 ≤ r.tid
        · by_cases hm : m.collector.is_mitochondrial (header.name_of r.tid) = true
          · cases hd : IS_DUP r <;> simp [ha', ht, hm] <;> omega
          · simp [ha', hm]
            omega
        · simp [ht]
          omega
  · have ho : ¬ taxonomy_outcome r = Outcome.counted Leaf.properly_paired :=
      fun e => hr ((reaches_proper_iff r).mpr e)
    rw [if_neg ho] at hp'
    rw [if_neg hr] at hv
    simp only [Metrics.reference_view, Prod.mk.injEq] at hv
    obtain ⟨v1, v2, v3, v4⟩ := hv
    have hh : ¬ (!IS_QCFAIL r && !is_rf r && !is_ff r && !is_rr r &&
        (m.is_hqaa header r refcache).1) = true := by
      intro hh
      simp only [Bool.and_eq_true, Bool.not_eq_true'] at hh
      obtain ⟨f1, f2, f3, f4, f5, f6⟩ := Metrics.is_hqaa_flags m header r refcache hh.2
      apply hr
      unfold reaches_proper
      have f7 : IS_PAIRED r = true := by
        unfold IS_PAIRED_AND_MAPPED at f3
        simp only [Bool.and_eq_true] at f3
        exact f3.1.1
      have f8 : ¬ r.qual = 0 := by omega
      simp [hh.1.1.1.1, hh.1.1.1.2, hh.1.1.2, hh.1.2, f1, f2, f3, f4, f7, f8]
    rw [hq, if_neg hh, v1, v2, v3, v4, hp']
    exact ⟨b1, b2, b3⟩

/-- C28: from a constructed aggregator, after every record stream and after
`make_aggregate_diagnoses`, `hqaa + duplicate_autosomal_reads` does not exceed
`total_autosomal_reads`, `total_autosomal_reads + total_mitochondrial_reads`
does not exceed `properly_paired_and_mapped_reads`, and
`duplicate_mitochondrial_reads` does not exceed `total_mitochondrial_reads`,
whatever the reference cache holds. -/
theorem reference_counters_bounded (ops : FeatureOps) (collector : MetricsCollector)
    (name : String) (peaks_requested : Bool) (peaks : PeakTree) (total_peak_territory : Nat)
    (header : Header) (refcache : Refcache) (records : List Record) :
    let streamed := (Metrics.constructed collector name peaks_requested peaks
      total_peak_territory).after_stream ops header refcache records
    let final := (Metrics.constructed collector name peaks_requested peaks
      total_peak_territory).finalized ops header refcache records
    (streamed.hqaa + streamed.duplicate_autosomal_reads ≤ streamed.total_autosomal_reads ∧
      streamed.total_autosomal_reads + streamed.total_mitochondrial_reads ≤
        streamed.properly_paired_and_mapped_reads ∧
      streamed.duplicate_mitochondrial_reads ≤ streamed.total_mitochondrial_reads) ∧
    (final.hqaa + final.duplicate_autosomal_reads ≤ final.total_autosomal_reads ∧
      final.total_autosomal_reads + final.total_mitochondrial_reads ≤
        final.properly_paired_and_mapped_reads ∧
      final.duplicate_mitochondrial_reads ≤ final.total_mitochondrial_reads) := by
  intro streamed final
  have h : streamed.reference_bounds :=
    add_alignments_invariant ops header Metrics.reference_bounds
      (fun m r refcache hm => Metrics.reference_bounds_add_alignment ops m header r refcache hm)
      records
      (Metrics.constructed collector name peaks_requested peaks total_peak_territory, refcache)
      ⟨Nat.le_refl _, Nat.le_refl _, Nat.le_refl _⟩
  refine ⟨h, ?_⟩
  obtain ⟨s, hs⟩ := Metrics.make_aggregate_diagnoses_shape streamed
  have hf : final = streamed.make_aggregate_diagnoses := rfl
  rw [hf, hs]
  exact h


/-! ### The cached bounds of a collection -/

/-- The bounds after one `add`, in closed form. -/
theorem ReferencePeakCollection.add_bounds (c : ReferencePeakCollection) (peak : Peak) :
    (c.add peak).1.start =
      (if (c.add peak).2 then c.start
        else if c.start = 0 ∨ peak.start < c.start then peak.start else c.start) ∧
    (c.add peak).1.end_ =
      (if (c.add peak).2 then c.end_ else max c.end_ peak.end_) := by
  unfold ReferencePeakCollection.add
  dsimp only
  by_cases h : c.reference ≠ peak.reference ∧ c.reference ≠ ""
  · rw [if_pos h]
    exact ⟨rfl, rfl⟩
  · rw [if_neg h]
    simp only [Bool.false_eq_true, if_false]
    constructor
    · by_cases h1 : c.reference ≠ peak.reference
      · rw [if_pos h1]
        by_cases h2 : c.start = 0 ∨ c.start > peak.start
        · have h2' : c.start = 0 ∨ peak.start < c.start := h2
          simp only [h2, h2', if_true]
          split_ifs <;> rfl
        · have h2' : ¬ (c.start = 0 ∨ peak.start < c.start) := h2
          simp only [h2, h2', if_false]
          split_ifs <;> rfl
      · rw [if_neg h1]
        by_cases h2 : c.start = 0 ∨ c.start > peak.start
        · have h2' : c.start = 0 ∨ peak.start < c.start := h2
          simp only [h2, h2', if_true]
          split_ifs <;> rfl
        · have h2' : ¬ (c.start = 0 ∨ peak.start < c.start) := h2
          simp only [h2, h2', if_false]
          split_ifs <;> rfl
    · by_cases h1 : c.reference ≠ peak.reference
      · rw [if_pos h1]
        by_cases h2 : c.start = 0 ∨ c.start > peak.start
        · simp only [h2, if_true]
          by_cases h3 : c.end_ = 0 ∨ c.end_ < peak.end_
          · simp only [h3, if_true]
            omega
          · simp only [h3, if_false]
            omega
        · simp only [h2, if_false]
          by_cases h3 : c.end_ = 0 ∨ c.end_ < peak.end_
          · simp only [h3, if_true]
            omega
          · simp only [h3, if_false]
            omega
      · rw [if_neg h1]
        by_cases h2 : c.start = 0 ∨ c.start > peak.start
        · simp only [h2, if_true]
          by_cases h3 : c.end_ = 0 ∨ c.end_ < peak.end_
          · simp only [h3, if_true]
            omega
          · simp only [h3, if_false]
            omega
        · simp only [h2, if_false]
          by_cases h3 : c.end_ = 0 ∨ c.end_ < peak.end_
          · simp only [h3, if_true]
            omega
          · simp only [h3, if_false]
            omega

/-- A sequence of `add` calls with peaks of one reference: no call throws,
the peaks are appended, the cached end is the maximum of the ends, and the
cached start is the minimum of the starts as long as no start is 0. -/
theorem ReferencePeakCollection.add_each_same_reference (reference : String)
    (peaks : List Peak) (c : ReferencePeakCollection)
    (hp : ∀ p ∈ peaks, p.reference = reference)
    (hc : c.reference = reference ∨ c.reference = "") :
    (c.add_each peaks).end_ = (peaks.map (fun p => p.end_)).foldl max c.end_ ∧
    (c.add_each peaks).peaks = c.peaks ++ peaks ∧
    (0 < c.start → (∀ p ∈ peaks, 0 < p.start) →
      (c.add_each peaks).start = (peaks.map (fun p => p.start)).foldl min c.start) := by
  induction peaks generalizing c with
  | nil => exact ⟨rfl, (List.append_nil _).symm, fun _ _ => rfl⟩
  | cons p rest ih =>
    have hpr : p.reference = reference := hp p (List.mem_cons_self _ _)
    have hc' : c.reference = p.reference ∨ c.reference = "" := by rw [hpr]; exact hc
    have hthrow := ReferencePeakCollection.add_throws c p hc'
    have href := ReferencePeakCollection.add_reference c p hc'
    obtain ⟨hs, he⟩ := ReferencePeakCollection.add_bounds c p
    rw [hthrow] at hs he
    simp only [Bool.false_eq_true, if_false] at hs he
    obtain ⟨i1, i2, i3⟩ := ih (c.add p).1 (fun q hq => hp q (List.mem_cons_of_mem _ hq))
      (Or.inl (href.trans hpr))
    have hstep : c.add_each (p :: rest) = (c.add p).1.add_each rest := rfl
    rw [hstep]
    refine ⟨?_, ?_, ?_⟩
    · rw [i1, he]
      rfl
    · rw [i2, ReferencePeakCollection.add_peaks, List.append_assoc]
      rfl
    · intro h0 hall
      have hp0 : 0 < p.start := hall p (List.mem_cons_self _ _)
      have hs' : (c.add p).1.start = min c.start p.start := by
        rw [hs]
        by_cases h : c.start = 0 ∨ p.start < c.start
        · rw [if_pos h]
          omega
        · rw [if_neg h]
          omega
      rw [i3 (by rw [hs']; omega) (fun q hq => hall q (List.mem_cons_of_mem _ hq)), hs']
      rfl

/-- C21 (the code does otherwise): after `add` of chr1:0-50 and then
chr1:100-200 to an empty collection the cached start is 100, while the
smallest start of its peaks is 0: a cached start of 0 is taken for "not set
yet" and replaced by the start of the next peak.  The cached end is the
maximum of the ends for every sequence of peaks of one reference, and the
cached start is the minimum of the starts when no peak starts at 0. -/
theorem cached_start_forgets_zero :
    ((ReferencePeakCollection.empty.add_each Sample.zero_start_peaks).start = 100 ∧
      Sample.zero_start_peaks.map (fun p => p.start) = [0, 100] ∧
      (ReferencePeakCollection.empty.add_each Sample.zero_start_peaks).end_ = 200 ∧
      (ReferencePeakCollection.empty.add_each Sample.zero_start_peaks).peaks =
        Sample.zero_start_peaks) ∧
    (∀ (c : ReferencePeakCollection) (peak : Peak),
      (c.add peak).1.start =
        (if (c.add peak).2 then c.start
          else if c.start = 0 ∨ peak.start < c.start then peak.start else c.start)) ∧
    (∀ (reference : String) (p : Peak) (rest : List Peak),
      (∀ q ∈ p :: rest, q.reference = reference) →
        (ReferencePeakCollection.empty.add_each (p :: rest)).end_ =
            ((p :: rest).map (fun q => q.end_)).foldl max 0 ∧
          ((∀ q ∈ p :: rest, 0 < q.start) →
            (ReferencePeakCollection.empty.add_each (p :: rest)).start =
              (rest.map (fun q => q.start)).foldl min p.start)) := by
  refine ⟨⟨by decide, by decide, by decide, by decide⟩,
    fun c peak => (ReferencePeakCollection.add_bounds c peak).1, ?_⟩
  intro reference p rest hp
  have h := ReferencePeakCollection.add_each_same_reference reference (p :: rest)
    ReferencePeakCollection.empty hp (Or.inr rfl)
  refine ⟨h.1, fun hall => ?_⟩
  have hpr : p.reference = reference := hp p (List.mem_cons_self _ _)
  have hc' : ReferencePeakCollection.empty.reference = p.reference ∨
      ReferencePeakCollection.empty.reference = "" := Or.inr rfl
  have hthrow := ReferencePeakCollection.add_throws ReferencePeakCollection.empty p hc'
  have href := ReferencePeakCollection.add_reference ReferencePeakCollection.empty p hc'
  obtain ⟨hs, -⟩ := ReferencePeakCollection.add_bounds ReferencePeakCollection.empty p
  rw [hthrow] at hs
  have hs' : (ReferencePeakCollection.empty.add p).1.start = p.start := by
    rw [hs]
    simp [ReferencePeakCollection.empty]
  have h2 := (ReferencePeakCollection.add_each_same_reference reference rest
    (ReferencePeakCollection.empty.add p).1 (fun q hq => hp q (List.mem_cons_of_mem _ hq))
    (Or.inl (href.trans hpr))).2.2
    (by rw [hs']; exact hall p (List.mem_cons_self _ _))
    (fun q hq => hall q (List.mem_cons_of_mem _ hq))
  rw [hs'] at h2
  exact h2


/-! ### The pre-check of a collection -/

/-- The test of `ReferencePeakCollection::overlaps` holds of every feature of
the collection's reference, wherever it lies. -/
theorem ReferencePeakCollection.overlaps_of_reference (c : ReferencePeakCollection)
    (feature : Feature) (hne : c.peaks ≠ []) (href : c.reference = feature.reference)
    (hc : c.start ≤ c.end_) (hf : feature.start ≤ feature.end_) :
    c.overlaps feature = true := by
  unfold ReferencePeakCollection.overlaps
  have h1 : c.peaks.isEmpty = false := by
    cases hp : c.peaks with
    | nil => exact absurd hp hne
    | cons p rest => rfl
  have h2 : c.start ≤ feature.end_ ∨ feature.start ≤ c.end_ := by omega
  simp only [h1, href, Bool.not_false, beq_self_eq_true, Bool.true_and, Bool.or_eq_true,
    decide_eq_true_eq]
  exact h2

/-- C22 (the code does otherwise): the pre-check joins its two coordinate
tests with "or", so it holds of every feature with `start <= end` in the
reference of a collection that holds a peak and has `start <= end`, also of
one that lies entirely before or entirely after the cached span; for such a
feature `increment_overlapping_hqaa` goes on to the search and the scan.  The
collection with the span chr1:100-200 passes chr1:300-400 and chr1:10-20. -/
theorem overlaps_passes_disjoint_feature :
    (∀ (c : ReferencePeakCollection) (feature : Feature),
      c.peaks ≠ [] → c.reference = feature.reference → c.start ≤ c.end_ →
        feature.start ≤ feature.end_ →
          c.overlaps feature = true ∧
          ∀ ops : FeatureOps, c.increment_overlapping_hqaa ops feature =
            { c with
              peaks :=
                c.peaks.take (upper_bound ops c.peaks feature) ++
                  increment_while_overlapping feature
                    (c.peaks.drop (upper_bound ops c.peaks feature)) }) ∧
    (Sample.chr1_collection.end_ < Sample.late_feature.start ∧
      Sample.chr1_collection.overlaps Sample.late_feature = true) ∧
    (Sample.early_feature.end_ < Sample.chr1_collection.start ∧
      Sample.chr1_collection.overlaps Sample.early_feature = true) := by
  refine ⟨?_, ⟨by decide, by decide⟩, ⟨by decide, by decide⟩⟩
  intro c feature hne href hc hf
  have h := ReferencePeakCollection.overlaps_of_reference c feature hne href hc hf
  refine ⟨h, fun ops => ?_⟩
  unfold ReferencePeakCollection.increment_overlapping_hqaa
  rw [if_pos h]

/-! ### The reference of the peaks of a collection -/

theorem ReferencePeakCollection.add_throws_iff (c : ReferencePeakCollection) (peak : Peak) :
    (c.add peak).2 = true ↔ (c.reference ≠ "" ∧ c.reference ≠ peak.reference) := by
  unfold ReferencePeakCollection.add
  dsimp only
  by_cases h : c.reference ≠ peak.reference ∧ c.reference ≠ ""
  · rw [if_pos h]
    exact ⟨fun _ => ⟨h.2, h.1⟩, fun _ => rfl⟩
  · rw [if_neg h]
    exact ⟨fun e => Bool.noConfusion e, fun e => absurd ⟨e.2, e.1⟩ h⟩

theorem PeakTree.add_uniform (t : PeakTree) (peak : Peak) (h : t.uniform) :
    (t.add peak).1.uniform := by
  intro name p hp
  unfold PeakTree.add at hp
  dsimp only at hp
  by_cases hn : name = peak.reference
  · rw [hn, tree_find_update_same, ReferencePeakCollection.add_peaks, List.mem_append] at hp
    rcases hp with hp | hp
    · rw [hn]
      exact h peak.reference p hp
    · rw [List.mem_singleton.mp hp, hn]
  · rw [tree_find_update_other name peak.reference hn] at hp
    exact h name p hp

theorem PeakTree.add_all_invariants (peaks : List Peak) (t : PeakTree)
    (hw : t.well_named) (hu : t.uniform) :
    (t.add_all peaks).2 = false ∧ (t.add_all peaks).1.well_named ∧
      (t.add_all peaks).1.uniform := by
  induction peaks generalizing t with
  | nil => exact ⟨rfl, hw, hu⟩
  | cons p rest ih =>
    obtain ⟨h1, h2⟩ := PeakTree.add_well_named t p hw
    unfold PeakTree.add_all
    dsimp only
    rw [h1]
    simp only [Bool.false_eq_true, if_false]
    exact ih _ h2 (PeakTree.add_uniform t p hu)

/-- C24 (the code does otherwise): `ReferencePeakCollection::add` throws iff
the collection's reference is not empty and differs from the peak's, but it
has appended the peak before it tests the reference, so the call that throws
leaves the peak in the sequence: after the failed `add` of a chr2 peak the
chr1 collection holds a peak of chr2.  `PeakTree::add` never throws on a tree
built by `PeakTree::add`, and every peak of such a tree is in the reference of
its collection. -/
theorem add_appends_before_it_throws :
    (∀ (c : ReferencePeakCollection) (peak : Peak),
      ((c.add peak).2 = true ↔ (c.reference ≠ "" ∧ c.reference ≠ peak.reference)) ∧
      (c.add peak).1.peaks = c.peaks ++ [peak]) ∧
    ((Sample.chr1_collection.add Sample.chr2_peak).2 = true ∧
      (Sample.chr1_collection.add Sample.chr2_peak).1.reference = "chr1" ∧
      (Sample.chr1_collection.add Sample.chr2_peak).1.peaks.map (fun p => p.reference) =
        ["chr1", "chr2"]) ∧
    (∀ peaks : List Peak,
      (PeakTree.add_all { tree := [] } peaks).2 = false ∧
      (PeakTree.add_all { tree := [] } peaks).1.well_named ∧
      (PeakTree.add_all { tree := [] } peaks).1.uniform) := by
  refine ⟨fun c peak => ⟨ReferencePeakCollection.add_throws_iff c peak,
    ReferencePeakCollection.add_peaks c peak⟩, ⟨by decide, by decide, by decide⟩, ?_⟩
  intro peaks
  refine PeakTree.add_all_invariants peaks { tree := [] } (fun _ => Or.inr rfl) ?_
  intro name p hp
  cases hp


/-! ### Comparison of peaks -/

/-- C23, as stated, fails: two peaks that agree in reference, start, end and
name and differ in `overlapping_hqaa` do not compare equal under `operator==`,
and under `operator<` the one with the smaller count is below the other,
whatever the string comparison, while a peak compared with itself is below
only if the string comparison puts a string below itself. -/
theorem peak_comparisons_read_the_count :
    (Sample.peak "A" 100 200).toFeature =
      ({ Sample.peak "A" 100 200 with overlapping_hqaa := 1 } : Peak).toFeature ∧
    Peak.operator_eq (Sample.peak "A" 100 200)
      { Sample.peak "A" 100 200 with overlapping_hqaa := 1 } = false ∧
    (∀ sort_strings_numerically : String → String → Bool,
      Peak.operator_lt sort_strings_numerically (Sample.peak "A" 100 200)
        { Sample.peak "A" 100 200 with overlapping_hqaa := 1 } = true ∧
      Peak.operator_lt sort_strings_numerically (Sample.peak "A" 100 200)
          (Sample.peak "A" 100 200) =
        (sort_strings_numerically "chr1" "chr1" || sort_strings_numerically "A" "A")) := by
  refine ⟨rfl, by decide, fun ssn => ⟨?_, ?_⟩⟩
  · simp [Peak.operator_lt, Sample.peak]
  · simp [Peak.operator_lt, Sample.peak]

/-- C23, amended. `operator==` holds of two peaks iff they agree in all five
fields, `overlapping_hqaa` included; `operator<` holds of two peaks iff it
holds of them with their counts set aside, or they are in the same reference
and the first has the smaller `overlapping_hqaa`. -/
theorem peak_comparisons_over_five_fields
    (sort_strings_numerically : String → String → Bool) (p1 p2 : Peak) :
    (Peak.operator_eq p1 p2 = true ↔
      (p1.reference = p2.reference ∧ p1.start = p2.start ∧ p1.end_ = p2.end_ ∧
        p1.name = p2.name ∧ p1.overlapping_hqaa = p2.overlapping_hqaa)) ∧
    Peak.operator_lt sort_strings_numerically p1 p2 =
      (Peak.operator_lt sort_strings_numerically { p1 with overlapping_hqaa := 0 }
          { p2 with overlapping_hqaa := 0 } ||
        (p1.reference == p2.reference &&
          decide (p1.overlapping_hqaa < p2.overlapping_hqaa))) := by
  constructor
  · simp only [Peak.operator_eq, Bool.and_eq_true, beq_iff_eq]
    constructor
    · rintro ⟨⟨⟨⟨h1, h2⟩, h3⟩, h4⟩, h5⟩
      exact ⟨h1, h2, h3, h5, h4⟩
    · rintro ⟨h1, h2, h3, h5, h4⟩
      exact ⟨⟨⟨⟨h1, h2⟩, h3⟩, h4⟩, h5⟩
  · unfold Peak.operator_lt
    dsimp only
    cases sort_strings_numerically p1.reference p2.reference <;>
      cases (p1.reference == p2.reference) <;>
      cases decide (p1.start < p2.start) <;>
      cases decide (p1.end_ < p2.end_) <;>
      cases decide (p1.overlapping_hqaa < p2.overlapping_hqaa) <;>
      cases sort_strings_numerically p1.name p2.name <;> simp

/-- C29 (the code does otherwise): `operator<` puts the peak chr1:10-100 below
the peak chr1:20-50, because it starts earlier, and the peak chr1:20-50 below
the peak chr1:10-100, because it ends earlier, whatever the string
comparison: the relation is not asymmetric, so not a strict weak ordering. -/
theorem peak_operator_lt_both_ways (sort_strings_numerically : String → String → Bool) :
    Peak.operator_lt sort_strings_numerically Sample.outer_peak Sample.inner_peak = true ∧
    Peak.operator_lt sort_strings_numerically Sample.inner_peak Sample.outer_peak = true ∧
    (∀ (p1 p2 : Peak), p1.reference = p2.reference → p1.start < p2.start →
      p2.end_ < p1.end_ →
        Peak.operator_lt sort_strings_numerically p1 p2 = true ∧
          Peak.operator_lt sort_strings_numerically p2 p1 = true) := by
  refine ⟨?_, ?_, ?_⟩
  · simp [Peak.operator_lt, Sample.outer_peak, Sample.inner_peak, Sample.peak]
  · simp [Peak.operator_lt, Sample.outer_peak, Sample.inner_peak, Sample.peak]
  · intro p1 p2 hr hs he
    simp [Peak.operator_lt, hr, hs, he]


/-! ### The shared reference cache -/

/-- A second lookup of a name, by whatever collector, returns what the first
lookup returned. -/
theorem MetricsCollector.is_autosomal_shared (first second : MetricsCollector) (name : String)
    (refcache : Refcache) :
    second.is_autosomal name (first.is_autosomal name refcache).2 =
      ((first.is_autosomal name refcache).1, (first.is_autosomal name refcache).2) := by
  unfold MetricsCollector.is_autosomal
  cases h : List.lookup name refcache with
  | some b =>
    dsimp only
    rw [h]
  | none =>
    dsimp only
    rw [List.lookup_cons, beq_self_eq_true]

/-- C26 (the code does otherwise): the cache of `is_autosomal` is one per
process and keyed by the reference name alone, so a collector is given the
answer of whichever collector asked first.  For "chr20", autosomal in the
human set and not in the mouse set of the constructor: after the human
collector has asked, the mouse collector and its aggregators answer true;
after the mouse collector has asked, the human collector answers false. -/
theorem is_autosomal_answers_from_shared_cache :
    (Sample.human.autosomal_reference "chr20" = true ∧
      Sample.mouse.autosomal_reference "chr20" = false) ∧
    ((Sample.mouse.is_autosomal "chr20" (Sample.human.is_autosomal "chr20" []).2).1 = true ∧
      ((Metrics.fresh Sample.mouse "rg").is_autosomal "chr20"
        (Sample.human.is_autosomal "chr20" []).2).1 = true ∧
      (Sample.mouse.is_autosomal "chr20" []).1 = false) ∧
    ((Sample.human.is_autosomal "chr20" (Sample.mouse.is_autosomal "chr20" []).2).1 = false ∧
      (Sample.human.is_autosomal "chr20" []).1 = true) ∧
    (∀ (first second : MetricsCollector) (name : String) (refcache : Refcache),
      (second.is_autosomal name (first.is_autosomal name refcache).2).1 =
        (first.is_autosomal name refcache).1) := by
  refine ⟨⟨by decide, by decide⟩, ⟨by decide, by decide, by decide⟩, ⟨by decide, by decide⟩, ?_⟩
  intro first second name refcache
  rw [MetricsCollector.is_autosomal_shared]


/-! ### Alignments in peaks -/

/-- C30 (the code does otherwise): with the peaks chr1:150-200 and
chr1:300-400 loaded from a peak file and the one properly paired record
`Sample.proper`, whose footprint chr1:100-350 overlaps both peaks, the stream
ends with `hqaa = 1`; `increment_overlapping_hqaa` has raised the count of
both peaks, and `determine_top_peaks` adds the counts up to
`hqaa_in_peaks = 2`.  Every comparison that puts a feature below two peaks it
overlaps has one call raise both counts. -/
theorem hqaa_in_peaks_counts_once_per_peak :
    Metrics.new Sample.peak_collector "rg" Sample.unread_peak
        (Sample.neighbour_peak_file.map PeakLine.full) [] =
      Except.ok (Metrics.constructed Sample.peak_collector "rg" true Sample.neighbour_peaks 150,
        [("chr1", true)]) ∧
    (Sample.ops.of_record Sample.header Sample.proper =
        { reference := "chr1", start := 100, end_ := 350, name := "read1" } ∧
      Sample.neighbour_peaks.all_peaks.map
        (fun p => p.toFeature.overlaps (Sample.ops.of_record Sample.header Sample.proper)) =
        [true, true]) ∧
    ((Metrics.constructed Sample.peak_collector "rg" true Sample.neighbour_peaks 150).completed
        Sample.ops Sample.header [("chr1", true)] [Sample.proper]).hqaa = 1 ∧
    ((Metrics.constructed Sample.peak_collector "rg" true Sample.neighbour_peaks 150).completed
        Sample.ops Sample.header [("chr1", true)] [Sample.proper]).peaks.all_peaks.map
      (fun p => p.overlapping_hqaa) = [1, 1] ∧
    ((Metrics.constructed Sample.peak_collector "rg" true Sample.neighbour_peaks 150).completed
        Sample.ops Sample.header [("chr1", true)] [Sample.proper]).hqaa_in_peaks = 2 ∧
    (∀ (ops : FeatureOps) (hqaa : Feature) (a b : Peak) (c : ReferencePeakCollection),
      c.peaks = [a, b] → c.overlaps hqaa = true → ops.lt hqaa a = true →
        ops.lt hqaa b = true → a.toFeature.overlaps hqaa = true →
          b.toFeature.overlaps hqaa = true →
            (PeakTree.increment_overlapping_hqaa ops { tree := [(hqaa.reference, c)] }
                hqaa).all_peaks.map (fun p => p.overlapping_hqaa) =
              [a.overlapping_hqaa + 1, b.overlapping_hqaa + 1]) := by
  refine ⟨rfl, ⟨by decide, by decide⟩, by decide, by decide, by decide, ?_⟩
  intro ops hqaa a b c hc hov ha hb hoa hob
  rw [increment_pair ops hqaa a b c hc hov, ha, hb]
  simp [increment_while_overlapping, hoa, hob]

end Ataqc
